import Mathlib

/-!
Verification of the RMS_BE match-scheduling core against its specification.

The definitions below are a shallow embedding of the TypeScript source:

* `src/match-scheduler/playoff-scheduler.ts` — bracket building
  (`generatePlayoffSchedule` / `createSeededAlliancePayload`), winner
  advancement (`updatePlayoffBrackets`) and placement finalization
  (`finalizePlayoffRankings`).
* `src/match-scheduler/frc-scheduler.ts` — the simulated-annealing
  schedule optimizer (`generateFrcSchedule`, `generateInitialSchedule`,
  `optimizeSchedule`, `generateNeighborSchedule`, `calculateScheduleScore`).
* `src/match-scheduler/services/matchup-history.service.ts` — repeat-matchup
  penalties (`calculateRepeatMatchupPenalty`, `optimizeAllianceAssignment`).
* `src/match-scheduler/strategies/swiss-scheduling.strategy.ts` — the
  adaptive (Swiss) pairing engine.
* `src/swiss-scheduler.ts` — standings refresh (`updateSwissRankings`).

Database records (Prisma rows) are modelled as plain structures; the Prisma
client is modelled by explicit list lookups over an in-memory `DB` value, and
an `Except String` result models thrown errors.  JavaScript numbers are
modelled as `Nat`/`Int`/`Rat`; every concrete run proved below only involves
values on which IEEE double arithmetic is exact.  `Math.random()`-driven
choices are modelled by explicit oracle arguments, so that theorems can
quantify over every possible sequence of random draws.
-/

namespace RMS

inductive AllianceColor : Type
  | RED
  | BLUE
deriving DecidableEq, Repr

inductive MatchState : Type
  | PENDING
  | IN_PROGRESS
  | COMPLETED
deriving DecidableEq, Repr

inductive StageType : Type
  | SWISS
  | PLAYOFF
deriving DecidableEq, Repr

open AllianceColor MatchState StageType

/-- A row of the `Match` table, restricted to the columns the scheduling core
reads or writes (`playoff-scheduler.ts` selects exactly these). -/
structure MatchRow : Type where
  id : Nat
  stageId : Nat
  matchNumber : Nat
  roundNumber : Nat
  bracketSlot : Option Nat := none
  status : MatchState := PENDING
  winningAlliance : Option AllianceColor := none
  feedsIntoMatchId : Option Nat := none
  fieldId : Option Nat := none
  scheduledTime : Option Nat := none
deriving DecidableEq, Repr

/-- A row of the `Alliance` table. -/
structure AllianceRow : Type where
  id : Nat
  matchId : Nat
  color : AllianceColor
deriving DecidableEq, Repr

/-- A row of the `TeamAlliance` table. -/
structure TeamAllianceRow : Type where
  allianceId : Nat
  teamId : Nat
  stationPosition : Nat
deriving DecidableEq, Repr

/-- In-memory model of the persistence collaborator: the three tables the
playoff scheduler touches, in insertion order (Prisma `include` without an
`orderBy` returns rows in insertion order). -/
structure DB : Type where
  matchRows : List MatchRow  -- the `Match` table (`matches` is reserved in Lean)
  alliances : List AllianceRow
  teamAlliances : List TeamAllianceRow
deriving DecidableEq, Repr

/-- `prisma.match.findUnique({ where: { id } })`. -/
def findMatch (db : DB) (matchId : Nat) : Option MatchRow :=
  db.matchRows.find? (fun m => m.id == matchId)

/-- The `alliances` relation of a match (insertion order). -/
def alliancesOf (db : DB) (matchId : Nat) : List AllianceRow :=
  db.alliances.filter (fun a => a.matchId == matchId)

/-- The `teamAlliances` relation of an alliance (insertion order). -/
def teamAlliancesOf (db : DB) (allianceId : Nat) : List TeamAllianceRow :=
  db.teamAlliances.filter (fun ta => ta.allianceId == allianceId)

/-- `(teamId, stationPosition)` pairs of an alliance: the roster with station
assignments, as compared by the specification. -/
def rosterOf (db : DB) (allianceId : Nat) : List (Nat × Nat) :=
  (teamAlliancesOf db allianceId).map (fun ta => (ta.teamId, ta.stationPosition))

/-- A stable sort by a boolean "goes no later than" comparison, modelling
both Prisma's `orderBy` and JavaScript's (stable) `Array.prototype.sort`. -/
def sortBy {α : Type} (le : α → α → Bool) (l : List α) : List α :=
  List.insertionSort (fun a b => le a b = true) l

/-- Prisma `orderBy: { bracketSlot: 'asc' }`.  Playoff matches always carry a
bracket slot; a missing slot is ordered first (as 0). -/
def bracketSlotLe (a b : MatchRow) : Bool :=
  a.bracketSlot.getD 0 ≤ b.bracketSlot.getD 0

/-- `prisma.match.findMany({ where: { stageId, roundNumber }, orderBy:
{ bracketSlot: 'asc' } })` from `updatePlayoffBrackets`. -/
def roundMatchesSorted (db : DB) (stageId roundNumber : Nat) : List MatchRow :=
  sortBy bracketSlotLe (db.matchRows.filter
    (fun m => m.stageId == stageId && m.roundNumber == roundNumber))

/-- `PlayoffScheduler.updatePlayoffBrackets` (playoff-scheduler.ts:193-261):
validate the completed match, locate its position inside its round by
ascending bracket slot, and move the winning roster into the forward match's
red (even position) or blue (odd position) alliance by deleting that
alliance's `TeamAlliance` rows and re-creating them from the winner.
Returns the updated DB together with the ids re-fetched at the end
(`[matchId, nextMatch.id]`). -/
def updatePlayoffBrackets (db : DB) (matchId : Nat) :
    Except String (DB × List Nat) :=
  match findMatch db matchId with
  | none => .error "Match not found"
  | some m =>
    if m.status ≠ COMPLETED then .error "Match is not completed"
    else match m.winningAlliance with
    | none => .error "Match has no winning alliance"
    | some winColor =>
      match m.feedsIntoMatchId with
      | none => .error "Match does not feed into another match"
      | some nextId =>
        match (alliancesOf db m.id).find? (fun a => a.color == winColor) with
        | none => .error "No winning alliance found"
        | some winningAlliance =>
          match findMatch db nextId with
          | none => .error "Next match not found"
          | some nextMatch =>
            match (roundMatchesSorted db m.stageId m.roundNumber).findIdx?
                (fun entry => entry.id == matchId) with
            | none => .error "Unable to determine bracket position"
            | some matchIndex =>
              let advancesAs := if matchIndex % 2 == 0 then RED else BLUE
              match (alliancesOf db nextMatch.id).find?
                  (fun a => a.color == advancesAs) with
              | none => .error "Target alliance not found in next match"
              | some targetAlliance =>
                let remaining := db.teamAlliances.filter
                  (fun ta => ! (ta.allianceId == targetAlliance.id))
                let moved := (teamAlliancesOf db winningAlliance.id).map
                  (fun ta =>
                    { allianceId := targetAlliance.id
                      teamId := ta.teamId
                      stationPosition := ta.stationPosition : TeamAllianceRow })
                .ok ({ db with teamAlliances := remaining ++ moved },
                     [matchId, nextMatch.id])

/-! ### Bracket building (`generatePlayoffSchedule`) -/

/-- The stage record fields read by the playoff builder. -/
structure StageRec : Type where
  id : Nat
  type : StageType
  teamsPerAlliance : Option Nat := none
deriving DecidableEq, Repr

/-- JavaScript truthiness of `x?.field ? field + 1 : 1` used for
`nextMatchNumber` / `nextBracketSlot` (a stored 0 is falsy). -/
def nextAfter (last : Option Nat) : Nat :=
  match last with
  | none => 1
  | some n => if n = 0 then 1 else n + 1

/-- `createSeededAlliancePayload` (playoff-scheduler.ts:135-176).  A fixed
4-team seed order is used: `seedOrder = [0, 3, 1, 2]`; out-of-range accesses
(JS `undefined`) make the seed lookup fail.  `teamsPerAlliance` and
`numTeamsNeeded` are accepted but not used by the source, which always seeds
one team per alliance at station 1. -/
def createSeededAlliancePayload (teamStats : List Nat) (matchIndex : Nat)
    (_teamsPerAlliance _numTeamsNeeded : Nat) :
    Except String (List (AllianceColor × List (Nat × Nat))) :=
  let seedOrder : List Nat := [0, 3, 1, 2]
  let redSeed := (seedOrder.get? (matchIndex * 2)).bind (fun i => teamStats.get? i)
  let blueSeed := (seedOrder.get? (matchIndex * 2 + 1)).bind (fun i => teamStats.get? i)
  match redSeed, blueSeed with
  | some rs, some bs => .ok [(RED, [(rs, 1)]), (BLUE, [(bs, 1)])]
  | _, _ => .error "Unable to determine playoff seeds"

/-- `createEmptyAlliancePayload` (playoff-scheduler.ts:178-191). -/
def createEmptyAlliancePayload (_teamsPerAlliance : Nat) :
    List (AllianceColor × List (Nat × Nat)) :=
  [(RED, []), (BLUE, [])]

/-- Mutable counters of the bracket-building loop, together with the rows
created so far (`matchesByRound` keeps rounds separately so that forward
references can be wired after each round, exactly as in the source). -/
structure BuildState : Type where
  nextMatchNumber : Nat
  nextBracketSlot : Nat
  nextMatchId : Nat
  nextAllianceId : Nat
  createdCount : Nat
  rounds : List (List MatchRow)
  alliances : List AllianceRow
  teamAlliances : List TeamAllianceRow
deriving Repr

/-- One `prisma.match.create` call of the building loop: a pending match on
the round-robin field, with its alliance payload, consuming fresh ids and the
`matchNumber` / `bracketSlot` counters. -/
def createBracketMatch (stage : StageRec) (fields : List Nat) (kickoffTime : Nat)
    (round : Nat) (payload : List (AllianceColor × List (Nat × Nat)))
    (st : BuildState) : MatchRow × BuildState :=
  let scheduledOffsetMinutes := (st.createdCount + 1) * 15
  let fieldIndex := st.createdCount % fields.length
  let row : MatchRow :=
    { id := st.nextMatchId
      stageId := stage.id
      matchNumber := st.nextMatchNumber
      roundNumber := round
      bracketSlot := some st.nextBracketSlot
      status := PENDING
      fieldId := some (fields.getD fieldIndex 0)
      scheduledTime := some (kickoffTime + scheduledOffsetMinutes * 60 * 1000) }
  let newAlliances := payload.enum.map
    (fun p => { id := st.nextAllianceId + p.1
                matchId := st.nextMatchId
                color := p.2.1 : AllianceRow })
  let newTeamAlliances := payload.enum.flatMap
    (fun p => p.2.2.map (fun seat =>
      { allianceId := st.nextAllianceId + p.1
        teamId := seat.1
        stationPosition := seat.2 : TeamAllianceRow }))
  (row,
   { st with
      nextMatchNumber := st.nextMatchNumber + 1
      nextBracketSlot := st.nextBracketSlot + 1
      nextMatchId := st.nextMatchId + 1
      nextAllianceId := st.nextAllianceId + payload.length
      createdCount := st.createdCount + 1
      alliances := st.alliances ++ newAlliances
      teamAlliances := st.teamAlliances ++ newTeamAlliances })

/-- The inner `for (matchIndex …)` loop of one round: creates
`matchesInRound` matches (seeded payload in round 1, empty later). -/
def buildRoundMatches (stage : StageRec) (fields : List Nat) (kickoffTime : Nat)
    (teamStats : List Nat) (teamsPerAlliance numTeamsNeeded round count : Nat)
    (st : BuildState) : Except String (List MatchRow × BuildState) :=
  (List.range count).foldlM
    (fun acc matchIndex => do
      let payload ←
        if round = 1 then
          createSeededAlliancePayload teamStats matchIndex teamsPerAlliance numTeamsNeeded
        else
          pure (createEmptyAlliancePayload teamsPerAlliance)
      let (row, st') := createBracketMatch stage fields kickoffTime round payload acc.2
      pure (acc.1 ++ [row], st'))
    ([], st)

/-- The body of the outer `for (round …)` loop: create the round's matches,
then (for rounds after the first) set `feedsIntoMatchId` of every previous
round match to the current-round match at half its index. -/
def buildRoundStep (stage : StageRec) (fields : List Nat) (kickoffTime : Nat)
    (teamStats : List Nat) (teamsPerAlliance numTeamsNeeded numberOfRounds : Nat)
    (st : BuildState) (round : Nat) : Except String BuildState := do
  let count := 2 ^ (numberOfRounds - round)
  let (cur, st') ← buildRoundMatches stage fields kickoffTime teamStats
    teamsPerAlliance numTeamsNeeded round count st
  if round > 1 then
    let prev := (st'.rounds.getLast?).getD []
    let wired ← prev.enum.mapM (fun p =>
      match cur.get? (p.1 / 2) with
      | some target => .ok { p.2 with feedsIntoMatchId := some target.id }
      | none => .error "Unable to wire bracket round")
    pure { st' with rounds := st'.rounds.dropLast ++ [wired, cur] }
  else
    pure { st' with rounds := st'.rounds ++ [cur] }

/-- `PlayoffScheduler.generatePlayoffSchedule` (playoff-scheduler.ts:15-133)
as a pure function.  `teamStats` is the list of team ids already ordered by
`FRC_RANKING_ORDER` (the Prisma query's `orderBy`); `fields` the tournament's
field ids ordered by number; `lastMatchNumber` / `lastBracketSlot` the
highest existing values in the stage.  Returns the created rows. -/
def generatePlayoffSchedule (stage : StageRec) (numberOfRounds : Nat)
    (teamStats : List Nat) (fields : List Nat)
    (lastMatchNumber lastBracketSlot : Option Nat) (kickoffTime : Nat) :
    Except String DB := do
  if stage.type ≠ PLAYOFF then
    throw "Stage is not a PLAYOFF stage"
  let teamsPerAlliance :=
    match stage.teamsPerAlliance with
    | none => 1
    | some n => if n = 0 then 1 else n
  let numTeamsNeeded := 2 ^ numberOfRounds
  if teamStats.length < numTeamsNeeded then
    throw "Not enough teams with stats for the playoff"
  if fields.length = 0 then
    throw "No fields available for playoff match assignment"
  let st0 : BuildState :=
    { nextMatchNumber := nextAfter lastMatchNumber
      nextBracketSlot := nextAfter lastBracketSlot
      nextMatchId := 1
      nextAllianceId := 1
      createdCount := 0
      rounds := []
      alliances := []
      teamAlliances := [] }
  let stFinal ← (List.range' 1 numberOfRounds).foldlM
    (buildRoundStep stage fields kickoffTime teamStats teamsPerAlliance
      numTeamsNeeded numberOfRounds) st0
  pure { matchRows := stFinal.rounds.flatten
         alliances := stFinal.alliances
         teamAlliances := stFinal.teamAlliances }

/-- Teams of one colored alliance of a match, as fetched through the
`alliances.teamAlliances` include. -/
def matchAllianceTeams (db : DB) (matchId : Nat) (c : AllianceColor) : List Nat :=
  match (alliancesOf db matchId).find? (fun a => a.color == c) with
  | none => []
  | some a => (teamAlliancesOf db a.id).map (fun ta => ta.teamId)

/-- A playoff stage record used for concrete runs. -/
def playoffStage : StageRec := { id := 1, type := PLAYOFF, teamsPerAlliance := some 1 }

/-- A completed four-team bracket state just before advancement: two round-1
matches (ids 1, 2; bracket slots 1, 2) feeding the final (id 3); match 1 is
completed with RED (team 10) as winner. -/
def sampleBracketDB : DB :=
  { matchRows :=
      [ { id := 1, stageId := 1, matchNumber := 1, roundNumber := 1,
          bracketSlot := some 1, status := COMPLETED,
          winningAlliance := some RED, feedsIntoMatchId := some 3 },
        { id := 2, stageId := 1, matchNumber := 2, roundNumber := 1,
          bracketSlot := some 2, status := PENDING,
          winningAlliance := none, feedsIntoMatchId := some 3 },
        { id := 3, stageId := 1, matchNumber := 3, roundNumber := 2,
          bracketSlot := some 3, status := PENDING,
          winningAlliance := none, feedsIntoMatchId := none } ]
    alliances :=
      [ { id := 1, matchId := 1, color := RED },
        { id := 2, matchId := 1, color := BLUE },
        { id := 3, matchId := 2, color := RED },
        { id := 4, matchId := 2, color := BLUE },
        { id := 5, matchId := 3, color := RED },
        { id := 6, matchId := 3, color := BLUE } ]
    teamAlliances :=
      [ { allianceId := 1, teamId := 10, stationPosition := 1 },
        { allianceId := 2, teamId := 20, stationPosition := 1 },
        { allianceId := 3, teamId := 30, stationPosition := 1 },
        { allianceId := 4, teamId := 40, stationPosition := 1 } ] }

/-- `sampleBracketDB` after the first successful advance of match 1: the
final's red alliance (id 5) received team 10 at station 1. -/
def sampleBracketDB1 : DB :=
  { sampleBracketDB with
      teamAlliances := sampleBracketDB.teamAlliances ++
        [ { allianceId := 5, teamId := 10, stationPosition := 1 } ] }

/-! ### Placement finalization (`finalizePlayoffRankings`) -/

/-- Prisma `orderBy: [{ roundNumber: 'desc' }, { matchNumber: 'asc' }]` of
`finalizePlayoffRankings`. -/
def finalizeLe (a b : MatchRow) : Bool :=
  b.roundNumber < a.roundNumber ||
    (a.roundNumber == b.roundNumber && a.matchNumber ≤ b.matchNumber)

/-- The stage's matches in the order `finalizePlayoffRankings` walks them:
last round first, then by ascending match number. -/
def stageMatchesForFinalize (db : DB) (stageId : Nat) : List MatchRow :=
  sortBy finalizeLe (db.matchRows.filter (fun m => m.stageId == stageId))

/-- `Math.max(...matches.map(m => m.roundNumber || 0))`. -/
def maxRoundOf (ms : List MatchRow) : Nat :=
  (ms.map (fun m => m.roundNumber)).foldl max 0

/-- The `(teamId, rank)` assignments one match contributes inside the
`finalizePlayoffRankings` loop, in the order they are written into the
`teamRankings` map: nothing without a winning alliance (or when either
alliance is missing); in the last round the winning roster gets rank 1 then
the losing roster rank 2; in earlier rounds the losing roster gets
`2 ^ (maxRound - roundNumber) + 1`. -/
def settersFor (db : DB) (maxRound : Nat) (m : MatchRow) : List (Nat × Nat) :=
  match m.winningAlliance with
  | none => []
  | some w =>
    match (alliancesOf db m.id).find? (fun a => a.color == w),
        (alliancesOf db m.id).find? (fun a => ! (a.color == w)) with
    | some wa, some la =>
      if m.roundNumber == maxRound then
        (teamAlliancesOf db wa.id).map (fun ta => (ta.teamId, 1)) ++
          (teamAlliancesOf db la.id).map (fun ta => (ta.teamId, 2))
      else
        (teamAlliancesOf db la.id).map
          (fun ta => (ta.teamId, 2 ^ (maxRound - m.roundNumber) + 1))
    | _, _ => []

/-- One `teamRankings.set(teamId, rank)` call. -/
def setRank (r : Nat → Option Nat) (p : Nat × Nat) : Nat → Option Nat :=
  fun t => if t = p.1 then some p.2 else r t

/-- `PlayoffScheduler.finalizePlayoffRankings` (playoff-scheduler.ts:263-310)
as a pure function: after checking that the stage has matches and that all of
them are completed, fold the per-match rank assignments (in walk order) into
a last-write-wins map from team id to final rank.  (The source then writes
each entry into `teamStats.rank`; the returned map is exactly what gets
written.) -/
def finalizePlayoffRankings (db : DB) (stageId : Nat) :
    Except String (Nat → Option Nat) :=
  let ms := stageMatchesForFinalize db stageId
  if ms.length = 0 then
    .error "No matches found for stage"
  else if 0 < (ms.filter (fun m => m.status ≠ COMPLETED)).length then
    .error "Cannot finalize rankings: matches are still incomplete"
  else
    .ok ((ms.flatMap (settersFor db (maxRoundOf ms))).foldl setRank (fun _ => none))

/-! ### Matchup history (`matchup-history.service.ts`) -/

/-- `MatchupHistoryService.calculateRepeatMatchupPenalty`
(matchup-history.service.ts:70-86): the number of (red, blue) pairs whose
red member's previous-opponent set contains the blue member.  Teams are
identified by their ids; `previousOpponents` is the adjacency structure built
by `getPreviousOpponents`. -/
def calculateRepeatMatchupPenalty (redTeams blueTeams : List Nat)
    (previousOpponents : Nat → Nat → Bool) : Nat :=
  (redTeams.map
    (fun r => (blueTeams.filter (fun b => previousOpponents r b)).length)).sum

/-- The index combinations visited by the recursive `choose` DFS of
`optimizeAllianceAssignment` (matchup-history.service.ts:113-145), in
visiting order: ascending index sequences of length `k` drawn from
`[start, totalTeams)`, where the loop bound `i <= totalTeams -
(teamsPerAlliance - combo.length)` prunes starts that cannot be completed. -/
def allianceCombos (totalTeams : Nat) : Nat → Nat → List (List Nat)
  | 0, _ => [[]]
  | k + 1, start =>
    ((List.range' start
        (((totalTeams : Int) - (k + 1) - start + 1).toNat)).map
      (fun i => (allianceCombos totalTeams k (i + 1)).map (fun c => i :: c))).flatten

/-- The split of `matchTeams` determined by a red-index combination:
`combo.map(index => matchTeams[index])` versus
`matchTeams.filter((_, idx) => !redIndices.has(idx))`. -/
def comboSplit (matchTeams : List Nat) (combo : List Nat) : List Nat × List Nat :=
  (combo.map (fun i => matchTeams.getD i 0),
   (matchTeams.enum.filter (fun p => ! combo.contains p.1)).map (fun p => p.2))

/-- The mutable `bestRed` / `bestBlue` / `lowestPenalty` state of the DFS. -/
structure AllianceChoiceState : Type where
  bestRed : List Nat
  bestBlue : List Nat
  lowestPenalty : Nat
deriving DecidableEq, Repr

/-- One candidate evaluation of the `choose` DFS
(matchup-history.service.ts:114-143): skip when a zero-penalty split is
already held (the DFS early exits), otherwise keep the candidate if its
penalty is strictly lower than the current best. -/
def allianceChoiceStep (matchTeams : List Nat)
    (previousOpponents : Nat → Nat → Bool) (st : AllianceChoiceState)
    (combo : List Nat) : AllianceChoiceState :=
  if st.lowestPenalty = 0 then st
  else
    let split := comboSplit matchTeams combo
    let penalty := calculateRepeatMatchupPenalty split.1 split.2 previousOpponents
    if penalty < st.lowestPenalty then
      { bestRed := split.1, bestBlue := split.2, lowestPenalty := penalty }
    else st

/-- `MatchupHistoryService.optimizeAllianceAssignment`
(matchup-history.service.ts:95-148).  The recursive DFS with in-place state
and `lowestPenalty === 0` early exits is modelled as a guarded left fold over
the DFS visiting order (`allianceCombos`): the guard skips candidates once a
zero-penalty split is held, and since no candidate can be strictly below 0
the fold computes the same final state as the pruned DFS. -/
def optimizeAllianceAssignment (matchTeams : List Nat)
    (previousOpponents : Nat → Nat → Bool) (teamsPerAlliance : Nat) :
    Except String (List Nat × List Nat) :=
  let totalTeams := teamsPerAlliance * 2
  if matchTeams.length ≠ totalTeams then
    .error "Unexpected number of teams for match"
  else
    let defaultRed := matchTeams.take teamsPerAlliance
    let defaultBlue := (matchTeams.drop teamsPerAlliance).take (totalTeams - teamsPerAlliance)
    let st0 : AllianceChoiceState :=
      { bestRed := defaultRed
        bestBlue := defaultBlue
        lowestPenalty := calculateRepeatMatchupPenalty defaultRed defaultBlue previousOpponents }
    let final := (allianceCombos totalTeams teamsPerAlliance 0).foldl
      (allianceChoiceStep matchTeams previousOpponents) st0
    .ok (final.bestRed, final.bestBlue)

/-! ### Adaptive (Swiss) pairing engine (`swiss-scheduling.strategy.ts`) -/

/-- A `TeamStats` row, restricted to the columns the scheduling core reads
and writes.  Point values are rationals (JS numbers). -/
structure TeamStatsRow : Type where
  teamId : Nat
  wins : Nat := 0
  losses : Nat := 0
  ties : Nat := 0
  pointsScored : Rat := 0
  pointsConceded : Rat := 0
  matchesPlayed : Nat := 0
  rankingPoints : Rat := 0
  opponentWinPercentage : Rat := 0
  pointDifferential : Rat := 0
  tiebreaker1 : Rat := 0
  tiebreaker2 : Rat := 0
deriving DecidableEq, Repr

/-- `sortTeamsByTiebreakers` (swiss-scheduling.strategy.ts:193-200) as the
"goes no later than" relation of the JS comparator (comparator value ≤ 0):
ranking points descending; then, when the difference exceeds the 0.001
tolerance, opponent win percentage descending; then point differential
descending.  JS `Array.prototype.sort` is stable, as is `sortBy`. -/
def tiebreakLe (a b : TeamStatsRow) : Bool :=
  if a.rankingPoints ≠ b.rankingPoints then b.rankingPoints < a.rankingPoints
  else if (1 : Rat) / 1000 < |b.opponentWinPercentage - a.opponentWinPercentage| then
    b.opponentWinPercentage ≤ a.opponentWinPercentage
  else b.pointDifferential ≤ a.pointDifferential

/-- `Math.min(...fieldAssignmentCounts)` followed by the uniform choice among
least-used field indexes and the counter increment — the field balancer step
used by both schedulers (frc-scheduler.ts:126-132; the separate
`FieldAssignmentService.assignField` of the Swiss strategy is specified the
same way in §4.3).  `pick` models the `Math.random()` draw. -/
def assignLeastUsedField (fields : List Nat) (counts : List Nat) (pick : Nat) :
    Nat × List Nat :=
  let minCount := counts.foldl min (counts.headD 0)
  let candidateIndexes := (counts.enum.filter (fun p => p.2 = minCount)).map (fun p => p.1)
  let chosenIdx := candidateIndexes.getD (pick % candidateIndexes.length) 0
  (fields.getD chosenIdx 0, counts.set chosenIdx (counts.getD chosenIdx 0 + 1))

/-- A match record emitted by the Swiss pairing engine (teams listed in
station order). -/
structure SwissMatchRec : Type where
  matchNumber : Nat
  roundNumber : Nat
  redTeams : List Nat
  blueTeams : List Nat
  fieldId : Nat
deriving DecidableEq, Repr

/-- Loop state of `generateSwissMatches`. -/
structure SwissLoopState : Type where
  paired : List Nat
  fieldCounts : List Nat
  matchNumber : Nat
  matchesOut : List SwissMatchRec
deriving Repr

/-- The body of the chunking loop of `generateSwissMatches`
(swiss-scheduling.strategy.ts:140-185), one iteration per starting index
`i ∈ {0, tpm, 2·tpm, …}`; a `break` is modelled by returning the matches
accumulated so far.  `fieldPick` supplies the field balancer's random
draws. -/
def swissPairLoop (sorted : List TeamStatsRow)
    (previousOpponents : Nat → Nat → Bool) (shuffledFields : List Nat)
    (teamsPerAlliance teamsPerMatch nextRoundNumber : Nat)
    (fieldPick : Nat → Nat) :
    List Nat → SwissLoopState → Except String (List SwissMatchRec)
  | [], st => .ok st.matchesOut
  | i :: rest, st =>
    if i + teamsPerMatch > sorted.length then .ok st.matchesOut
    else
      let availableTeams := sorted.filter (fun t => ! st.paired.contains t.teamId)
      if availableTeams.length < teamsPerMatch then .ok st.matchesOut
      else do
        let matchTeams := availableTeams.take teamsPerMatch
        let split ← optimizeAllianceAssignment (matchTeams.map (fun t => t.teamId))
          previousOpponents teamsPerAlliance
        let assigned := assignLeastUsedField shuffledFields st.fieldCounts
          (fieldPick st.matchesOut.length)
        let rec0 : SwissMatchRec :=
          { matchNumber := st.matchNumber
            roundNumber := nextRoundNumber
            redTeams := split.1
            blueTeams := split.2
            fieldId := assigned.1 }
        swissPairLoop sorted previousOpponents shuffledFields teamsPerAlliance
          teamsPerMatch nextRoundNumber fieldPick rest
          { paired := st.paired ++ matchTeams.map (fun t => t.teamId)
            fieldCounts := assigned.2
            matchNumber := st.matchNumber + 1
            matchesOut := st.matchesOut ++ [rec0] }

/-- `generateSwissMatches` (swiss-scheduling.strategy.ts:110-189): sort the
stats by tiebreakers, then walk the sorted list in chunks of `teamsPerMatch`,
optimizing each chunk's alliance split against the matchup history.
`existingMaxMatchNumber` is the highest match number already used in the
stage. -/
def generateSwissMatches (nextRoundNumber : Nat) (teamStats : List TeamStatsRow)
    (previousOpponents : Nat → Nat → Bool) (shuffledFields : List Nat)
    (initialFieldCounts : List Nat) (teamsPerAlliance teamsPerMatch : Nat)
    (existingMaxMatchNumber : Option Nat) (fieldPick : Nat → Nat) :
    Except String (List SwissMatchRec) :=
  let matchNumber := match existingMaxMatchNumber with
    | some n => n + 1
    | none => 1
  let sorted := sortBy tiebreakLe teamStats
  let chunkStarts :=
    if teamsPerMatch = 0 then []
    else List.range' 0 ((sorted.length + teamsPerMatch - 1) / teamsPerMatch) teamsPerMatch
  swissPairLoop sorted previousOpponents shuffledFields teamsPerAlliance
    teamsPerMatch nextRoundNumber fieldPick chunkStarts
    { paired := []
      fieldCounts := initialFieldCounts
      matchNumber := matchNumber
      matchesOut := [] }

/-- `SwissSchedulingStrategy.generateMatches`
(swiss-scheduling.strategy.ts:32-68), the `generateNextAdaptiveRound`
operation: destructure the options (alliance size defaults to 2), reject
alliance sizes outside 1–3, validate fields, then pair the next round.
`teamStats` stands for the ranked stats returned by the persistence
collaborator (`getOrCreateTeamStats`), `previousOpponents` for the matchup
history, and `shuffledFields` for the oracle-chosen shuffle of the
tournament's fields. -/
def swissGenerateMatches (optionsTeamsPerAlliance : Option Nat)
    (currentRoundNumber : Nat) (fields : List Nat) (shuffledFields : List Nat)
    (teamStats : List TeamStatsRow) (previousOpponents : Nat → Nat → Bool)
    (existingMaxMatchNumber : Option Nat) (fieldPick : Nat → Nat) :
    Except String (List SwissMatchRec) := do
  let teamsPerAlliance := optionsTeamsPerAlliance.getD 2
  let teamsPerMatch := teamsPerAlliance * 2
  if teamsPerAlliance < 1 ∨ teamsPerAlliance > 3 then
    throw "Swiss strategy supports 1-3 teams per alliance"
  -- Modelled from the spec: `FieldAssignmentService.validateFieldAvailability`
  -- (source file not under src/): §4.3 fails when no resources are available.
  if fields.length = 0 then
    throw "No fields available"
  generateSwissMatches (currentRoundNumber + 1) teamStats previousOpponents
    shuffledFields (List.replicate shuffledFields.length 0) teamsPerAlliance
    teamsPerMatch existingMaxMatchNumber fieldPick


/-! ### Exact rational arithmetic for the optimizer's scores

JavaScript numbers entering the score computation are modelled by exact
rationals.  Mathlib's `Rat` normalizes through `Nat.gcd`, which the kernel
cannot evaluate, so the embedding uses unnormalized fractions with a
positive denominator: every operation the source performs on scores (add,
subtract, multiply, divide, absolute value, order comparisons) is defined
below by cross-multiplication and is kernel-computable.  Every concrete run
in this file only reaches values on which IEEE double arithmetic is exact,
so the exact-rational semantics coincides with the source's float
semantics there. -/

/-- An exact rational: `num / den` with `den > 0` in every value the
embedding constructs. -/
structure Q : Type where
  num : Int
  den : Int
deriving DecidableEq, Repr

instance : OfNat Q n := ⟨⟨n, 1⟩⟩

instance : NatCast Q := ⟨fun n => ⟨n, 1⟩⟩

instance : IntCast Q := ⟨fun n => ⟨n, 1⟩⟩

instance : Add Q := ⟨fun a b => ⟨a.num * b.den + b.num * a.den, a.den * b.den⟩⟩

instance : Sub Q := ⟨fun a b => ⟨a.num * b.den - b.num * a.den, a.den * b.den⟩⟩

instance : Mul Q := ⟨fun a b => ⟨a.num * b.num, a.den * b.den⟩⟩

/-- Division; the sign of the divisor moves into the numerator so the
denominator stays positive (no embedding path divides by zero). -/
instance : Div Q := ⟨fun a b =>
  if 0 ≤ b.num then ⟨a.num * b.den, a.den * b.num⟩
  else ⟨-(a.num * b.den), a.den * (-b.num)⟩⟩

/-- `Math.abs`. -/
def Q.abs (a : Q) : Q := ⟨Int.ofNat a.num.natAbs, a.den⟩

instance : LT Q := ⟨fun a b => a.num * b.den < b.num * a.den⟩

instance : LE Q := ⟨fun a b => a.num * b.den ≤ b.num * a.den⟩

instance (a b : Q) : Decidable (a < b) :=
  inferInstanceAs (Decidable (a.num * b.den < b.num * a.den))

instance (a b : Q) : Decidable (a ≤ b) :=
  inferInstanceAs (Decidable (a.num * b.den ≤ b.num * a.den))

/-- Value equality of two fractions (JS `===` on numbers). -/
def Q.eqv (a b : Q) : Prop := a.num * b.den = b.num * a.den

instance (a b : Q) : Decidable (a.eqv b) :=
  inferInstanceAs (Decidable (a.num * b.den = b.num * a.den))

/-! ### FRC optimizer (`frc-scheduler.ts`, `frc-scheduler.config.ts`) -/

/-- `FrcSchedulerConfig.penalties`. -/
structure FrcPenalties : Type where
  partnerRepeat : Q
  opponentRepeat : Q
  generalRepeat : Q
  matchSeparationViolation : Q
  redBlueImbalance : Q
  stationImbalance : Q
deriving DecidableEq, Repr

/-- `FrcSchedulerConfig.simulatedAnnealing`. -/
structure AnnealingParams : Type where
  initialTemperature : Q
  coolingRate : Q
  minTemperature : Q
  iterationsPerTemperature : Nat
deriving DecidableEq, Repr

/-- `FrcSchedulerConfig.constraints`. -/
structure FrcConstraints : Type where
  minMatchSeparation : Nat
  enableSurrogates : Bool
  surrogateRound : Nat
  enforceRoundUniformity : Bool
deriving DecidableEq, Repr

/-- `FrcSchedulerConfig.stationBalancing` (the `strategy` /
`perfectBalancing` knobs are never read by the generator). -/
structure StationBalancing : Type where
  enabled : Bool
  mirrored : Bool
  perfectBalancing : Bool
deriving DecidableEq, Repr

/-- `FrcSchedulerConfig.qualityLevel`. -/
inductive QualityLevel : Type
  | fair
  | good
  | best
  | custom
deriving DecidableEq, Repr

/-- `FrcSchedulerConfig` (frc-scheduler.config.ts), the knobs actually read
by `generateFrcSchedule` (`allianceBalancing` and `rounds.uniformDistribution`
are carried but never read). -/
structure FrcSchedulerConfig : Type where
  teamsPerAlliance : Nat
  alliancesPerMatch : Nat
  qualityLevel : QualityLevel
  customIterations : Option Nat
  simulatedAnnealing : AnnealingParams
  penalties : FrcPenalties
  constraints : FrcConstraints
  stationBalancing : StationBalancing
  roundsCount : Nat
deriving DecidableEq, Repr

/-- `QUALITY_ITERATIONS` (frc-scheduler.config.ts). -/
def qualityIterations : QualityLevel → Nat
  | .fair => 100000
  | .good => 750000
  | .best => 5000000
  | .custom => 750000

/-- `getIterationsForQuality` (frc-scheduler.ts:58-63):
`custom` uses `customIterations || good`. -/
def getIterationsForQuality (cfg : FrcSchedulerConfig) : Nat :=
  match cfg.qualityLevel with
  | .custom =>
    match cfg.customIterations with
    | some n => if n = 0 then qualityIterations .good else n
    | none => qualityIterations .good
  | q => qualityIterations q

/-- `DEFAULT_FRC_CONFIG` (frc-scheduler.config.ts:64-107). -/
def DEFAULT_FRC_CONFIG : FrcSchedulerConfig :=
  { teamsPerAlliance := 3
    alliancesPerMatch := 2
    qualityLevel := .good
    customIterations := none
    simulatedAnnealing :=
      { initialTemperature := 100
        coolingRate := 95 / 100
        minTemperature := 1 / 100
        iterationsPerTemperature := 100 }
    penalties :=
      { partnerRepeat := 3
        opponentRepeat := 2
        generalRepeat := 1
        matchSeparationViolation := 10
        redBlueImbalance := 2
        stationImbalance := 1 / 2 }
    constraints :=
      { minMatchSeparation := 1
        enableSurrogates := true
        surrogateRound := 3
        enforceRoundUniformity := true }
    stationBalancing := { enabled := true, mirrored := false, perfectBalancing := true }
    roundsCount := 6 }

/-- A working-schedule match (`Match` in match-scheduler.types): numeric team
ids `1..numTeams`, station order within each alliance list.  `surrogates`
is `undefined` in the even-division branch and `[]` (never filled) in the
odd branch. -/
structure FMatch : Type where
  matchNumber : Nat
  redAlliance : List Nat
  blueAlliance : List Nat
  surrogates : Option (List Nat) := none
deriving DecidableEq, Repr

instance : Inhabited FMatch := ⟨{ matchNumber := 0, redAlliance := [], blueAlliance := [] }⟩

/-- The per-team statistics cache of the working schedule.  `partners` /
`opponents` are the count maps (0 for absent keys). -/
structure TeamStatCache : Type where
  appearances : List Nat
  partners : Nat → Nat
  opponents : Nat → Nat
  redCount : Nat
  blueCount : Nat
  stationAppearances : List Nat

/-- Fresh cache entry. -/
def emptyStatCache (totalStations : Nat) : TeamStatCache :=
  { appearances := []
    partners := fun _ => 0
    opponents := fun _ => 0
    redCount := 0
    blueCount := 0
    stationAppearances := List.replicate totalStations 0 }

/-- `map.set(k, (map.get(k) || 0) + 1)`. -/
def bumpCount (f : Nat → Nat) (k : Nat) : Nat → Nat :=
  fun x => if x = k then f k + 1 else f x

/-- Point update of the stats map at one tracked team. -/
def updateStatsAt (stats : Nat → TeamStatCache) (team : Nat)
    (f : TeamStatCache → TeamStatCache) : Nat → TeamStatCache :=
  fun x => if x = team then f (stats team) else stats x

/-- The red-alliance half of `updateTeamStats` (frc-scheduler.ts:386-409) for
the slot at index `i` holding `team`: appearance, red count, station `i`,
partners (other red slots), opponents (all blue slots).  Teams outside the
tracked range `1..numTeams` are skipped (`if (teamStats)`). -/
def recordRedSlot (numTeams : Nat) (m : FMatch) (matchNum : Nat)
    (stats : Nat → TeamStatCache) (p : Nat × Nat) : Nat → TeamStatCache :=
  if 1 ≤ p.2 ∧ p.2 ≤ numTeams then
    updateStatsAt stats p.2 (fun s =>
      { s with
          appearances := s.appearances ++ [matchNum]
          redCount := s.redCount + 1
          stationAppearances :=
            s.stationAppearances.set p.1 (s.stationAppearances.getD p.1 0 + 1)
          partners := (m.redAlliance.enum.filter (fun q => q.1 ≠ p.1)).foldl
            (fun f q => bumpCount f q.2) s.partners
          opponents := m.blueAlliance.foldl bumpCount s.opponents })
  else stats

/-- The blue-alliance half of `updateTeamStats` (frc-scheduler.ts:411-434);
the station index is offset by `teamsPerAlliance`. -/
def recordBlueSlot (numTeams teamsPerAlliance : Nat) (m : FMatch) (matchNum : Nat)
    (stats : Nat → TeamStatCache) (p : Nat × Nat) : Nat → TeamStatCache :=
  if 1 ≤ p.2 ∧ p.2 ≤ numTeams then
    updateStatsAt stats p.2 (fun s =>
      { s with
          appearances := s.appearances ++ [matchNum]
          blueCount := s.blueCount + 1
          stationAppearances :=
            s.stationAppearances.set (p.1 + teamsPerAlliance)
              (s.stationAppearances.getD (p.1 + teamsPerAlliance) 0 + 1)
          partners := (m.blueAlliance.enum.filter (fun q => q.1 ≠ p.1)).foldl
            (fun f q => bumpCount f q.2) s.partners
          opponents := m.redAlliance.foldl bumpCount s.opponents })
  else stats

/-- `updateTeamStats` for one match at index `matchNum`. -/
def updateTeamStats (numTeams teamsPerAlliance : Nat) (stats : Nat → TeamStatCache)
    (m : FMatch) (matchNum : Nat) : Nat → TeamStatCache :=
  m.blueAlliance.enum.foldl (recordBlueSlot numTeams teamsPerAlliance m matchNum)
    (m.redAlliance.enum.foldl (recordRedSlot numTeams m matchNum) stats)

/-- The stats cache of a match list.  The source maintains this cache in
place — built incrementally during `generateInitialSchedule` and rebuilt
wholesale by `recalculateTeamStats` after every swap — and both paths yield
exactly this fold. -/
def computeTeamStats (numTeams teamsPerAlliance totalStations : Nat)
    (ms : List FMatch) : Nat → TeamStatCache :=
  ms.enum.foldl (fun stats p => updateTeamStats numTeams teamsPerAlliance stats p.2 p.1)
    (fun _ => emptyStatCache totalStations)

/-- One team's contribution to `calculateScheduleScore`
(frc-scheduler.ts:339-381).  The `partners` / `opponents` map iterations are
taken over all tracked teams `1..numTeams` (keys with count 0 contribute
nothing, matching iteration over only the present keys). -/
def perTeamScore (cfg : FrcSchedulerConfig) (minMatchSeparation numTeams totalStations : Nat)
    (s : TeamStatCache) : Q :=
  let partnerPenalty := ((List.range numTeams).map (fun j =>
    let c := s.partners (j + 1)
    if 1 < c then cfg.penalties.partnerRepeat * ((c : Q) - 1) else 0)).sum
  let opponentPenalty := ((List.range numTeams).map (fun j =>
    let c := s.opponents (j + 1)
    if 1 < c then cfg.penalties.opponentRepeat * ((c : Q) - 1) else 0)).sum
  let separationPenalty := ((List.range (s.appearances.length - 1)).map (fun i =>
    let separation : Int := (s.appearances.getD (i + 1) 0 : Int) - (s.appearances.getD i 0 : Int)
    if separation < (minMatchSeparation : Int) then
      ((minMatchSeparation : Q) - (separation : Q)) * cfg.penalties.matchSeparationViolation
    else 0)).sum
  let imbalancePenalty :=
    (((s.redCount : Int) - (s.blueCount : Int)).natAbs : Q) * cfg.penalties.redBlueImbalance
  let stationPenalty :=
    if cfg.stationBalancing.enabled then
      let expected : Q := (s.appearances.length : Q) / (totalStations : Q)
      (s.stationAppearances.map (fun c => ((c : Q) - expected).abs * cfg.penalties.stationImbalance)).sum
    else 0
  partnerPenalty + opponentPenalty + separationPenalty + imbalancePenalty + stationPenalty

/-- `calculateScheduleScore` (frc-scheduler.ts:339-381), summed over the
tracked teams `1..numTeams`. -/
def calculateScheduleScore (cfg : FrcSchedulerConfig) (minMatchSeparation numTeams : Nat)
    (ms : List FMatch) : Q :=
  let totalStations := cfg.teamsPerAlliance * cfg.alliancesPerMatch
  let stats := computeTeamStats numTeams cfg.teamsPerAlliance totalStations ms
  ((List.range numTeams).map
    (fun j => perTeamScore cfg minMatchSeparation numTeams totalStations (stats (j + 1)))).sum

/-- Match `k` (1-based) of the even-division branch of
`generateInitialSchedule` (frc-scheduler.ts:457-481).  Because of the
post-increment in `matchNumber++`, the team index expression
`((matchNumber - 1) * teamsPerMatch + i) % numTeams` reads the already
incremented counter, so match `k` draws the block starting at
`k * teamsPerMatch`. -/
def mkEvenMatch (teamsPerAlliance teamsPerMatch numTeams k : Nat) : FMatch :=
  { matchNumber := k
    redAlliance := (List.range teamsPerAlliance).map
      (fun i => (k * teamsPerMatch + i) % numTeams + 1)
    blueAlliance := (List.range teamsPerAlliance).map
      (fun i => (k * teamsPerMatch + i + teamsPerAlliance) % numTeams + 1)
    surrogates := none }

/-- One iteration of the odd-division (`else`) branch of
`generateInitialSchedule` (frc-scheduler.ts:482-519): sort the teams by
appearance count (stably) and fill red then blue stations from the front.
State: `(appearance counts indexed by team, next matchNumber)`. -/
def mkOddMatch (teamsPerAlliance numTeams : Nat) (appearances : List Nat) (k : Nat) :
    FMatch × List Nat :=
  let sortedTeams := sortBy (fun a b => appearances.getD a 0 ≤ appearances.getD b 0)
    ((List.range numTeams).map (fun i => i + 1))
  let red := sortedTeams.take teamsPerAlliance
  let blue := (sortedTeams.drop teamsPerAlliance).take teamsPerAlliance
  ({ matchNumber := k
     redAlliance := red
     blueAlliance := blue
     surrogates := some [] },
   (red ++ blue).foldl (fun app t => app.set t (app.getD t 0 + 1)) appearances)

/-- `generateInitialSchedule` (frc-scheduler.ts:437-523).  `totalMatches =
Math.ceil(numTeams * rounds / teamsPerMatch)`.  (For `teamsPerMatch = 0` the
source would loop forever on an infinite match count; the model returns no
matches — no claim touches that configuration.) -/
def generateInitialSchedule (cfg : FrcSchedulerConfig) (numTeams rounds : Nat) :
    List FMatch :=
  let teamsPerMatch := cfg.teamsPerAlliance * cfg.alliancesPerMatch
  let totalMatches :=
    if teamsPerMatch = 0 then 0
    else (numTeams * rounds + teamsPerMatch - 1) / teamsPerMatch
  if numTeams % teamsPerMatch = 0 then
    (List.range totalMatches).map
      (fun j => mkEvenMatch cfg.teamsPerAlliance teamsPerMatch numTeams (j + 1))
  else
    ((List.range totalMatches).foldl
      (fun acc j =>
        let built := mkOddMatch cfg.teamsPerAlliance numTeams acc.2 (j + 1)
        (acc.1 ++ [built.1], built.2))
      ([], List.replicate (numTeams + 1) 0)).1

/-- `Math.floor(Math.random() * n)`: a draw in `[0, n)` for `n ≥ 1` (and `0`
for `n = 0`).  `raw` is the oracle's value for this draw; any value in range
is realizable. -/
def randBelow (n raw : Nat) : Nat :=
  if n = 0 then 0 else raw % n

/-- The random draws consumed by one `generateNeighborSchedule` call. -/
structure NeighborChoice : Type where
  m1 : Nat
  m2 : Nat
  red1 : Bool
  red2 : Bool
  p1 : Nat
  p2 : Nat
deriving DecidableEq, Repr

/-- Read alliance slot `pos` of a match. -/
def getSlot (useRed : Bool) (pos : Nat) (m : FMatch) : Nat :=
  if useRed then m.redAlliance.getD pos 0 else m.blueAlliance.getD pos 0

/-- Write alliance slot `pos` of a match. -/
def setSlot (useRed : Bool) (pos v : Nat) (m : FMatch) : FMatch :=
  if useRed then { m with redAlliance := m.redAlliance.set pos v }
  else { m with blueAlliance := m.blueAlliance.set pos v }

/-- `generateNeighborSchedule` (frc-scheduler.ts:262-288): pick two distinct
matches, an alliance and a station in each, and swap the two occupying
teams.  (`match2Index` is drawn from `[0, len-1)` and bumped past
`match1Index`.)  The stats cache rebuild (`recalculateTeamStats`) has no
separate representation since stats are derived by `computeTeamStats`. -/
def generateNeighborSchedule (teamsPerAlliance : Nat) (c : NeighborChoice)
    (ms : List FMatch) : List FMatch :=
  if 2 ≤ ms.length then
    let match1Index := randBelow ms.length c.m1
    let k := randBelow (ms.length - 1) c.m2
    let match2Index := if match1Index ≤ k then k + 1 else k
    let pos1 := randBelow teamsPerAlliance c.p1
    let pos2 := randBelow teamsPerAlliance c.p2
    let v1 := getSlot c.red1 pos1 (ms.getD match1Index default)
    let v2 := getSlot c.red2 pos2 (ms.getD match2Index default)
    let ms1 := ms.set match1Index (setSlot c.red1 pos1 v2 (ms.getD match1Index default))
    ms1.set match2Index (setSlot c.red2 pos2 v1 (ms1.getD match2Index default))
  else ms

/-- The outcome of `calculateAcceptanceProbability(current, new, T) >
Math.random()` (frc-scheduler.ts:255-260) whenever the draw cannot change
it: an improving neighbor has probability 1.0 (`Math.random() < 1` always),
and a frozen temperature gives probability 0.0 (never `>` the draw).  In
the remaining cases `exp(-Δ/T) ∈ (0, 1]` and the comparison is left to the
oracle (both outcomes are realizable except at Δ = 0, where the model may
only reject more often than the source). -/
def acceptanceForced (currentScore newScore temperature : Q) : Option Bool :=
  if newScore < currentScore then some true
  else if temperature < 1 / 10000 then some false
  else none

/-- The random draws consumed by one `generateFrcSchedule` run. -/
structure FrcOracle : Type where
  choice : Nat → NeighborChoice
  accept : Nat → Bool
  fieldPick : Nat → Nat

/-- The annealing loop of `optimizeSchedule` (frc-scheduler.ts:223-253),
with the remaining iteration budget as fuel.  The geometric cooling every
`iterationsPerTemperature` iterations is computed exactly in `Q` (the
claims proved below hold for every number of executed iterations, so the
model's loop count standing in for the float-computed one is immaterial). -/
def optimizeLoop (cfg : FrcSchedulerConfig) (minMatchSeparation numTeams : Nat)
    (ω : FrcOracle) :
    Nat → Nat → Q → List FMatch → Q → List FMatch → Q → List FMatch × Q
  | 0, _, _, _, _, best, bestScore => (best, bestScore)
  | fuel + 1, iteration, temperature, sched, schedScore, best, bestScore =>
    if cfg.simulatedAnnealing.minTemperature < temperature then
      let neighbor := generateNeighborSchedule cfg.teamsPerAlliance (ω.choice iteration) sched
      let neighborScore := calculateScheduleScore cfg minMatchSeparation numTeams neighbor
      let accepted := (acceptanceForced schedScore neighborScore temperature).getD
        (ω.accept iteration)
      let sched' := if accepted then neighbor else sched
      let schedScore' := if accepted then neighborScore else schedScore
      let best' := if accepted ∧ neighborScore < bestScore then neighbor else best
      let bestScore' := if accepted ∧ neighborScore < bestScore then neighborScore else bestScore
      let temperature' :=
        if iteration % cfg.simulatedAnnealing.iterationsPerTemperature = 0 then
          temperature * cfg.simulatedAnnealing.coolingRate
        else temperature
      optimizeLoop cfg minMatchSeparation numTeams ω fuel (iteration + 1) temperature'
        sched' schedScore' best' bestScore'
    else (best, bestScore)

/-- `optimizeSchedule` (frc-scheduler.ts:223-253): score the initial
schedule, run the annealing loop, return the best-scoring candidate seen. -/
def optimizeSchedule (cfg : FrcSchedulerConfig) (minMatchSeparation numTeams maxIterations : Nat)
    (ω : FrcOracle) (ms : List FMatch) : List FMatch × Q :=
  let score := calculateScheduleScore cfg minMatchSeparation numTeams ms
  optimizeLoop cfg minMatchSeparation numTeams ω maxIterations 0
    cfg.simulatedAnnealing.initialTemperature ms score ms score

/-- A persisted match record created by `generateFrcSchedule`: team ids with
their surrogate flags in station order on each alliance. -/
structure FrcOutMatch : Type where
  matchNumber : Nat
  red : List (Nat × Bool)
  blue : List (Nat × Bool)
  fieldId : Nat
  scheduledTime : Nat
deriving DecidableEq, Repr

/-- `FrcScheduler.generateFrcSchedule` (frc-scheduler.ts:65-184) with the
configuration overrides already applied to `cfg` (the method mutates
`this.config` from its parameters before running).  `teams` is
`stage.tournament.teams` (ids in list order), `shuffledFields` the
oracle-chosen shuffle of the tournament's field numbers, `now` the
`Date.now()` timestamp.  Surrogate flags come from
`match.surrogates?.includes(team) || false`. -/
def generateFrcSchedule (cfg : FrcSchedulerConfig) (teams : List Nat)
    (shuffledFields : List Nat) (maxIterations : Option Nat) (ω : FrcOracle)
    (now : Nat) : Except String (List FrcOutMatch) := do
  let teamsPerMatch := cfg.teamsPerAlliance * cfg.alliancesPerMatch
  let numTeams := teams.length
  if shuffledFields.length = 0 then
    throw "No fields found for this tournament."
  if numTeams < teamsPerMatch then
    throw "Not enough teams to create a schedule"
  let iterations := match maxIterations with
    | some n => if n = 0 then getIterationsForQuality cfg else n
    | none => getIterationsForQuality cfg
  let initial := generateInitialSchedule cfg numTeams cfg.roundsCount
  let best := (optimizeSchedule cfg cfg.constraints.minMatchSeparation numTeams
    iterations ω initial).1
  let out := best.foldl
    (fun acc m =>
      let assigned := assignLeastUsedField shuffledFields acc.2 (ω.fieldPick acc.1.length)
      let fieldNumber := if assigned.1 = 0 then 1 else assigned.1
      let matchNumber := acc.1.length + 1
      let rec0 : FrcOutMatch :=
        { matchNumber := matchNumber
          red := m.redAlliance.map (fun t =>
            (teams.getD (t - 1) 0, (m.surrogates.getD []).contains t))
          blue := m.blueAlliance.map (fun t =>
            (teams.getD (t - 1) 0, (m.surrogates.getD []).contains t))
          fieldId := assigned.1
          scheduledTime := now + (matchNumber - 1) * 10 * 60 * 1000 +
            (fieldNumber - 1) * 5 * 60 * 1000 }
      (acc.1 ++ [rec0], assigned.2))
    (([] : List FrcOutMatch), List.replicate shuffledFields.length 0)
  pure out.1

/-! ### Standings refresh (`swiss-scheduler.ts`, `updateSwissRankings`) -/

/-- A completed-or-pending match as read by `updateSwissRankings`: alliance
rosters, the stored alliance scores (absent when null), and the flexible
`matchScores` rows (alliance color, `totalPoints`). -/
structure RankingMatchInput : Type where
  status : MatchState
  redTeams : List Nat
  blueTeams : List Nat
  redAllianceScore : Option Rat := none
  blueAllianceScore : Option Rat := none
  matchScores : List (AllianceColor × Rat) := []
deriving DecidableEq, Repr

/-- Score resolution of `updateSwissRankings` (swiss-scheduler lines
100-121): `alliance?.score || 0`, falling back to the summed `totalPoints`
of the alliance's `matchScores` rows when the stored score is 0. -/
def resolveScore (allianceScore : Option Rat) (matchScores : List (AllianceColor × Rat))
    (c : AllianceColor) : Rat :=
  let s := allianceScore.getD 0
  if s = 0 then
    (matchScores.filter (fun p => p.1 == c)).foldl (fun acc p => acc + p.2) 0
  else s

/-- The per-team accumulator of `updateSwissRankings` (`teamResults`). -/
structure SwissResult : Type where
  wins : Nat := 0
  losses : Nat := 0
  ties : Nat := 0
  pointsScored : Rat := 0
  pointsConceded : Rat := 0
  opponents : List Nat := []
deriving DecidableEq, Repr

/-- One team's update for one completed match (swiss-scheduler lines
124-143): add the scores, record the opposing roster in the opponent set,
and bump exactly one of wins/losses/ties. -/
def applyTeamOutcome (res : SwissResult) (scoreFor scoreAgainst : Rat)
    (opps : List Nat) : SwissResult :=
  { res with
      pointsScored := res.pointsScored + scoreFor
      pointsConceded := res.pointsConceded + scoreAgainst
      opponents := res.opponents ++ opps.filter (fun o => ¬ res.opponents.contains o)
      wins := if scoreAgainst < scoreFor then res.wins + 1 else res.wins
      losses := if scoreFor < scoreAgainst then res.losses + 1 else res.losses
      ties := if scoreFor = scoreAgainst then res.ties + 1 else res.ties }

/-- Apply one match's outcome to every listed team that has a stats record
(`if (!result) continue` skips teams without one). -/
def recordMatchFor (statTeams : List Nat) (results : Nat → SwissResult)
    (teams : List Nat) (scoreFor scoreAgainst : Rat) (opps : List Nat) :
    Nat → SwissResult :=
  teams.foldl
    (fun r t =>
      if statTeams.contains t then
        fun x => if x = t then applyTeamOutcome (r t) scoreFor scoreAgainst opps else r x
      else r)
    results

/-- The `teamResults` map after scanning all completed matches of the stage
(swiss-scheduler lines 79-144), keyed by the teams holding a stats record. -/
def swissTeamResults (statTeams : List Nat) (ms : List RankingMatchInput) :
    Nat → SwissResult :=
  (ms.filter (fun m => m.status == COMPLETED)).foldl
    (fun results m =>
      let scoreRed := resolveScore m.redAllianceScore m.matchScores RED
      let scoreBlue := resolveScore m.blueAllianceScore m.matchScores BLUE
      recordMatchFor statTeams
        (recordMatchFor statTeams results m.redTeams scoreRed scoreBlue m.blueTeams)
        m.blueTeams scoreBlue scoreRed m.redTeams)
    (fun _ => { })

/-- `SwissScheduler.updateSwissRankings` (swiss-scheduler lines 13-211) as a
pure function: the upsert payloads written to `teamStats`, one per stats
record in map-insertion order.  The opponent-strength tiebreak stored in
`opponentWinPercentage` is `losses / totalMatches` of the team itself
(line 164) — the separately computed `winPercents` map (wins/total, lines
145-149) is never written. -/
def updateSwissRankings (statTeams : List Nat) (ms : List RankingMatchInput) :
    List (Nat × TeamStatsRow) :=
  let results := swissTeamResults statTeams ms
  statTeams.map (fun t =>
    let r := results t
    let totalMatches := r.wins + r.losses + r.ties
    let owp : Rat := if 0 < totalMatches then (r.losses : Rat) / (totalMatches : Rat) else 0
    let pointDiff := r.pointsScored - r.pointsConceded
    let rankingPoints := r.wins * 2 + r.ties
    (t, { teamId := t
          wins := r.wins
          losses := r.losses
          ties := r.ties
          pointsScored := r.pointsScored
          pointsConceded := r.pointsConceded
          matchesPlayed := totalMatches
          rankingPoints := (rankingPoints : Rat)
          opponentWinPercentage := owp
          pointDifferential := pointDiff
          tiebreaker1 := r.pointsScored
          tiebreaker2 := pointDiff }))

/-! ### Concrete inputs used by the claims' counterexamples and witnesses -/

/-- The optimizer configuration of the claim-C2 failing input: the default
MatchMaker configuration with 1v1 alliances, 2 rounds, and
`minMatchSeparation := 0` (the overrides `generateFrcSchedule(stage, 2, 0,
1, …, 1)` applies).  All penalty weights and every score value reached in
this run are dyadic rationals, on which double arithmetic is exact. -/
def cfgOneVsOne : FrcSchedulerConfig :=
  { DEFAULT_FRC_CONFIG with
      teamsPerAlliance := 1
      roundsCount := 2
      constraints := { DEFAULT_FRC_CONFIG.constraints with minMatchSeparation := 0 } }

/-- The random draws of the claim-C2 failing run: the single annealing
iteration swaps match 0's red station 0 with match 2's blue station 0
(`match1Index = 0`; `match2Index`: raw draw 1 ≥ 0, bumped to 2). -/
def oracleDup : FrcOracle :=
  { choice := fun _ =>
      { m1 := 0, m2 := 1, red1 := true, red2 := false, p1 := 0, p2 := 0 }
    accept := fun _ => true
    fieldPick := fun _ => 0 }

/-- The optimizer configuration of the claim-C9 counterexample run: default
configuration with 4 teams per alliance and a single round. -/
def cfgFourPerAlliance : FrcSchedulerConfig :=
  { DEFAULT_FRC_CONFIG with teamsPerAlliance := 4, roundsCount := 1 }

/-- An arbitrary oracle for runs whose outcome does not depend on the
draws. -/
def oracleZero : FrcOracle :=
  { choice := fun _ => { m1 := 0, m2 := 0, red1 := true, red2 := true, p1 := 0, p2 := 0 }
    accept := fun _ => true
    fieldPick := fun _ => 0 }

/-! ### Derived notions used by the theorem statements -/

/-- Number of station slots occupied by team `t` across a working schedule. -/
def teamOccurrences (ms : List FMatch) (t : Nat) : Nat :=
  (ms.map (fun m => m.redAlliance.count t + m.blueAlliance.count t)).sum

/-- Number of station slots occupied by team id `t` across the persisted
optimizer output. -/
def outTeamOccurrences (out : List FrcOutMatch) (t : Nat) : Nat :=
  (out.map (fun m => (m.red.map Prod.fst).count t + (m.blue.map Prod.fst).count t)).sum

/-- The created matches of a bracket round, in creation order. -/
def roundMatchesCreated (db : DB) (r : Nat) : List MatchRow :=
  db.matchRows.filter (fun m => m.roundNumber == r)

/-- The loop invariant of the bracket-building rounds: after creating rounds
`1..k`, `rounds` holds one list per round; ids are fresh and duplicate-free;
round `j+1` (0-based entry `j`) has `2 ^ (R - (j+1))` matches, all carrying
that round number; every already-wired round feeds the match at half its
index in the next round; and the newest round is still unwired. -/
structure BracketInv (R k : Nat) (st : BuildState) : Prop where
  len : st.rounds.length = k
  idBound : ∀ m ∈ st.rounds.flatten, m.id < st.nextMatchId
  idNodup : (st.rounds.flatten.map (fun m => m.id)).Nodup
  shape : ∀ j L, st.rounds.get? j = some L →
    L.length = 2 ^ (R - (j + 1)) ∧ ∀ m ∈ L, m.roundNumber = j + 1
  chain : ∀ j L L2, st.rounds.get? j = some L → st.rounds.get? (j + 1) = some L2 →
    ∀ i row, L.get? i = some row →
      ∃ t, L2.get? (i / 2) = some t ∧ row.feedsIntoMatchId = some t.id
  lastNone : ∀ L, st.rounds.get? (k - 1) = some L → ∀ m ∈ L, m.feedsIntoMatchId = none


/-- The winner-forward edge relation between created matches. -/
def feedsIntoRel (db : DB) (m m' : MatchRow) : Prop :=
  m ∈ db.matchRows ∧ m' ∈ db.matchRows ∧ m.feedsIntoMatchId = some m'.id


/-- The `TeamAlliance` table after an advance that moves the roster of
alliance `winId` into alliance `targetId`: the `deleteMany` of the target's
rows followed by the `create` loop over the winner's rows. -/
def advancedTeamAlliances (db : DB) (winId targetId : Nat) : List TeamAllianceRow :=
  db.teamAlliances.filter (fun ta => ! (ta.allianceId == targetId)) ++
    (teamAlliancesOf db winId).map
      (fun ta => { allianceId := targetId
                   teamId := ta.teamId
                   stationPosition := ta.stationPosition : TeamAllianceRow })

/-- Match 1 of `sampleBracketDB` (completed, won by RED). -/
def sbMatch1 : MatchRow :=
  { id := 1, stageId := 1, matchNumber := 1, roundNumber := 1, bracketSlot := some 1,
    status := COMPLETED, winningAlliance := some RED, feedsIntoMatchId := some 3 }

/-- The final of `sampleBracketDB`. -/
def sbFinal : MatchRow :=
  { id := 3, stageId := 1, matchNumber := 3, roundNumber := 2, bracketSlot := some 3 }

/-- Match 1's red (winning) alliance. -/
def sbWinA : AllianceRow := { id := 1, matchId := 1, color := RED }

/-- The final's red alliance, the advance target of match 1. -/
def sbTargetA : AllianceRow := { id := 5, matchId := 3, color := RED }


/-- A matchup history for the C4 witness: teams 1 and 3 have met before. -/
def samplePreviousOpponents : Nat → Nat → Bool :=
  fun a b => (a == 1 && b == 3) || (a == 3 && b == 1)


/-- A one-match history for the C10 witness: team 1 beat team 2 ten to
five. -/
def sampleRankingMatch : RankingMatchInput :=
  { status := COMPLETED, redTeams := [1], blueTeams := [2],
    redAllianceScore := some 10, blueAllianceScore := some 5 }


/-- A fully completed four-team bracket: the round-1 winners (RED team 10 of
match 1, BLUE team 40 of match 2) were advanced into the final (match 3,
alliances 5/6), which RED (team 10) won. -/
def sampleFinishedDB : DB :=
  { matchRows :=
      [ { id := 1, stageId := 1, matchNumber := 1, roundNumber := 1,
          bracketSlot := some 1, status := COMPLETED,
          winningAlliance := some RED, feedsIntoMatchId := some 3 },
        { id := 2, stageId := 1, matchNumber := 2, roundNumber := 1,
          bracketSlot := some 2, status := COMPLETED,
          winningAlliance := some BLUE, feedsIntoMatchId := some 3 },
        { id := 3, stageId := 1, matchNumber := 3, roundNumber := 2,
          bracketSlot := some 3, status := COMPLETED,
          winningAlliance := some RED, feedsIntoMatchId := none } ]
    alliances := sampleBracketDB.alliances
    teamAlliances :=
      [ { allianceId := 1, teamId := 10, stationPosition := 1 },
        { allianceId := 2, teamId := 20, stationPosition := 1 },
        { allianceId := 3, teamId := 30, stationPosition := 1 },
        { allianceId := 4, teamId := 40, stationPosition := 1 },
        { allianceId := 5, teamId := 10, stationPosition := 1 },
        { allianceId := 6, teamId := 40, stationPosition := 1 } ] }

/-- The first semifinal of `sampleFinishedDB` (lost by team 20). -/
def sfSemi1 : MatchRow :=
  { id := 1, stageId := 1, matchNumber := 1, roundNumber := 1,
    bracketSlot := some 1, status := COMPLETED,
    winningAlliance := some RED, feedsIntoMatchId := some 3 }

/-- The second semifinal of `sampleFinishedDB` (lost by team 30). -/
def sfSemi2 : MatchRow :=
  { id := 2, stageId := 1, matchNumber := 2, roundNumber := 1,
    bracketSlot := some 2, status := COMPLETED,
    winningAlliance := some BLUE, feedsIntoMatchId := some 3 }

/-- The completed final of `sampleFinishedDB` (won by RED, team 10 over
team 40). -/
def sfFinal : MatchRow :=
  { id := 3, stageId := 1, matchNumber := 3, roundNumber := 2,
    bracketSlot := some 3, status := COMPLETED,
    winningAlliance := some RED, feedsIntoMatchId := none }

/-- The rows created by `generatePlayoffSchedule` for a two-round bracket on
teams `[40, 30, 20, 10]` and field 5 (used by the C7 witness): both round-1
matches feed the final (id 3), which feeds nothing. -/
def builtBracketDB : DB :=
  { matchRows :=
      [ { id := 1, stageId := 1, matchNumber := 1, roundNumber := 1,
          bracketSlot := some 1, status := PENDING, winningAlliance := none,
          feedsIntoMatchId := some 3, fieldId := some 5,
          scheduledTime := some 900000 },
        { id := 2, stageId := 1, matchNumber := 2, roundNumber := 1,
          bracketSlot := some 2, status := PENDING, winningAlliance := none,
          feedsIntoMatchId := some 3, fieldId := some 5,
          scheduledTime := some 1800000 },
        { id := 3, stageId := 1, matchNumber := 3, roundNumber := 2,
          bracketSlot := some 3, status := PENDING, winningAlliance := none,
          feedsIntoMatchId := none, fieldId := some 5,
          scheduledTime := some 2700000 } ]
    alliances :=
      [ { id := 1, matchId := 1, color := RED },
        { id := 2, matchId := 1, color := BLUE },
        { id := 3, matchId := 2, color := RED },
        { id := 4, matchId := 2, color := BLUE },
        { id := 5, matchId := 3, color := RED },
        { id := 6, matchId := 3, color := BLUE } ]
    teamAlliances :=
      [ { allianceId := 1, teamId := 40, stationPosition := 1 },
        { allianceId := 2, teamId := 10, stationPosition := 1 },
        { allianceId := 3, teamId := 30, stationPosition := 1 },
        { allianceId := 4, teamId := 20, stationPosition := 1 } ] }

deriving instance DecidableEq for Except

/-! ## Theorems -/


/-- The persisted optimizer output of the claim-C5 witness run: 4 teams, 1v1
alliances, 2 rounds, one annealing iteration with the `oracleDup` draws. -/
def frcEvenWitnessOut : List FrcOutMatch :=
  [{ matchNumber := 1, red := [(104, false)], blue := [(104, false)],
     fieldId := 1, scheduledTime := 0 },
   { matchNumber := 2, red := [(101, false)], blue := [(102, false)],
     fieldId := 1, scheduledTime := 600000 },
   { matchNumber := 3, red := [(103, false)], blue := [(103, false)],
     fieldId := 1, scheduledTime := 1200000 },
   { matchNumber := 4, red := [(101, false)], blue := [(102, false)],
     fieldId := 1, scheduledTime := 1800000 }]

/-- C1, counterexample: on a ranked list of 8 seeds with `roundCount = 3`,
`buildBracket` does not pair seed *i* against seed *N−1−i*: the seeded
payload for match index 0 pairs seed 1 against seed 4 (not seed 8), and the
whole build fails with a seed-determination error at match index 2, so no
8-seed bracket is produced at all. -/
theorem buildBracket_eight_seeds_fails :
    generatePlayoffSchedule playoffStage 3 [1, 2, 3, 4, 5, 6, 7, 8] [1] none none 0 =
      .error "Unable to determine playoff seeds" ∧
    createSeededAlliancePayload [1, 2, 3, 4, 5, 6, 7, 8] 0 1 8 =
      .ok [(RED, [(1, 1)]), (BLUE, [(4, 1)])] := by
  exact ⟨by decide, by decide⟩

/-- C1 (amended): round-1 seeding follows the hard-coded 4-team seed order
`[0, 3, 1, 2]`, so only for `roundCount = 2` (bracket size `N = 4`) does
match index `i` pair seed `i` against seed `N − 1 − i`: for every ranked
list, match 0 pairs the 1st seed with the 4th and match 1 the 2nd with the
3rd — shown for the seeded payloads of both round-1 match indexes over an
arbitrary ranked list, and end-to-end for a built 4-seed bracket. -/
theorem buildBracket_four_seeds_pairing :
    (∀ (t0 t1 t2 t3 : Nat) (rest : List Nat) (tpa need : Nat),
      createSeededAlliancePayload (t0 :: t1 :: t2 :: t3 :: rest) 0 tpa need =
        .ok [(RED, [(t0, 1)]), (BLUE, [(t3, 1)])] ∧
      createSeededAlliancePayload (t0 :: t1 :: t2 :: t3 :: rest) 1 tpa need =
        .ok [(RED, [(t1, 1)]), (BLUE, [(t2, 1)])]) ∧
    (generatePlayoffSchedule playoffStage 2 [40, 30, 20, 10] [5] none none 0).map
      (fun db =>
        [(matchAllianceTeams db 1 RED, matchAllianceTeams db 1 BLUE),
         (matchAllianceTeams db 2 RED, matchAllianceTeams db 2 BLUE)]) =
    .ok [([40], [10]), ([30], [20])] := by
  exact ⟨fun t0 t1 t2 t3 rest tpa need => ⟨rfl, rfl⟩, by decide⟩

/-- C3: the claim requires the second `advanceBracket` call on the same
completed match to fail; the code instead succeeds again, deleting and
re-creating the same forward roster (a silent idempotent re-write).  On the
four-team sample bracket, advancing match 1 twice returns `ok` both times
with the identical resulting state. -/
theorem advanceBracket_second_call_is_silent :
    updatePlayoffBrackets sampleBracketDB 1 = .ok (sampleBracketDB1, [1, 3]) ∧
    updatePlayoffBrackets sampleBracketDB1 1 = .ok (sampleBracketDB1, [1, 3]) := by
  exact ⟨by decide, by decide⟩

/-- C2: the claim asserts that no optimizer output ever lists a team twice in
one match.  With 4 teams, 1v1 alliances, 2 rounds, `minMatchSeparation = 0`
and a single annealing iteration whose (realizable) draws swap match 0's red
slot with match 2's blue slot, the swap lowers the schedule score from 28 to
18 — so acceptance and the best-candidate update are both forced — and the
persisted schedule pairs team 104 against itself (and team 103 against
itself). -/
theorem optimizer_emits_duplicate_team :
    (generateFrcSchedule cfgOneVsOne [101, 102, 103, 104] [1] (some 1)
        oracleDup 0).map
      (fun out => out.map (fun m => (m.red.map Prod.fst, m.blue.map Prod.fst))) =
    .ok [([104], [104]), ([101], [102]), ([103], [103]), ([101], [102])] := by
  decide

/-- C9, counterexample: `generateOptimizedSchedule` performs no alliance-size
validation: with 4 teams per alliance (outside the claimed 1–3 range) and 8
teams it succeeds and returns a schedule instead of a configuration error. -/
theorem optimizer_accepts_allianceSize_four :
    (generateFrcSchedule cfgFourPerAlliance
        [101, 102, 103, 104, 105, 106, 107, 108] [1] (some 1) oracleZero 0).map
      (fun out => out.map (fun m => (m.red.map Prod.fst, m.blue.map Prod.fst))) =
    .ok [([101, 102, 103, 104], [105, 106, 107, 108])] := by
  decide
/-- C9 (amended): the pairing engine (`generateNextAdaptiveRound`, the Swiss
strategy) fails with a configuration error for every alliance size outside
1–3, before reading any other input; the optimizer path performs no such
validation (see the counterexample). -/
theorem swiss_rejects_allianceSize_outside_range (tpa : Nat)
    (h : tpa < 1 ∨ tpa > 3) (currentRoundNumber : Nat) (fields shuffledFields : List Nat)
    (teamStats : List TeamStatsRow) (previousOpponents : Nat → Nat → Bool)
    (existingMaxMatchNumber : Option Nat) (fieldPick : Nat → Nat) :
    swissGenerateMatches (some tpa) currentRoundNumber fields shuffledFields
      teamStats previousOpponents existingMaxMatchNumber fieldPick =
    .error "Swiss strategy supports 1-3 teams per alliance" := by
  simp only [swissGenerateMatches, Option.getD_some]
  rw [if_pos h]
  rfl

/-- C9, witness for the amended theorem at alliance size 4. -/
theorem swiss_rejects_allianceSize_outside_range_witness :
    (4 < 1 ∨ 4 > 3) ∧
    swissGenerateMatches (some 4) 0 [1] [1] [] (fun _ _ => false) none (fun _ => 0) =
      .error "Swiss strategy supports 1-3 teams per alliance" :=
  ⟨Or.inr (by decide),
   swiss_rejects_allianceSize_outside_range 4 (Or.inr (by decide)) 0 [1] [1] []
     (fun _ _ => false) none (fun _ => 0)⟩

/-- Deleted rows of the target alliance never reappear: filtering the
re-read target roster out of the rows that survived the `deleteMany`. -/
theorem filter_after_delete (l : List TeamAllianceRow) (t : Nat) :
    (l.filter (fun ta => ! (ta.allianceId == t))).filter
      (fun ta => ta.allianceId == t) = [] := by
  induction l with
  | nil => rfl
  | cons a l ih => by_cases h : a.allianceId = t <;> simp [h, ih]

/-- After an advance, the target alliance's roster reads back as exactly the
winning alliance's roster (station positions preserved). -/
theorem rosterOf_advanced (db : DB) (winId targetId : Nat) :
    rosterOf { db with teamAlliances := advancedTeamAlliances db winId targetId } targetId =
      rosterOf db winId := by
  have hnil := filter_after_delete db.teamAlliances targetId
  simp only [rosterOf, teamAlliancesOf, advancedTeamAlliances, List.filter_append, hnil,
    List.nil_append]
  have hall : ∀ x ∈ (db.teamAlliances.filter (fun ta => ta.allianceId == winId)).map
      (fun ta => (⟨targetId, ta.teamId, ta.stationPosition⟩ : TeamAllianceRow)),
      (x.allianceId == targetId) = true := by
    intro x hx
    obtain ⟨ta, _, rfl⟩ := List.mem_map.mp hx
    simp
  rw [List.filter_eq_self.mpr hall, List.map_map]
  rfl

/-- C6: whenever `advanceBracket` succeeds (all its lookups and state checks
pass), the winner of a match at even position within its round — matches
ordered by ascending bracket slot — replaces the forward match's first
(red) side, and at odd position its second (blue) side: the chosen target
alliance carries exactly that color, and its roster afterwards equals the
winning alliance's roster with every station position preserved. -/
theorem advanceBracket_moves_winner_roster
    (db : DB) (matchId : Nat) (m : MatchRow) (winColor : AllianceColor)
    (nextId : Nat) (winA : AllianceRow) (nextMatch : MatchRow) (i : Nat)
    (targetA : AllianceRow)
    (h1 : findMatch db matchId = some m)
    (h2 : m.status = COMPLETED)
    (h3 : m.winningAlliance = some winColor)
    (h4 : m.feedsIntoMatchId = some nextId)
    (h5 : (alliancesOf db m.id).find? (fun a => a.color == winColor) = some winA)
    (h6 : findMatch db nextId = some nextMatch)
    (h7 : (roundMatchesSorted db m.stageId m.roundNumber).findIdx?
        (fun entry => entry.id == matchId) = some i)
    (h8 : (alliancesOf db nextMatch.id).find?
        (fun a => a.color == (if i % 2 == 0 then RED else BLUE)) = some targetA) :
    targetA.color = (if i % 2 == 0 then RED else BLUE) ∧
    updatePlayoffBrackets db matchId =
      .ok ({ db with teamAlliances := advancedTeamAlliances db winA.id targetA.id },
           [matchId, nextMatch.id]) ∧
    rosterOf { db with teamAlliances := advancedTeamAlliances db winA.id targetA.id }
        targetA.id = rosterOf db winA.id := by
  refine ⟨?_, ?_, rosterOf_advanced db winA.id targetA.id⟩
  · have := List.find?_some h8
    simpa [beq_iff_eq] using this
  · simp only [updatePlayoffBrackets, h1, h2, h3, h4, h5, h6, h7, h8,
      advancedTeamAlliances]
    rfl

/-- C6, witness: the advance of match 1 of the four-team sample bracket (an
even, position-0 match) lands its winning roster on the final's red side. -/
theorem advanceBracket_moves_winner_roster_witness :
    (findMatch sampleBracketDB 1 = some sbMatch1 ∧
     sbMatch1.status = COMPLETED ∧
     sbMatch1.winningAlliance = some RED ∧
     sbMatch1.feedsIntoMatchId = some 3 ∧
     (alliancesOf sampleBracketDB sbMatch1.id).find? (fun a => a.color == RED) =
       some sbWinA ∧
     findMatch sampleBracketDB 3 = some sbFinal ∧
     (roundMatchesSorted sampleBracketDB sbMatch1.stageId sbMatch1.roundNumber).findIdx?
        (fun entry => entry.id == 1) = some 0 ∧
     (alliancesOf sampleBracketDB sbFinal.id).find?
        (fun a => a.color == (if 0 % 2 == 0 then RED else BLUE)) = some sbTargetA) ∧
    (sbTargetA.color = (if 0 % 2 == 0 then RED else BLUE) ∧
     updatePlayoffBrackets sampleBracketDB 1 =
       .ok ({ sampleBracketDB with
                teamAlliances :=
                  advancedTeamAlliances sampleBracketDB sbWinA.id sbTargetA.id },
            [1, sbFinal.id]) ∧
     rosterOf { sampleBracketDB with
                  teamAlliances :=
                    advancedTeamAlliances sampleBracketDB sbWinA.id sbTargetA.id }
         sbTargetA.id = rosterOf sampleBracketDB sbWinA.id) :=
  ⟨⟨by decide, by decide, by decide, by decide, by decide, by decide, by decide, by decide⟩,
   advanceBracket_moves_winner_roster sampleBracketDB 1 sbMatch1 RED 3 sbWinA sbFinal 0
     sbTargetA (by decide) (by decide) (by decide) (by decide) (by decide) (by decide)
     (by decide) (by decide)⟩

/-- A strictly increasing list of naturals above `a` and below `B` cannot be
longer than the gap. -/
theorem sorted_gap (c : List Nat) (B : Nat) : ∀ (a : Nat), c.Pairwise (· < ·) →
    (∀ x ∈ c, a < x) → (∀ x ∈ c, x < B) → a < B → a + c.length < B := by
  induction c with
  | nil => intro a _ _ _ ha; simpa using ha
  | cons j c ih =>
    intro a hp hgt hlt ha
    have hj := hgt j (List.mem_cons_self _ _)
    have hjB := hlt j (List.mem_cons_self _ _)
    have hrec := ih j (List.Pairwise.of_cons hp)
      (fun x hx => (List.pairwise_cons.mp hp).1 x hx)
      (fun x hx => hlt x (List.mem_cons_of_mem _ hx)) hjB
    simp only [List.length_cons]
    omega

/-- Completeness of the DFS enumeration: every ascending index sequence of
the right length within bounds is visited (the loop bound
`i <= totalTeams - (teamsPerAlliance - combo.length)` prunes only starts
that cannot be completed). -/
theorem mem_allianceCombos (total : Nat) : ∀ (k : Nat) (c : List Nat) (start : Nat),
    c.Pairwise (· < ·) → (∀ i ∈ c, start ≤ i ∧ i < total) → c.length = k →
    c ∈ allianceCombos total k start := by
  intro k
  induction k with
  | zero =>
    intro c start _ _ hlen
    simp [allianceCombos, List.length_eq_zero.mp hlen]
  | succ k ih =>
    intro c start hp hb hlen
    match c with
    | [] => simp at hlen
    | i :: rest =>
      have hi := hb i (List.mem_cons_self _ _)
      have hrest : rest.length = k := by simpa using hlen
      have hgap : i + rest.length < total ∨ rest = [] := by
        match rest with
        | [] => exact Or.inr rfl
        | r :: rs =>
          left
          exact sorted_gap (r :: rs) total i (List.Pairwise.of_cons hp)
            (fun x hx => (List.pairwise_cons.mp hp).1 x hx)
            (fun x hx => (hb x (List.mem_cons_of_mem _ hx)).2) hi.2
      have hcore : i + k < total := by
        rcases hgap with h | h
        · omega
        · subst h; simp at hrest; omega
      simp only [allianceCombos, List.mem_flatten]
      refine ⟨(allianceCombos total k (i + 1)).map (fun c => i :: c), ?_, ?_⟩
      · simp only [List.mem_map]
        refine ⟨i, ?_, rfl⟩
        rw [List.mem_range'_1]
        have h1 := hi.1
        have h2 := hi.2
        constructor
        · exact h1
        · omega
      · simp only [List.mem_map]
        refine ⟨rest, ?_, rfl⟩
        exact ih rest (i + 1) (List.Pairwise.of_cons hp)
          (fun x hx => ⟨(List.pairwise_cons.mp hp).1 x hx,
            (hb x (List.mem_cons_of_mem _ hx)).2⟩) hrest

/-- Soundness of the DFS enumeration: every visited combination is an
ascending, in-bounds index sequence of the requested length. -/
theorem allianceCombos_valid (total : Nat) : ∀ (k : Nat) (start : Nat) (c : List Nat),
    c ∈ allianceCombos total k start →
    c.Pairwise (· < ·) ∧ (∀ i ∈ c, start ≤ i ∧ i < total) ∧ c.length = k := by
  intro k
  induction k with
  | zero =>
    intro start c hc
    simp [allianceCombos] at hc
    subst hc
    simp
  | succ k ih =>
    intro start c hc
    simp only [allianceCombos, List.mem_flatten] at hc
    obtain ⟨l, hl, hcl⟩ := hc
    obtain ⟨i, hi, rfl⟩ := List.mem_map.mp hl
    obtain ⟨rest, hrest, rfl⟩ := List.mem_map.mp hcl
    rw [List.mem_range'_1] at hi
    obtain ⟨hp, hb, hlen⟩ := ih (i + 1) rest hrest
    refine ⟨?_, ?_, by simp [hlen]⟩
    · rw [List.pairwise_cons]
      exact ⟨fun x hx => by have := (hb x hx).1; omega, hp⟩
    · intro x hx
      rcases List.mem_cons.mp hx with rfl | hx
      · exact ⟨hi.1, by omega⟩
      · have := hb x hx; omega

/-- Selecting the first `n` indexes of a list selects its prefix. -/
theorem range_map_getD (l : List Nat) (n : Nat) (hn : n ≤ l.length) :
    (List.range n).map (fun i => l.getD i 0) = l.take n := by
  apply List.ext_getElem
  · simp
    omega
  · intro i h1 h2
    have hi : i < n := by simpa using h1
    have hil : i < l.length := by omega
    simp [List.getElem_take, List.getD_eq_getElem?_getD, List.getElem?_eq_getElem hil]

/-- Filtering an indexed list down to indexes outside `range tpa` keeps the
tail that starts at index `tpa`. -/
theorem enumFrom_filter_ge (tpa : Nat) (l : List Nat) : ∀ (s : Nat),
    ((List.enumFrom s l).filter (fun p => ! (List.range tpa).contains p.1)).map
        Prod.snd =
      l.drop (tpa - s) := by
  induction l with
  | nil => intro s; simp
  | cons a l ih =>
    intro s
    by_cases h : s < tpa
    · have hc : ((List.range tpa).contains s) = true := by
        simp [List.elem_eq_mem, List.mem_range]
        omega
      have hstep : tpa - s = (tpa - (s + 1)) + 1 := by omega
      simp only [List.enumFrom, List.filter_cons, hc, Bool.not_true]
      rw [if_neg (by simp)]
      rw [ih (s + 1), hstep, List.drop_succ_cons]
    · have hc : ((List.range tpa).contains s) = false := by
        simp [List.elem_eq_mem, List.mem_range]
        omega
      have h0 : tpa - s = 0 := by omega
      have h1 : tpa - (s + 1) = 0 := by omega
      simp only [List.enumFrom, List.filter_cons, hc, Bool.not_false]
      rw [if_pos trivial]
      simp only [List.map_cons, ih (s + 1), h0, h1, List.drop_zero]

/-- The default slice split of `optimizeAllianceAssignment` is exactly the
split of the combination `[0, …, tpa−1]`. -/
theorem comboSplit_range (l : List Nat) (tpa : Nat) (hlen : l.length = tpa * 2) :
    comboSplit l (List.range tpa) =
      (l.take tpa, (l.drop tpa).take (tpa * 2 - tpa)) := by
  unfold comboSplit
  refine Prod.ext ?_ ?_
  · exact range_map_getD l tpa (by omega)
  · show ((List.enumFrom 0 l).filter
        (fun p => ! (List.range tpa).contains p.1)).map Prod.snd = _
    rw [enumFrom_filter_ge tpa l 0]
    have hd : tpa * 2 - tpa = (l.drop tpa).length := by
      rw [List.length_drop, hlen]
    rw [hd, List.take_length]
    norm_num

/-- A split has zero repeat penalty exactly when no previously-met pair sits
on opposite alliances. -/
theorem penalty_eq_zero_iff (red blue : List Nat) (prev : Nat → Nat → Bool) :
    calculateRepeatMatchupPenalty red blue prev = 0 ↔
      ∀ r ∈ red, ∀ b ∈ blue, prev r b = false := by
  unfold calculateRepeatMatchupPenalty
  rw [List.sum_eq_zero_iff]
  constructor
  · intro h r hr b hb
    have h0 := h ((blue.filter (fun b => prev r b)).length)
      (List.mem_map_of_mem _ hr)
    rw [List.length_eq_zero] at h0
    have := List.filter_eq_nil_iff.mp h0 b hb
    simpa using this
  · intro h x hx
    obtain ⟨r, hr, rfl⟩ := List.mem_map.mp hx
    rw [List.length_eq_zero, List.filter_eq_nil_iff]
    intro b hb
    simp [h r hr b hb]

/-- Invariant of the DFS fold: the held penalty always belongs to the held
split, never increases, is a lower bound for every candidate processed, and
the held split is either the initial (default) one or one of the processed
candidates.  The zero-penalty skip guard cannot lose candidates because no
penalty is below zero. -/
theorem foldl_allianceChoiceStep_spec (mt : List Nat) (prev : Nat → Nat → Bool) :
    ∀ (combos : List (List Nat)) (st0 : AllianceChoiceState),
    st0.lowestPenalty = calculateRepeatMatchupPenalty st0.bestRed st0.bestBlue prev →
    (combos.foldl (allianceChoiceStep mt prev) st0).lowestPenalty =
      calculateRepeatMatchupPenalty
        (combos.foldl (allianceChoiceStep mt prev) st0).bestRed
        (combos.foldl (allianceChoiceStep mt prev) st0).bestBlue prev ∧
    (combos.foldl (allianceChoiceStep mt prev) st0).lowestPenalty ≤ st0.lowestPenalty ∧
    (∀ c ∈ combos, (combos.foldl (allianceChoiceStep mt prev) st0).lowestPenalty ≤
      calculateRepeatMatchupPenalty (comboSplit mt c).1 (comboSplit mt c).2 prev) ∧
    (((combos.foldl (allianceChoiceStep mt prev) st0).bestRed,
      (combos.foldl (allianceChoiceStep mt prev) st0).bestBlue) =
        (st0.bestRed, st0.bestBlue) ∨
      ∃ c ∈ combos,
        ((combos.foldl (allianceChoiceStep mt prev) st0).bestRed,
         (combos.foldl (allianceChoiceStep mt prev) st0).bestBlue) = comboSplit mt c) := by
  intro combos
  induction combos with
  | nil =>
    intro st0 h0
    exact ⟨h0, le_refl _, by simp, Or.inl rfl⟩
  | cons c cs ih =>
    intro st0 h0
    simp only [List.foldl_cons]
    by_cases hz : st0.lowestPenalty = 0
    · have hstep : allianceChoiceStep mt prev st0 c = st0 := by
        simp [allianceChoiceStep, hz]
      rw [hstep]
      obtain ⟨i1, i2, i3, i4⟩ := ih st0 h0
      refine ⟨i1, i2, ?_, ?_⟩
      · intro c' hc'
        rcases List.mem_cons.mp hc' with rfl | hc'
        · omega
        · exact i3 c' hc'
      · rcases i4 with h | ⟨c', hc', h⟩
        · exact Or.inl h
        · exact Or.inr ⟨c', List.mem_cons_of_mem _ hc', h⟩
    · by_cases hlt : calculateRepeatMatchupPenalty (comboSplit mt c).1
          (comboSplit mt c).2 prev < st0.lowestPenalty
      · have hstep : allianceChoiceStep mt prev st0 c =
            { bestRed := (comboSplit mt c).1, bestBlue := (comboSplit mt c).2,
              lowestPenalty := calculateRepeatMatchupPenalty (comboSplit mt c).1
                (comboSplit mt c).2 prev } := by
          simp [allianceChoiceStep, hz, hlt]
        rw [hstep]
        obtain ⟨i1, i2, i3, i4⟩ := ih ⟨(comboSplit mt c).1, (comboSplit mt c).2,
          calculateRepeatMatchupPenalty (comboSplit mt c).1 (comboSplit mt c).2 prev⟩ rfl
        refine ⟨i1, by simp at i2 ⊢; omega, ?_, ?_⟩
        · intro c' hc'
          rcases List.mem_cons.mp hc' with rfl | hc'
          · simp at i2; omega
          · exact i3 c' hc'
        · rcases i4 with h | ⟨c', hc', h⟩
          · exact Or.inr ⟨c, List.mem_cons_self _ _, h⟩
          · exact Or.inr ⟨c', List.mem_cons_of_mem _ hc', h⟩
      · have hstep : allianceChoiceStep mt prev st0 c = st0 := by
          simp only [allianceChoiceStep, if_neg hz]
          simp [hlt]
        rw [hstep]
        obtain ⟨i1, i2, i3, i4⟩ := ih st0 h0
        refine ⟨i1, i2, ?_, ?_⟩
        · intro c' hc'
          rcases List.mem_cons.mp hc' with rfl | hc'
          · omega
          · exact i3 c' hc'
        · rcases i4 with h | ⟨c', hc', h⟩
          · exact Or.inl h
          · exact Or.inr ⟨c', List.mem_cons_of_mem _ hc', h⟩

/-- C4: for a chunk of `2·A` teams, `optimizeAllianceAssignment` returns one
of the size-`A`/size-`A` splits of the chunk, no split of the chunk has a
strictly lower count of previously-met cross-alliance pairs, and whenever
some split has zero such pairs the returned split never places two
previously-met teams on opposite alliances.  (`generateNextAdaptiveRound`
applies this to every chunk via `generateSwissMatches`.) -/
theorem optimizeAllianceAssignment_minimizes
    (matchTeams : List Nat) (previousOpponents : Nat → Nat → Bool) (tpa : Nat)
    (hlen : matchTeams.length = tpa * 2) :
    ∃ red blue,
      optimizeAllianceAssignment matchTeams previousOpponents tpa = .ok (red, blue) ∧
      (∃ c, c.Pairwise (· < ·) ∧ (∀ i ∈ c, i < tpa * 2) ∧ c.length = tpa ∧
        (red, blue) = comboSplit matchTeams c) ∧
      (∀ c, c.Pairwise (· < ·) → (∀ i ∈ c, i < tpa * 2) → c.length = tpa →
        calculateRepeatMatchupPenalty red blue previousOpponents ≤
          calculateRepeatMatchupPenalty (comboSplit matchTeams c).1
            (comboSplit matchTeams c).2 previousOpponents) ∧
      ((∃ c, c.Pairwise (· < ·) ∧ (∀ i ∈ c, i < tpa * 2) ∧ c.length = tpa ∧
          calculateRepeatMatchupPenalty (comboSplit matchTeams c).1
            (comboSplit matchTeams c).2 previousOpponents = 0) →
        ∀ rt ∈ red, ∀ bt ∈ blue, previousOpponents rt bt = false) := by
  have hne : ¬ (matchTeams.length ≠ tpa * 2) := by simp [hlen]
  set st0 : AllianceChoiceState :=
    { bestRed := matchTeams.take tpa
      bestBlue := (matchTeams.drop tpa).take (tpa * 2 - tpa)
      lowestPenalty := calculateRepeatMatchupPenalty (matchTeams.take tpa)
        ((matchTeams.drop tpa).take (tpa * 2 - tpa)) previousOpponents } with hst0
  obtain ⟨i1, _, i3, i4⟩ := foldl_allianceChoiceStep_spec matchTeams previousOpponents
    (allianceCombos (tpa * 2) tpa 0) st0 rfl
  set final := (allianceCombos (tpa * 2) tpa 0).foldl
    (allianceChoiceStep matchTeams previousOpponents) st0 with hfinal
  refine ⟨final.bestRed, final.bestBlue, ?_, ?_, ?_, ?_⟩
  · simp only [optimizeAllianceAssignment]
    rw [if_neg hne]
  · rcases i4 with h | ⟨c, hc, h⟩
    · refine ⟨List.range tpa, List.pairwise_lt_range tpa, ?_, List.length_range tpa, ?_⟩
      · intro i hi
        have := List.mem_range.mp hi
        omega
      · rw [comboSplit_range matchTeams tpa hlen]
        exact h
    · obtain ⟨hp, hb, hl⟩ := allianceCombos_valid (tpa * 2) tpa 0 c hc
      exact ⟨c, hp, fun i hi => (hb i hi).2, hl, h⟩
  · intro c hp hb hl
    have hmem := mem_allianceCombos (tpa * 2) tpa c 0 hp
      (fun i hi => ⟨Nat.zero_le i, hb i hi⟩) hl
    rw [← i1]
    exact i3 c hmem
  · rintro ⟨c, hp, hb, hl, hz⟩ rt hrt bt hbt
    have hmem := mem_allianceCombos (tpa * 2) tpa c 0 hp
      (fun i hi => ⟨Nat.zero_le i, hb i hi⟩) hl
    have hle := i3 c hmem
    rw [hz] at hle
    have hz2 : final.lowestPenalty = 0 := by omega
    rw [i1] at hz2
    exact (penalty_eq_zero_iff final.bestRed final.bestBlue previousOpponents).mp hz2
      rt hrt bt hbt

/-- C4, witness: the 2v2 chunk `[1,2,3,4]` whose teams 1 and 3 have met;
the default split has penalty 1, and the optimizer must return a
zero-penalty split. -/
theorem optimizeAllianceAssignment_minimizes_witness :
    ([1, 2, 3, 4] : List Nat).length = 2 * 2 ∧
    (∃ red blue,
      optimizeAllianceAssignment [1, 2, 3, 4] samplePreviousOpponents 2 =
        .ok (red, blue) ∧
      (∃ c, c.Pairwise (· < ·) ∧ (∀ i ∈ c, i < 2 * 2) ∧ c.length = 2 ∧
        (red, blue) = comboSplit [1, 2, 3, 4] c) ∧
      (∀ c, c.Pairwise (· < ·) → (∀ i ∈ c, i < 2 * 2) → c.length = 2 →
        calculateRepeatMatchupPenalty red blue samplePreviousOpponents ≤
          calculateRepeatMatchupPenalty (comboSplit [1, 2, 3, 4] c).1
            (comboSplit [1, 2, 3, 4] c).2 samplePreviousOpponents) ∧
      ((∃ c, c.Pairwise (· < ·) ∧ (∀ i ∈ c, i < 2 * 2) ∧ c.length = 2 ∧
          calculateRepeatMatchupPenalty (comboSplit [1, 2, 3, 4] c).1
            (comboSplit [1, 2, 3, 4] c).2 samplePreviousOpponents = 0) →
        ∀ rt ∈ red, ∀ bt ∈ blue, samplePreviousOpponents rt bt = false)) :=
  ⟨by decide,
   optimizeAllianceAssignment_minimizes [1, 2, 3, 4] samplePreviousOpponents 2 (by decide)⟩

/-- Looking a key up in an association list built by tagging each element
with itself finds the mapped value. -/
theorem lookup_map_self {β : Type} (f : Nat → β) : ∀ (l : List Nat) (t : Nat), t ∈ l →
    (l.map (fun x => (x, f x))).lookup t = some (f t) := by
  intro l
  induction l with
  | nil => intro t ht; simp at ht
  | cons a l ih =>
    intro t ht
    by_cases h : t = a
    · subst h
      simp [List.lookup]
    · rcases List.mem_cons.mp ht with h' | h'
      · exact absurd h' h
      · have hb : (t == a) = false := by simpa using h
        simp only [List.map_cons, List.lookup, hb]
        exact ih t h'

/-- C10: for every team holding a stats record in the stage, the
opponent-strength tiebreak stored by the standings refresh
(`opponentWinPercentage`) equals the team's own losses divided by its own
completed-match count (`matchesPlayed = wins + losses + ties`), 0 when the
team played no completed match; and it depends only on the team's own
accumulated results — any two match histories giving the team the same
`teamResults` entry store the same value.  (The separately computed
wins-based `winPercents` map of the source is never stored.) -/
theorem updateSwissRankings_owp (statTeams : List Nat)
    (ms ms' : List RankingMatchInput) (t : Nat) (ht : t ∈ statTeams) :
    ∃ p, (updateSwissRankings statTeams ms).lookup t = some p ∧
      p.matchesPlayed = p.wins + p.losses + p.ties ∧
      p.opponentWinPercentage =
        (if 0 < p.matchesPlayed then (p.losses : Rat) / (p.matchesPlayed : Rat) else 0) ∧
      (swissTeamResults statTeams ms t = swissTeamResults statTeams ms' t →
        ∃ p', (updateSwissRankings statTeams ms').lookup t = some p' ∧
          p'.opponentWinPercentage = p.opponentWinPercentage) := by
  unfold updateSwissRankings
  refine ⟨_, lookup_map_self _ statTeams t ht, rfl, rfl, ?_⟩
  intro heq
  refine ⟨_, lookup_map_self _ statTeams t ht, ?_⟩
  simp only [heq]

/-- C10, witness: team 2 of the two-team stage with one completed match. -/
theorem updateSwissRankings_owp_witness :
    (2 ∈ ([1, 2] : List Nat)) ∧
    (∃ p, (updateSwissRankings [1, 2] [sampleRankingMatch]).lookup 2 = some p ∧
      p.matchesPlayed = p.wins + p.losses + p.ties ∧
      p.opponentWinPercentage =
        (if 0 < p.matchesPlayed then (p.losses : Rat) / (p.matchesPlayed : Rat) else 0) ∧
      (swissTeamResults [1, 2] [sampleRankingMatch] 2 =
          swissTeamResults [1, 2] [sampleRankingMatch] 2 →
        ∃ p', (updateSwissRankings [1, 2] [sampleRankingMatch]).lookup 2 = some p' ∧
          p'.opponentWinPercentage = p.opponentWinPercentage)) :=
  ⟨by decide,
   updateSwissRankings_owp [1, 2] [sampleRankingMatch] [sampleRankingMatch] 2 (by decide)⟩


/-- Evaluating the `teamRankings` fold at one team: the map built by folding
`setRank` over the assignment list is last-write-wins, i.e. the value at `t`
is the last assignment to `t`, or the initial value when none exists. -/
theorem foldl_setRank_eq : ∀ (asgn : List (Nat × Nat)) (r0 : Nat → Option Nat) (t : Nat),
    (asgn.foldl setRank r0) t =
      ((asgn.filter (fun p => p.1 == t)).getLast?).elim (r0 t) (fun p => some p.2) := by
  intro asgn
  induction asgn with
  | nil => intro r0 t; simp
  | cons a rest ih =>
    intro r0 t
    rw [List.foldl_cons, ih (setRank r0 a) t]
    by_cases h : a.1 = t
    · have hb : (a.1 == t) = true := by simpa using h
      simp only [List.filter_cons, hb]
      match hfr : rest.filter (fun p => p.1 == t) with
      | [] =>
        simp [hfr, setRank, h]
      | b :: bs =>
        simp only [hfr]
        cases hl : (b :: bs).getLast? with
        | none => exact absurd (List.getLast?_eq_none_iff.mp hl) (by simp)
        | some p => simp [hl]
    · have hb : (a.1 == t) = false := by simpa using h
      simp only [List.filter_cons, hb]
      rw [if_neg (by simp)]
      have hsr : setRank r0 a t = r0 t := by
        unfold setRank
        rw [if_neg]
        intro hh
        exact h hh.symm
      simp only [hsr]

/-- Filtering distributes over `flatMap`. -/
theorem filter_flatMap {α : Type} (l : List α) (g : α → List (Nat × Nat))
    (p : Nat × Nat → Bool) :
    (l.flatMap g).filter p = l.flatMap (fun x => (g x).filter p) := by
  induction l with
  | nil => rfl
  | cons a rest ih => simp [List.flatMap_cons, List.filter_append, ih]

/-- When every element of a duplicate-free list except `x` contributes
nothing, the `flatMap` collapses to `x`'s contribution. -/
theorem flatMap_single {α : Type} [DecidableEq α] (g : α → List (Nat × Nat)) :
    ∀ (l : List α) (x : α), l.Nodup → x ∈ l → (∀ y ∈ l, y ≠ x → g y = []) →
    l.flatMap g = g x := by
  intro l
  induction l with
  | nil => intro x _ hx; simp at hx
  | cons a rest ih =>
    intro x hnd hx hnil
    rcases List.mem_cons.mp hx with rfl | hx'
    · have : rest.flatMap g = [] := by
        rw [List.flatMap_eq_nil_iff]
        intro y hy
        exact hnil y (List.mem_cons_of_mem _ hy)
          (fun he => (List.nodup_cons.mp hnd).1 (he ▸ hy))
      simp [List.flatMap_cons, this]
    · have ha : g a = [] := by
        refine hnil a (List.mem_cons_self _ _) ?_
        intro he
        exact (List.nodup_cons.mp hnd).1 (he ▸ hx')
      simp only [List.flatMap_cons, ha, List.nil_append]
      exact ih x (List.nodup_cons.mp hnd).2 hx'
        (fun y hy => hnil y (List.mem_cons_of_mem _ hy))

/-- A nonempty list all of whose elements equal `a` has last element `a`. -/
theorem getLast?_of_constant {α : Type} (a : α) :
    ∀ (l : List α), l ≠ [] → (∀ x ∈ l, x = a) → l.getLast? = some a := by
  intro l
  induction l with
  | nil => intro h; exact absurd rfl h
  | cons b rest ih =>
    intro _ hall
    match rest with
    | [] => simp [hall b (List.mem_cons_self _ _)]
    | c :: cs =>
      rw [List.getLast?_cons_cons]
      exact ih (by simp) (fun x hx => hall x (List.mem_cons_of_mem _ hx))

/-- Membership is preserved by the stable sort used in the embedding. -/
theorem mem_sortBy {α : Type} (le : α → α → Bool) (l : List α) (x : α) :
    x ∈ sortBy le l ↔ x ∈ l :=
  (List.perm_insertionSort _ l).mem_iff

/-- Freedom from duplicates is preserved by the stable sort used in the
embedding. -/
theorem nodup_sortBy {α : Type} (le : α → α → Bool) (l : List α) (h : l.Nodup) :
    (sortBy le l).Nodup :=
  ((List.perm_insertionSort _ l).nodup_iff).mpr h

/-- In a rank-assignment block `l.map (fun x => (f x, r))`, the assignments
to team `t` all carry rank `r`, so if `t` occurs the last one is `(t, r)`. -/
theorem getLast?_filter_pairs {α : Type} (l : List α) (f : α → Nat) (t r : Nat)
    (hmem : ∃ x ∈ l, f x = t) :
    ((l.map (fun x => (f x, r))).filter (fun p => p.1 == t)).getLast? = some (t, r) := by
  obtain ⟨x0, hx0, hfx0⟩ := hmem
  apply getLast?_of_constant
  · apply List.ne_nil_of_mem (a := (t, r))
    rw [List.mem_filter]
    exact ⟨List.mem_map.mpr ⟨x0, hx0, by rw [hfx0]⟩, by simp⟩
  · intro x hx
    rw [List.mem_filter] at hx
    obtain ⟨hx1, hx2⟩ := hx
    obtain ⟨y, _, rfl⟩ := List.mem_map.mp hx1
    have hyt : f y = t := by simpa using hx2
    simp [hyt]

/-- A rank-assignment block over elements that never map to `t` contributes
no assignment to `t`. -/
theorem filter_pairs_nil {α : Type} (l : List α) (f : α → Nat) (t r : Nat)
    (hmem : ∀ x ∈ l, f x ≠ t) :
    (l.map (fun x => (f x, r))).filter (fun p => p.1 == t) = [] := by
  rw [List.filter_eq_nil_iff]
  intro p hp
  obtain ⟨y, hy, rfl⟩ := List.mem_map.mp hp
  simpa using hmem y hy

/-- A match none of whose rank assignments names team `t` contributes
nothing to `t`'s fold. -/
theorem filter_setters_nil (db : DB) (maxR : Nat) (m : MatchRow) (t : Nat)
    (hno : ∀ p ∈ settersFor db maxR m, p.1 ≠ t) :
    (settersFor db maxR m).filter (fun p => p.1 == t) = [] := by
  rw [List.filter_eq_nil_iff]
  intro p hp
  simpa using hno p hp

/-- C8: when `finalizePlayoffRankings` runs on a stage whose matches are all
completed and which has a unique final-round match `f` (with winning color,
winning alliance `wa`, and losing alliance `la` resolved), it succeeds, and
in the resulting rank map: (a) a team on the final's winning alliance that is
not on its losing alliance and is ranked by no other match gets rank 1;
(b) a team on the final's losing alliance ranked by no other match gets
rank 2; (c) a team ranked by exactly one non-final match `m` gets rank
`2 ^ (maxRound - m.roundNumber) + 1`, i.e. `2 ^ d + 1` at depth `d` from
the final — rank 3 for semifinal losers of a two-round bracket. -/
theorem finalizePlayoffRankings_spec
    (db : DB) (stageId maxR : Nat) (f : MatchRow) (wc : AllianceColor)
    (wa la : AllianceRow)
    (hmaxR : maxR = maxRoundOf (stageMatchesForFinalize db stageId))
    (hnodup : db.matchRows.Nodup)
    (hmem : f ∈ db.matchRows) (hstage : f.stageId = stageId)
    (hfr : f.roundNumber = maxR)
    (huniq : ∀ m ∈ db.matchRows, m.stageId = stageId → m.roundNumber = maxR → m = f)
    (hcompl : ∀ m ∈ db.matchRows, m.stageId = stageId → m.status = COMPLETED)
    (hwin : f.winningAlliance = some wc)
    (hwa : (alliancesOf db f.id).find? (fun a => a.color == wc) = some wa)
    (hla : (alliancesOf db f.id).find? (fun a => ! (a.color == wc)) = some la) :
    ∃ rank, finalizePlayoffRankings db stageId = .ok rank ∧
      (∀ t, (∃ ta ∈ teamAlliancesOf db wa.id, ta.teamId = t) →
        (∀ ta ∈ teamAlliancesOf db la.id, ta.teamId ≠ t) →
        (∀ m ∈ db.matchRows, m.stageId = stageId → m ≠ f →
          ∀ p ∈ settersFor db maxR m, p.1 ≠ t) →
        rank t = some 1) ∧
      (∀ t, (∃ ta ∈ teamAlliancesOf db la.id, ta.teamId = t) →
        (∀ m ∈ db.matchRows, m.stageId = stageId → m ≠ f →
          ∀ p ∈ settersFor db maxR m, p.1 ≠ t) →
        rank t = some 2) ∧
      (∀ t v m, m ∈ db.matchRows → m.stageId = stageId → m ≠ f →
        (t, v) ∈ settersFor db maxR m →
        (∀ m' ∈ db.matchRows, m'.stageId = stageId → m' ≠ m →
          ∀ p ∈ settersFor db maxR m', p.1 ≠ t) →
        v = 2 ^ (maxR - m.roundNumber) + 1 ∧ rank t = some v) := by
  have hfms : f ∈ stageMatchesForFinalize db stageId := by
    unfold stageMatchesForFinalize
    rw [mem_sortBy, List.mem_filter]
    exact ⟨hmem, by simp [hstage]⟩
  have hmem_ms : ∀ m ∈ stageMatchesForFinalize db stageId,
      m ∈ db.matchRows ∧ m.stageId = stageId := by
    intro m hm
    unfold stageMatchesForFinalize at hm
    rw [mem_sortBy, List.mem_filter] at hm
    exact ⟨hm.1, by simpa using hm.2⟩
  have hms_nd : (stageMatchesForFinalize db stageId).Nodup :=
    nodup_sortBy _ _ (hnodup.filter _)
  have h1 : ¬ (stageMatchesForFinalize db stageId).length = 0 := by
    intro h0
    rw [List.length_eq_zero] at h0
    rw [h0] at hfms
    exact List.not_mem_nil f hfms
  have h2 : (stageMatchesForFinalize db stageId).filter
      (fun m => m.status ≠ COMPLETED) = [] := by
    rw [List.filter_eq_nil_iff]
    intro m hm
    obtain ⟨hm1, hm2⟩ := hmem_ms m hm
    simp [hcompl m hm1 hm2]
  have hok : finalizePlayoffRankings db stageId = .ok
      (((stageMatchesForFinalize db stageId).flatMap
        (settersFor db (maxRoundOf (stageMatchesForFinalize db stageId)))).foldl
        setRank (fun _ => none)) := by
    simp only [finalizePlayoffRankings]
    rw [if_neg h1, if_neg (by rw [h2]; simp)]
  rw [← hmaxR] at hok
  have hsf : settersFor db maxR f =
      (teamAlliancesOf db wa.id).map (fun ta => (ta.teamId, 1)) ++
        (teamAlliancesOf db la.id).map (fun ta => (ta.teamId, 2)) := by
    simp [settersFor, hwin, hwa, hla, hfr]
  refine ⟨_, hok, ?_, ?_, ?_⟩
  · intro t htw htl hno
    have hothers : ∀ y ∈ stageMatchesForFinalize db stageId, y ≠ f →
        (fun m => (settersFor db maxR m).filter (fun p => p.1 == t)) y = [] := by
      intro y hy hyf
      obtain ⟨hy1, hy2⟩ := hmem_ms y hy
      exact filter_setters_nil db maxR y t (hno y hy1 hy2 hyf)
    rw [foldl_setRank_eq, filter_flatMap,
      flatMap_single _ _ f hms_nd hfms hothers]
    simp only [hsf, List.filter_append]
    rw [filter_pairs_nil (teamAlliancesOf db la.id) (fun ta => ta.teamId) t 2 htl,
      List.append_nil,
      getLast?_filter_pairs (teamAlliancesOf db wa.id) (fun ta => ta.teamId) t 1 htw]
    rfl
  · intro t htl hno
    have hothers : ∀ y ∈ stageMatchesForFinalize db stageId, y ≠ f →
        (fun m => (settersFor db maxR m).filter (fun p => p.1 == t)) y = [] := by
      intro y hy hyf
      obtain ⟨hy1, hy2⟩ := hmem_ms y hy
      exact filter_setters_nil db maxR y t (hno y hy1 hy2 hyf)
    rw [foldl_setRank_eq, filter_flatMap,
      flatMap_single _ _ f hms_nd hfms hothers]
    have hg := getLast?_filter_pairs (teamAlliancesOf db la.id)
      (fun ta => ta.teamId) t 2 htl
    have hne : ((teamAlliancesOf db la.id).map
        (fun ta => (ta.teamId, 2))).filter (fun p => p.1 == t) ≠ [] := by
      intro h0
      rw [h0] at hg
      simp at hg
    simp only [hsf, List.filter_append]
    rw [List.getLast?_append_of_ne_nil _ hne, hg]
    rfl
  · intro t v m hm1 hm2 hmf hmv hno
    have hms : m ∈ stageMatchesForFinalize db stageId := by
      unfold stageMatchesForFinalize
      rw [mem_sortBy, List.mem_filter]
      exact ⟨hm1, by simp [hm2]⟩
    have hrn : m.roundNumber ≠ maxR := by
      intro he
      exact hmf (huniq m hm1 hm2 he)
    have hshape : ∃ laid : Nat, settersFor db maxR m =
        (teamAlliancesOf db laid).map
          (fun ta => (ta.teamId, 2 ^ (maxR - m.roundNumber) + 1)) := by
      cases hwm : m.winningAlliance with
      | none =>
        exfalso
        simp only [settersFor, hwm] at hmv
        exact List.not_mem_nil _ hmv
      | some wcm =>
        cases hfw : (alliancesOf db m.id).find? (fun a => a.color == wcm) with
        | none =>
          exfalso
          simp only [settersFor, hwm, hfw] at hmv
          exact List.not_mem_nil _ hmv
        | some wam =>
          cases hfl : (alliancesOf db m.id).find? (fun a => ! (a.color == wcm)) with
          | none =>
            exfalso
            simp only [settersFor, hwm, hfw, hfl] at hmv
            exact List.not_mem_nil _ hmv
          | some lam =>
            refine ⟨lam.id, ?_⟩
            have hbe : (m.roundNumber == maxR) = false := by simpa using hrn
            simp [settersFor, hwm, hfw, hfl, hbe]
    obtain ⟨laid, hsm⟩ := hshape
    rw [hsm] at hmv
    obtain ⟨ta, hta, hpe⟩ := List.mem_map.mp hmv
    have hv : v = 2 ^ (maxR - m.roundNumber) + 1 :=
      ((Prod.mk.injEq _ _ _ _).mp hpe).2.symm
    have htt : ta.teamId = t := ((Prod.mk.injEq _ _ _ _).mp hpe).1
    refine ⟨hv, ?_⟩
    have hothers : ∀ y ∈ stageMatchesForFinalize db stageId, y ≠ m →
        (fun m2 => (settersFor db maxR m2).filter (fun p => p.1 == t)) y = [] := by
      intro y hy hym
      obtain ⟨hy1, hy2⟩ := hmem_ms y hy
      exact filter_setters_nil db maxR y t (hno y hy1 hy2 hym)
    rw [foldl_setRank_eq, filter_flatMap,
      flatMap_single _ _ m hms_nd hms hothers]
    simp only [hsm]
    rw [getLast?_filter_pairs (teamAlliancesOf db laid) (fun ta => ta.teamId) t
      (2 ^ (maxR - m.roundNumber) + 1) ⟨ta, hta, htt⟩, hv]
    rfl

/-- Witness for `finalizePlayoffRankings_spec` on the completed four-team
bracket: team 10 (final winner) gets rank 1, team 40 (final loser) rank 2,
and semifinal losers 20 and 30 both get rank 3. -/
theorem finalizePlayoffRankings_spec_witness :
    ∃ rank, finalizePlayoffRankings sampleFinishedDB 1 = .ok rank ∧
      rank 10 = some 1 ∧ rank 40 = some 2 ∧ rank 20 = some 3 ∧ rank 30 = some 3 := by
  obtain ⟨rank, hok, ha, hb, hc⟩ :=
    finalizePlayoffRankings_spec sampleFinishedDB 1 2 sfFinal RED
      ⟨5, 3, RED⟩ ⟨6, 3, BLUE⟩
      (by decide) (by decide) (by decide) (by decide) (by decide)
      (by decide) (by decide) (by decide) (by decide) (by decide)
  refine ⟨rank, hok, ?_, ?_, ?_, ?_⟩
  · exact ha 10 (by decide) (by decide) (by decide)
  · exact hb 40 (by decide) (by decide)
  · exact (hc 20 3 sfSemi1 (by decide) (by decide) (by decide) (by decide)
      (by decide)).2
  · exact (hc 30 3 sfSemi2 (by decide) (by decide) (by decide) (by decide)
      (by decide)).2

/-- The fields of one created bracket match that the builder invariant
tracks: its round number, its empty forward reference, its fresh id, and the
fact that creation leaves `rounds` untouched while advancing the id
counter. -/
theorem createBracketMatch_fields (stage : StageRec) (fields : List Nat)
    (kt round : Nat) (payload : List (AllianceColor × List (Nat × Nat)))
    (st : BuildState) :
    (createBracketMatch stage fields kt round payload st).1.roundNumber = round ∧
    (createBracketMatch stage fields kt round payload st).1.feedsIntoMatchId = none ∧
    (createBracketMatch stage fields kt round payload st).1.id = st.nextMatchId ∧
    (createBracketMatch stage fields kt round payload st).2.rounds = st.rounds ∧
    (createBracketMatch stage fields kt round payload st).2.nextMatchId = st.nextMatchId + 1 :=
  ⟨rfl, rfl, rfl, rfl, rfl⟩

/-- One iteration of the `buildRoundMatches` loop, rewritten as a direct
case split on the alliance payload (seeded in round 1, empty later). -/
theorem bracketBody_eval (stage : StageRec) (fields : List Nat) (kt : Nat)
    (teamStats : List Nat) (tpa ntn round : Nat)
    (p : List MatchRow × BuildState) (mi : Nat) :
    (do
      let payload ←
        if round = 1 then
          createSeededAlliancePayload teamStats mi tpa ntn
        else
          pure (createEmptyAlliancePayload tpa)
      let (row, st') := createBracketMatch stage fields kt round payload p.2
      pure (p.1 ++ [row], st') :
    Except String (List MatchRow × BuildState)) =
    (match (if round = 1 then
        createSeededAlliancePayload teamStats mi tpa ntn
      else
        pure (createEmptyAlliancePayload tpa)) with
    | .error e => .error e
    | .ok payload =>
        .ok (p.1 ++ [(createBracketMatch stage fields kt round payload p.2).1],
          (createBracketMatch stage fields kt round payload p.2).2)) := by
  show (if round = 1 then
      createSeededAlliancePayload teamStats mi tpa ntn >>= fun payload =>
        (match createBracketMatch stage fields kt round payload p.2 with
          | (row, st') => pure (p.1 ++ [row], st'))
    else
      pure (createEmptyAlliancePayload tpa) >>= fun payload =>
        (match createBracketMatch stage fields kt round payload p.2 with
          | (row, st') => pure (p.1 ++ [row], st'))) = _
  by_cases hround : round = 1
  · rw [if_pos hround, if_pos hround]
    cases hpay : createSeededAlliancePayload teamStats mi tpa ntn with
    | error e => rfl
    | ok payload => rfl
  · rw [if_neg hround, if_neg hround]
    rfl

/-- Characterization of the `buildRoundMatches` fold: on success it leaves
`rounds` untouched, advances `nextMatchId` by the iteration count, preserves
the accumulator prefix, and appends per-index rows that carry the round
number, no forward reference, and consecutive fresh ids. -/
theorem bracketFold_ok (stage : StageRec) (fields : List Nat) (kt : Nat)
    (teamStats : List Nat) (tpa ntn round : Nat) :
    ∀ (n a : Nat) (acc : List MatchRow) (st : BuildState)
      (out : List MatchRow × BuildState),
    ((List.range' a n).foldlM (fun acc matchIndex =>
        ((match (if round = 1 then
            createSeededAlliancePayload teamStats matchIndex tpa ntn
          else
            pure (createEmptyAlliancePayload tpa)) with
        | .error e => .error e
        | .ok payload =>
            .ok (acc.1 ++
                [(createBracketMatch stage fields kt round payload acc.2).1],
              (createBracketMatch stage fields kt round payload acc.2).2)) :
          Except String (List MatchRow × BuildState)))
      (acc, st)) = .ok out →
    out.2.rounds = st.rounds ∧
    out.2.nextMatchId = st.nextMatchId + n ∧
    out.1.length = acc.length + n ∧
    (∀ i, i < acc.length → out.1.get? i = acc.get? i) ∧
    (∀ i, i < n → ∃ row, out.1.get? (acc.length + i) = some row ∧
      row.roundNumber = round ∧ row.feedsIntoMatchId = none ∧
      row.id = st.nextMatchId + i) := by
  intro n
  induction n with
  | zero =>
    intro a acc st out hout
    obtain ⟨o1, o2⟩ := out
    simp only [List.range', List.foldlM_nil] at hout
    have h12 : acc = o1 ∧ st = o2 := by
      simpa [pure, Except.pure] using hout
    obtain ⟨rfl, rfl⟩ := h12
    exact ⟨rfl, by simp, by simp, fun i hi => rfl, fun i hi => absurd hi (by omega)⟩
  | succ n ih =>
    intro a acc st out hout
    have hr : List.range' a (n + 1) = a :: List.range' (a + 1) n := rfl
    rw [hr] at hout
    simp only [List.foldlM_cons] at hout
    cases hpay : (if round = 1 then
        createSeededAlliancePayload teamStats a tpa ntn
      else
        pure (createEmptyAlliancePayload tpa)) with
    | error e =>
      rw [hpay] at hout
      simp [Bind.bind, Except.bind] at hout
    | ok payload =>
      rw [hpay] at hout
      simp only [Bind.bind, Except.bind] at hout
      obtain ⟨h1, h2, h3, h4, h5⟩ := ih (a + 1) _ _ out hout
      obtain ⟨hf1, hf2, hf3, hf4, hf5⟩ :=
        createBracketMatch_fields stage fields kt round payload st
      refine ⟨by rw [h1]; exact hf4, by rw [h2, hf5]; omega,
        by simp at h3; omega, ?_, ?_⟩
      · intro i hi
        rw [h4 i (by simp; omega)]
        exact List.get?_append (by omega)
      · intro i hi
        match i with
        | 0 =>
          refine ⟨(createBracketMatch stage fields kt round payload st).1, ?_,
            rfl, hf2, by simp [hf3]⟩
          have h40 := h4 (acc.length) (by simp)
          rw [Nat.add_zero, h40]
          exact List.get?_concat_length acc _
        | j + 1 =>
          obtain ⟨row, hrow, hr1, hr2, hr3⟩ := h5 j (by omega)
          refine ⟨row, ?_, hr1, hr2, by rw [hr3, hf5]; omega⟩
          have he : (acc ++ [(createBracketMatch stage fields kt round payload
              st).1]).length + j = acc.length + (j + 1) := by simp; omega
          rw [← he]
          exact hrow

/-- `buildRoundMatches` on success returns `count` pending rows with
consecutive fresh ids, the requested round number and no forward reference,
leaving `rounds` unchanged. -/
theorem buildRoundMatches_ok (stage : StageRec) (fields : List Nat) (kt : Nat)
    (teamStats : List Nat) (tpa ntn round count : Nat) (st : BuildState)
    (cur : List MatchRow) (st' : BuildState)
    (h : buildRoundMatches stage fields kt teamStats tpa ntn round count st =
      .ok (cur, st')) :
    st'.rounds = st.rounds ∧ st'.nextMatchId = st.nextMatchId + count ∧
    cur.length = count ∧
    ∀ i row, cur.get? i = some row →
      row.roundNumber = round ∧ row.feedsIntoMatchId = none ∧
      row.id = st.nextMatchId + i := by
  unfold buildRoundMatches at h
  rw [List.range_eq_range'] at h
  simp only [bracketBody_eval stage fields kt teamStats tpa ntn round] at h
  obtain ⟨h1, h2, h3, _, h5⟩ :=
    bracketFold_ok stage fields kt teamStats tpa ntn round count 0 [] st (cur, st') h
  refine ⟨h1, h2, by simpa using h3, ?_⟩
  intro i row hrow
  have hi : i < count := by
    obtain ⟨hlt, _⟩ := List.get?_eq_some.mp hrow
    have h3s : cur.length = count := by simpa using h3
    omega
  obtain ⟨row', hrow', hr1, hr2, hr3⟩ := h5 i hi
  simp only [List.length_nil, Nat.zero_add] at hrow'
  rw [hrow] at hrow'
  obtain rfl : row = row' := by simpa using hrow'
  exact ⟨hr1, hr2, hr3⟩

/-- The wiring `mapM` of `buildRoundStep` succeeds whenever every previous
round index maps into the current round, and rewrites exactly the forward
reference of each row to the id of the current-round match at half its
index. -/
theorem wireRound_ok (cur : List MatchRow) :
    ∀ (l : List MatchRow) (a : Nat),
    (∀ i, i < l.length → (a + i) / 2 < cur.length) →
    ∃ w, (((l.enumFrom a).mapM (fun p =>
        match cur.get? (p.1 / 2) with
        | some target => .ok { p.2 with feedsIntoMatchId := some target.id }
        | none => .error "Unable to wire bracket round") :
      Except String (List MatchRow)) = .ok w ∧
      w.length = l.length ∧
      ∀ i row, l.get? i = some row →
        ∃ t, cur.get? ((a + i) / 2) = some t ∧
          w.get? i = some { row with feedsIntoMatchId := some t.id }) := by
  intro l
  induction l with
  | nil =>
    intro a h
    exact ⟨[], rfl, rfl, fun i row hrow => by simp at hrow⟩
  | cons x xs ih =>
    intro a h
    have h0 : a / 2 < cur.length := by
      have hh := h 0 (by simp)
      simpa using hh
    obtain ⟨t0, ht0⟩ : ∃ t0, cur.get? (a / 2) = some t0 :=
      ⟨cur.get ⟨a / 2, h0⟩, List.get?_eq_get h0⟩
    obtain ⟨w, hw, hwl, hwc⟩ := ih (a + 1) (by
      intro i hi
      have hh := h (i + 1) (by simp; omega)
      have he : a + 1 + i = a + (i + 1) := by omega
      rw [he]
      exact hh)
    refine ⟨{ x with feedsIntoMatchId := some t0.id } :: w, ?_, by simp [hwl], ?_⟩
    · have hen : (x :: xs).enumFrom a = (a, x) :: xs.enumFrom (a + 1) := rfl
      rw [hen, List.mapM_cons, hw]
      have ht0g : cur[a / 2]? = some t0 := by
        rw [← List.get?_eq_getElem?]
        exact ht0
      simp [ht0g, Bind.bind, Except.bind, pure, Except.pure]
    · intro i row hrow
      match i with
      | 0 =>
        obtain rfl : x = row := by simpa using hrow
        exact ⟨t0, by simpa using ht0, rfl⟩
      | j + 1 =>
        obtain ⟨t, ht, hwj⟩ := hwc j row (by simpa using hrow)
        have he : a + (j + 1) = a + 1 + j := by omega
        rw [he]
        exact ⟨t, ht, by simpa using hwj⟩

/-- Rows whose ids are consecutive from a base have duplicate-free ids. -/
theorem nodup_ids_of_get? : ∀ (l : List MatchRow) (c : Nat),
    (∀ i row, l.get? i = some row → row.id = c + i) →
    (l.map (fun m => m.id)).Nodup := by
  intro l
  induction l with
  | nil => intro c h; simp
  | cons a tl ih =>
    intro c h
    have ha : a.id = c := by
      have h0 := h 0 a rfl
      omega
    have htl : ∀ i row, tl.get? i = some row → row.id = (c + 1) + i := by
      intro i row hrow
      have hh := h (i + 1) row (by simpa using hrow)
      omega
    rw [List.map_cons, List.nodup_cons]
    constructor
    · intro hmem
      obtain ⟨m, hm, hid⟩ := List.mem_map.mp hmem
      obtain ⟨j, hj⟩ := List.mem_iff_get?.mp hm
      have hmj := htl j m hj
      omega
    · exact ih (c + 1) htl

/-- Rows whose ids are consecutive from a base stay within the id window. -/
theorem ids_bound_of_get? (l : List MatchRow) (c : Nat)
    (h : ∀ i row, l.get? i = some row → row.id = c + i) :
    ∀ m ∈ l, c ≤ m.id ∧ m.id < c + l.length := by
  intro m hm
  obtain ⟨j, hj⟩ := List.mem_iff_get?.mp hm
  have hid := h j m hj
  obtain ⟨hlt, _⟩ := List.get?_eq_some.mp hj
  omega

/-- Rewiring forward references leaves the id list of a round unchanged. -/
theorem wired_ids_eq (prev w : List MatchRow)
    (hlen : w.length = prev.length)
    (hchar : ∀ i row, prev.get? i = some row →
      ∃ v, w.get? i = some { row with feedsIntoMatchId := v }) :
    w.map (fun m => m.id) = prev.map (fun m => m.id) := by
  apply List.ext
  intro n
  rw [List.get?_map, List.get?_map]
  cases hp : prev.get? n with
  | none =>
    have hn : prev.length ≤ n := List.get?_eq_none.mp hp
    have hw : w.get? n = none := List.get?_eq_none.mpr (by omega)
    rw [hw]
  | some row =>
    obtain ⟨v, hwv⟩ := hchar n row hp
    rw [hwv]
    rfl

/-- Every row of a rewired round is an original row with only its forward
reference replaced. -/
theorem wired_get_inv (prev w : List MatchRow)
    (hlen : w.length = prev.length)
    (hchar : ∀ i row, prev.get? i = some row →
      ∃ v, w.get? i = some { row with feedsIntoMatchId := v }) :
    ∀ j m, w.get? j = some m →
      ∃ row v, prev.get? j = some row ∧ m = { row with feedsIntoMatchId := v } := by
  intro j m hm
  have hj : j < prev.length := by
    obtain ⟨hlt, _⟩ := List.get?_eq_some.mp hm
    omega
  have hp : prev.get? j = some (prev.get ⟨j, hj⟩) := List.get?_eq_get hj
  obtain ⟨v, hwv⟩ := hchar j (prev.get ⟨j, hj⟩) hp
  rw [hm] at hwv
  exact ⟨prev.get ⟨j, hj⟩, v, hp, by simpa using hwv⟩

/-- Round 1 of `buildRoundStep` establishes the builder invariant: one round
of seeded, unwired matches. -/
theorem buildRoundStep_one (stage : StageRec) (fields : List Nat) (kt : Nat)
    (teamStats : List Nat) (tpa ntn R : Nat) (st st₁ : BuildState)
    (hinv : BracketInv R 0 st)
    (hstep : buildRoundStep stage fields kt teamStats tpa ntn R st 1 = .ok st₁) :
    BracketInv R 1 st₁ := by
  simp only [buildRoundStep] at hstep
  cases hbm : buildRoundMatches stage fields kt teamStats tpa ntn 1 (2 ^ (R - 1)) st with
  | error e =>
    rw [hbm] at hstep
    simp [Bind.bind, Except.bind] at hstep
  | ok pr =>
    obtain ⟨cur, st'⟩ := pr
    rw [hbm] at hstep
    simp only [Bind.bind, Except.bind] at hstep
    rw [if_neg (by omega)] at hstep
    have hst1 : st₁ = { st' with rounds := st'.rounds ++ [cur] } := by
      simpa [pure, Except.pure] using hstep.symm
    obtain ⟨hr1, hr2, hr3, hr4⟩ :=
      buildRoundMatches_ok stage fields kt teamStats tpa ntn 1 (2 ^ (R - 1)) st cur st' hbm
    have hempty : st.rounds = [] := List.length_eq_zero.mp hinv.len
    have hrounds1 : st₁.rounds = [cur] := by
      rw [hst1, hr1, hempty]
      rfl
    have hnmi1 : st₁.nextMatchId = st.nextMatchId + 2 ^ (R - 1) := by
      rw [hst1]
      exact hr2
    refine ⟨?_, ?_, ?_, ?_, ?_, ?_⟩
    · rw [hrounds1]
      rfl
    · intro m hm
      rw [hrounds1] at hm
      simp only [List.flatten, List.append_nil] at hm
      have hb := ids_bound_of_get? cur st.nextMatchId
        (fun i row hrow => (hr4 i row hrow).2.2) m hm
      rw [hnmi1]
      omega
    · rw [hrounds1]
      simp only [List.flatten, List.append_nil]
      exact nodup_ids_of_get? cur st.nextMatchId
        (fun i row hrow => (hr4 i row hrow).2.2)
    · intro j L hL
      rw [hrounds1] at hL
      match j with
      | 0 =>
        obtain rfl : cur = L := by simpa using hL
        refine ⟨by simpa using hr3, ?_⟩
        intro m hm
        obtain ⟨i, hi⟩ := List.mem_iff_get?.mp hm
        exact (hr4 i m hi).1
      | j + 1 => simp at hL
    · intro j L L2 hL hL2 i row hrow
      rw [hrounds1] at hL hL2
      match j with
      | 0 => simp at hL2
      | j + 1 => simp at hL
    · intro L hL
      rw [hrounds1] at hL
      obtain rfl : cur = L := by simpa using hL
      intro m hm
      obtain ⟨i, hi⟩ := List.mem_iff_get?.mp hm
      exact (hr4 i m hi).2.1

/-- Rounds after the first preserve the builder invariant: the new round is
created unwired and the previous round is rewired to feed the match at half
its index in the new round. -/
theorem buildRoundStep_succ (stage : StageRec) (fields : List Nat) (kt : Nat)
    (teamStats : List Nat) (tpa ntn R k : Nat) (st st₁ : BuildState)
    (hk : 0 < k) (hkR : k < R)
    (hinv : BracketInv R k st)
    (hstep : buildRoundStep stage fields kt teamStats tpa ntn R st (k + 1) = .ok st₁) :
    BracketInv R (k + 1) st₁ := by
  simp only [buildRoundStep] at hstep
  cases hbm : buildRoundMatches stage fields kt teamStats tpa ntn (k + 1)
      (2 ^ (R - (k + 1))) st with
  | error e =>
    rw [hbm] at hstep
    simp [Bind.bind, Except.bind] at hstep
  | ok pr =>
    obtain ⟨cur, st'⟩ := pr
    rw [hbm] at hstep
    simp only [Bind.bind, Except.bind] at hstep
    rw [if_pos (by omega)] at hstep
    obtain ⟨hr1, hr2, hr3, hr4⟩ := buildRoundMatches_ok stage fields kt teamStats
      tpa ntn (k + 1) (2 ^ (R - (k + 1))) st cur st' hbm
    have hne : st.rounds ≠ [] := by
      intro h0
      have hlen0 := hinv.len
      rw [h0] at hlen0
      simp at hlen0
      omega
    have hlast : st.rounds.getLast? = some (st.rounds.getLast hne) :=
      List.getLast?_eq_getLast _ hne
    have hsplit : st.rounds.dropLast ++ [st.rounds.getLast hne] = st.rounds :=
      List.dropLast_append_getLast hne
    have hdl : st.rounds.dropLast.length = k - 1 := by
      rw [List.length_dropLast, hinv.len]
    have hlenk : st.rounds.length = k := hinv.len
    have hprev_get : st.rounds.get? (k - 1) = some (st.rounds.getLast hne) := by
      conv_lhs => rw [← hsplit]
      rw [← hdl]
      exact List.get?_concat_length _ _
    obtain ⟨hplen, hpround⟩ := hinv.shape (k - 1) (st.rounds.getLast hne) hprev_get
    have hk1 : k - 1 + 1 = k := by omega
    rw [hk1] at hplen hpround
    have hexp : 2 ^ (R - k) = 2 * 2 ^ (R - (k + 1)) := by
      have hrk : R - k = (R - (k + 1)) + 1 := by omega
      rw [hrk, pow_succ]
      ring
    have hwire : ∀ i, i < (st.rounds.getLast hne).length → (0 + i) / 2 < cur.length := by
      intro i hi
      rw [hplen, hexp] at hi
      rw [hr3]
      omega
    obtain ⟨w, hwmap, hwlen, hwchar⟩ := wireRound_ok cur (st.rounds.getLast hne) 0 hwire
    rw [hr1, hlast] at hstep
    simp only [Option.getD_some] at hstep
    rw [show List.enum (st.rounds.getLast hne) =
      List.enumFrom 0 (st.rounds.getLast hne) from rfl, hwmap] at hstep
    simp only [Bind.bind, Except.bind] at hstep
    have hst1 : st₁ = { st' with rounds := st.rounds.dropLast ++ [w, cur] } := by
      simpa [pure, Except.pure] using hstep.symm
    have hrounds1 : st₁.rounds = st.rounds.dropLast ++ [w, cur] := by
      rw [hst1]
    have hnmi1 : st₁.nextMatchId = st.nextMatchId + 2 ^ (R - (k + 1)) := by
      rw [hst1]
      exact hr2
    have hchar2 : ∀ i row, (st.rounds.getLast hne).get? i = some row →
        ∃ v, w.get? i = some { row with feedsIntoMatchId := v } := by
      intro i row hrow
      obtain ⟨t, _, hwi⟩ := hwchar i row hrow
      exact ⟨some t.id, hwi⟩
    have hwid : w.map (fun m => m.id) = (st.rounds.getLast hne).map (fun m => m.id) :=
      wired_ids_eq _ _ hwlen hchar2
    have hwinv := wired_get_inv _ _ hwlen hchar2
    have hDget : ∀ j, j < k - 1 → (st.rounds.dropLast ++ [w, cur]).get? j = st.rounds.get? j := by
      intro j hj
      rw [List.get?_append (by omega)]
      rw [List.dropLast_eq_take, List.get?_take (by omega)]
    have hWget : (st.rounds.dropLast ++ [w, cur]).get? (k - 1) = some w := by
      rw [List.get?_append_right (by omega)]
      have hidx : k - 1 - st.rounds.dropLast.length = 0 := by omega
      rw [hidx]
      rfl
    have hCget : (st.rounds.dropLast ++ [w, cur]).get? k = some cur := by
      rw [List.get?_append_right (by omega)]
      have hidx : k - st.rounds.dropLast.length = 1 := by omega
      rw [hidx]
      rfl
    have hNget : ∀ j, k + 1 ≤ j → (st.rounds.dropLast ++ [w, cur]).get? j = none := by
      intro j hj
      apply List.get?_eq_none.mpr
      simp only [List.length_append, hdl]
      simp
      omega
    have hprev_mem : ∀ m ∈ st.rounds.getLast hne, m ∈ st.rounds.flatten := by
      intro m hm
      exact List.mem_flatten.mpr ⟨st.rounds.getLast hne, List.getLast_mem hne, hm⟩
    have hflat_new : (st.rounds.dropLast ++ [w, cur]).flatten =
        st.rounds.dropLast.flatten ++ (w ++ cur) := by
      simp
    have hflat_old : st.rounds.flatten = st.rounds.dropLast.flatten ++ st.rounds.getLast hne := by
      conv_lhs => rw [← hsplit]
      simp
    have hcur_ids : ∀ i row, cur.get? i = some row → row.id = st.nextMatchId + i :=
      fun i row hrow => (hr4 i row hrow).2.2
    refine ⟨?_, ?_, ?_, ?_, ?_, ?_⟩
    · rw [hrounds1]
      simp only [List.length_append, hdl]
      simp
      omega
    · intro m hm
      rw [hrounds1, hflat_new] at hm
      rw [hnmi1]
      rcases List.mem_append.mp hm with hmD | hmWC
      · have hmold : m ∈ st.rounds.flatten := by
          rw [hflat_old]
          exact List.mem_append.mpr (Or.inl hmD)
        have := hinv.idBound m hmold
        omega
      · rcases List.mem_append.mp hmWC with hmW | hmC
        · obtain ⟨j, hj⟩ := List.mem_iff_get?.mp hmW
          obtain ⟨row, v, hrowp, heq⟩ := hwinv j m hj
          have hb := hinv.idBound row (hprev_mem row (List.get?_mem hrowp))
          have hideq : m.id = row.id := by rw [heq]
          omega
        · have hb := ids_bound_of_get? cur st.nextMatchId hcur_ids m hmC
          rw [hr3] at hb
          omega
    · rw [hrounds1, hflat_new]
      have hids : (st.rounds.dropLast.flatten ++ (w ++ cur)).map (fun m => m.id) =
          (st.rounds.flatten.map (fun m => m.id)) ++ (cur.map (fun m => m.id)) := by
        rw [hflat_old]
        simp [hwid]
      rw [hids]
      rw [List.nodup_append]
      refine ⟨hinv.idNodup, nodup_ids_of_get? cur st.nextMatchId hcur_ids, ?_⟩
      intro x hx
      obtain ⟨m, hm, rfl⟩ := List.mem_map.mp hx
      have hbold := hinv.idBound m hm
      intro hxc
      obtain ⟨mc, hmc, hideq⟩ := List.mem_map.mp hxc
      have hbc := ids_bound_of_get? cur st.nextMatchId hcur_ids mc hmc
      omega
    · intro j L hL
      rw [hrounds1] at hL
      by_cases hj1 : j < k - 1
      · rw [hDget j hj1] at hL
        exact hinv.shape j L hL
      · by_cases hj2 : j = k - 1
        · subst hj2
          rw [hWget] at hL
          obtain rfl : w = L := by simpa using hL
          rw [hk1]
          refine ⟨by rw [hwlen, hplen], ?_⟩
          intro m hm
          obtain ⟨i, hi⟩ := List.mem_iff_get?.mp hm
          obtain ⟨row, v, hrowp, rfl⟩ := hwinv i m hi
          have hrm := hpround row (List.get?_mem hrowp)
          simpa using hrm
        · by_cases hj3 : j = k
          · subst hj3
            rw [hCget] at hL
            obtain rfl : cur = L := by simpa using hL
            refine ⟨by rw [hr3], ?_⟩
            intro m hm
            obtain ⟨i, hi⟩ := List.mem_iff_get?.mp hm
            exact (hr4 i m hi).1
          · rw [hNget j (by omega)] at hL
            simp at hL
    · intro j L L2 hL hL2 i row hrow
      rw [hrounds1] at hL hL2
      by_cases hj1 : j + 1 < k - 1
      · rw [hDget j (by omega)] at hL
        rw [hDget (j + 1) hj1] at hL2
        exact hinv.chain j L L2 hL hL2 i row hrow
      · by_cases hj2 : j + 1 = k - 1
        · rw [hDget j (by omega)] at hL
          rw [hj2, hWget] at hL2
          obtain rfl : w = L2 := by simpa using hL2
          have hLold : st.rounds.get? (j + 1) = some (st.rounds.getLast hne) := by
            rw [hj2]
            exact hprev_get
          obtain ⟨t, ht, hfeeds⟩ := hinv.chain j L (st.rounds.getLast hne) hL hLold i row hrow
          obtain ⟨tc, _, hwt⟩ := hwchar (i / 2) t ht
          refine ⟨{ t with feedsIntoMatchId := some tc.id }, by simpa using hwt, ?_⟩
          rw [hfeeds]
        · by_cases hj3 : j = k - 1
          · subst hj3
            rw [hWget] at hL
            obtain rfl : w = L := by simpa using hL
            rw [hk1, hCget] at hL2
            obtain rfl : cur = L2 := by simpa using hL2
            obtain ⟨prow, v, hprow, rfl⟩ := hwinv i row hrow
            obtain ⟨t, ht, hwt⟩ := hwchar i prow hprow
            rw [hrow] at hwt
            have hveq : ({ prow with feedsIntoMatchId := v } : MatchRow) =
                { prow with feedsIntoMatchId := some t.id } := by simpa using hwt
            refine ⟨t, by simpa using ht, ?_⟩
            rw [hveq]
          · by_cases hj4 : j = k
            · rw [hj4, hNget (k + 1) (by omega)] at hL2
              simp at hL2
            · rw [hNget j (by omega)] at hL
              simp at hL
    · intro L hL
      rw [hrounds1] at hL
      have hkk : k + 1 - 1 = k := by omega
      rw [hkk, hCget] at hL
      obtain rfl : cur = L := by simpa using hL
      intro m hm
      obtain ⟨i, hi⟩ := List.mem_iff_get?.mp hm
      exact (hr4 i m hi).2.1

/-- A successful `Except` bind factors into a successful first step and a
successful continuation. -/
theorem except_bind_ok {α β : Type} (x : Except String α) (f : α → Except String β)
    (b : β) (h : x >>= f = .ok b) : ∃ a, x = .ok a ∧ f a = .ok b := by
  cases x with
  | error e => simp [Bind.bind, Except.bind] at h
  | ok a => exact ⟨a, rfl, by simpa [Bind.bind, Except.bind] using h⟩

/-- Folding `buildRoundStep` over the remaining rounds carries the builder
invariant to the final state. -/
theorem bracketRounds_ok (stage : StageRec) (fields : List Nat) (kt : Nat)
    (teamStats : List Nat) (tpa ntn R : Nat) :
    ∀ (n k : Nat) (st stF : BuildState),
    k + n = R →
    BracketInv R k st →
    (List.range' (k + 1) n).foldlM
      (buildRoundStep stage fields kt teamStats tpa ntn R) st = .ok stF →
    BracketInv R R stF := by
  intro n
  induction n with
  | zero =>
    intro k st stF hkn hinv hfold
    simp only [List.range', List.foldlM_nil] at hfold
    have hst : st = stF := by simpa [pure, Except.pure] using hfold
    have hke : k = R := by omega
    subst hke
    exact hst ▸ hinv
  | succ n ih =>
    intro k st stF hkn hinv hfold
    have hr : List.range' (k + 1) (n + 1) = (k + 1) :: List.range' (k + 2) n := rfl
    rw [hr, List.foldlM_cons] at hfold
    cases hstep : buildRoundStep stage fields kt teamStats tpa ntn R st (k + 1) with
    | error e =>
      rw [hstep] at hfold
      simp [Bind.bind, Except.bind] at hfold
    | ok st₁ =>
      rw [hstep] at hfold
      simp only [Bind.bind, Except.bind] at hfold
      have hinv1 : BracketInv R (k + 1) st₁ := by
        rcases Nat.eq_zero_or_pos k with hk0 | hkpos
        · subst hk0
          exact buildRoundStep_one stage fields kt teamStats tpa ntn R st st₁ hinv hstep
        · exact buildRoundStep_succ stage fields kt teamStats tpa ntn R k st st₁
            hkpos (by omega) hinv hstep
      have hidx : k + 2 = (k + 1) + 1 := by omega
      rw [hidx] at hfold
      exact ih (k + 1) st₁ stF (by omega) hinv1 hfold

/-- Filtering the flattened per-round lists by a round number in range
returns exactly the list of that round. -/
theorem filter_flatten_rounds : ∀ (Ls : List (List MatchRow)) (base r : Nat),
    (∀ j L, Ls.get? j = some L → ∀ m ∈ L, m.roundNumber = base + j + 1) →
    base + 1 ≤ r → r ≤ base + Ls.length →
    Ls.flatten.filter (fun m => m.roundNumber == r) = (Ls.get? (r - base - 1)).getD [] := by
  intro Ls
  induction Ls with
  | nil =>
    intro base r hround h1 h2
    simp only [List.length_nil] at h2
    omega
  | cons L0 rest ih =>
    intro base r hround h1 h2
    have hL0 : ∀ m ∈ L0, m.roundNumber = base + 1 := by
      intro m hm
      have hh := hround 0 L0 rfl m hm
      omega
    have hrest : ∀ j L, rest.get? j = some L → ∀ m ∈ L, m.roundNumber = (base + 1) + j + 1 := by
      intro j L hL m hm
      have hh := hround (j + 1) L (by simpa using hL) m hm
      omega
    rw [List.flatten_cons, List.filter_append]
    by_cases hr0 : r = base + 1
    · have hf0 : L0.filter (fun m => m.roundNumber == r) = L0 := by
        apply List.filter_eq_self.mpr
        intro m hm
        simp [hL0 m hm, hr0]
      have hfr : rest.flatten.filter (fun m => m.roundNumber == r) = [] := by
        apply List.filter_eq_nil_iff.mpr
        intro m hm
        obtain ⟨L, hLmem, hmL⟩ := List.mem_flatten.mp hm
        obtain ⟨j, hj⟩ := List.mem_iff_get?.mp hLmem
        have hh := hrest j L hj m hmL
        simp only [beq_iff_eq]
        omega
      rw [hf0, hfr, List.append_nil]
      have hidx : r - base - 1 = 0 := by omega
      rw [hidx]
      rfl
    · have hf0 : L0.filter (fun m => m.roundNumber == r) = [] := by
        apply List.filter_eq_nil_iff.mpr
        intro m hm
        simp only [beq_iff_eq]
        have hh := hL0 m hm
        omega
      rw [hf0, List.nil_append]
      have hrx := ih (base + 1) r hrest (by omega)
        (by simp only [List.length_cons] at h2; omega)
      rw [hrx]
      have hidx : r - base - 1 = (r - (base + 1) - 1) + 1 := by omega
      rw [hidx]
      rfl

/-- A successful `generatePlayoffSchedule` run factors into a successful
`buildRoundStep` fold from an empty-rounds initial state whose final rounds
flatten into the returned rows. -/
theorem generatePlayoffSchedule_destruct (stage : StageRec) (R : Nat)
    (teamStats fields : List Nat) (lastMatchNumber lastBracketSlot : Option Nat)
    (kickoffTime : Nat) (db : DB)
    (hok : generatePlayoffSchedule stage R teamStats fields lastMatchNumber
      lastBracketSlot kickoffTime = .ok db) :
    ∃ (tpa : Nat) (st0 stF : BuildState), st0.rounds = [] ∧
      (List.range' 1 R).foldlM
        (buildRoundStep stage fields kickoffTime teamStats tpa (2 ^ R) R) st0 =
        .ok stF ∧
      db = { matchRows := stF.rounds.flatten, alliances := stF.alliances,
             teamAlliances := stF.teamAlliances } := by
  simp only [generatePlayoffSchedule] at hok
  by_cases h1 : stage.type ≠ PLAYOFF
  · rw [if_pos h1] at hok
    simp [Bind.bind, Except.bind, throw, throwThe, MonadExceptOf.throw] at hok
  · rw [if_neg h1] at hok
    by_cases h2 : teamStats.length < 2 ^ R
    · rw [if_pos h2] at hok
      simp [Bind.bind, Except.bind, throw, throwThe, MonadExceptOf.throw,
        pure, Except.pure] at hok
    · rw [if_neg h2] at hok
      by_cases h3 : fields.length = 0
      · rw [if_pos h3] at hok
        simp [Bind.bind, Except.bind, throw, throwThe, MonadExceptOf.throw,
          pure, Except.pure] at hok
      · rw [if_neg h3] at hok
        simp only [pure, Except.pure, Bind.bind, Except.bind] at hok
        obtain ⟨stF, hfold, hpure⟩ := except_bind_ok _ _ _ hok
        refine ⟨_, _, stF, rfl, hfold, ?_⟩
        simpa [pure, Except.pure] using hpure.symm

/-- C7: in every successful `generatePlayoffSchedule` build with `R` rounds,
all rows carry round numbers in `1..R`; each round `r < R` has `2 ^ (R - r)`
matches and its match at index `i` carries exactly one forward reference,
pointing at the round-`(r+1)` match at index `i / 2`; final-round matches
carry none; forward references always step the round number up by one, so
the reference graph of the stage is acyclic. -/
theorem generatePlayoffSchedule_forward_refs
    (stage : StageRec) (R : Nat) (teamStats fields : List Nat)
    (lastMatchNumber lastBracketSlot : Option Nat) (kickoffTime : Nat) (db : DB)
    (hok : generatePlayoffSchedule stage R teamStats fields lastMatchNumber
      lastBracketSlot kickoffTime = .ok db) :
    (∀ m ∈ db.matchRows, 1 ≤ m.roundNumber ∧ m.roundNumber ≤ R) ∧
    (∀ r, 1 ≤ r → r < R →
      (roundMatchesCreated db r).length = 2 ^ (R - r) ∧
      (roundMatchesCreated db (r + 1)).length = 2 ^ (R - (r + 1)) ∧
      ∀ i m, (roundMatchesCreated db r).get? i = some m →
        ∃ t, (roundMatchesCreated db (r + 1)).get? (i / 2) = some t ∧
          m.feedsIntoMatchId = some t.id) ∧
    (∀ m ∈ db.matchRows, m.roundNumber = R → m.feedsIntoMatchId = none) ∧
    (∀ m m', m ∈ db.matchRows → m' ∈ db.matchRows →
      m.feedsIntoMatchId = some m'.id → m'.roundNumber = m.roundNumber + 1) ∧
    (∀ m, ¬ Relation.TransGen (feedsIntoRel db) m m) := by
  obtain ⟨tpa, st0, stF, hrounds0, hfold, hdb⟩ :=
    generatePlayoffSchedule_destruct stage R teamStats fields lastMatchNumber
      lastBracketSlot kickoffTime db hok
  have hinv0 : BracketInv R 0 st0 := by
    refine ⟨by simp [hrounds0], ?_, ?_, ?_, ?_, ?_⟩
    · intro m hm
      rw [hrounds0] at hm
      simp at hm
    · rw [hrounds0]
      simp
    · intro j L hL
      rw [hrounds0] at hL
      simp at hL
    · intro j L L2 hL hL2 i row hrow
      rw [hrounds0] at hL
      simp at hL
    · intro L hL
      rw [hrounds0] at hL
      simp at hL
  have hinvF : BracketInv R R stF :=
    bracketRounds_ok stage fields kickoffTime teamStats tpa (2 ^ R) R R 0 st0 stF
      (by omega) hinv0 hfold
  have hdbM : db.matchRows = stF.rounds.flatten := by rw [hdb]
  have hlenR : stF.rounds.length = R := hinvF.len
  have hmem_round : ∀ m ∈ stF.rounds.flatten, ∃ j L,
      stF.rounds.get? j = some L ∧ m ∈ L ∧ m.roundNumber = j + 1 ∧ j < R := by
    intro m hm
    obtain ⟨L, hLmem, hmL⟩ := List.mem_flatten.mp hm
    obtain ⟨j, hj⟩ := List.mem_iff_get?.mp hLmem
    have hjlt : j < R := by
      obtain ⟨hlt, _⟩ := List.get?_eq_some.mp hj
      omega
    exact ⟨j, L, hj, hmL, (hinvF.shape j L hj).2 m hmL, hjlt⟩
  have hfilter : ∀ r, 1 ≤ r → r ≤ R →
      stF.rounds.flatten.filter (fun m => m.roundNumber == r) =
        (stF.rounds.get? (r - 1)).getD [] := by
    intro r h1 h2
    have hall : ∀ j L, stF.rounds.get? j = some L →
        ∀ m ∈ L, m.roundNumber = 0 + j + 1 := by
      intro j L hL m hm
      have hh := (hinvF.shape j L hL).2 m hm
      omega
    have hff := filter_flatten_rounds stF.rounds 0 r hall (by omega)
      (by rw [hlenR]; omega)
    simpa using hff
  have hroundList : ∀ r, 1 ≤ r → r ≤ R → ∃ L, stF.rounds.get? (r - 1) = some L ∧
      roundMatchesCreated db r = L ∧ L.length = 2 ^ (R - r) ∧
      (∀ m ∈ L, m.roundNumber = r) := by
    intro r h1 h2
    have hlt : r - 1 < stF.rounds.length := by omega
    obtain ⟨L, hL⟩ : ∃ L, stF.rounds.get? (r - 1) = some L :=
      ⟨_, List.get?_eq_get hlt⟩
    obtain ⟨hsl, hsr⟩ := hinvF.shape (r - 1) L hL
    have hr1 : r - 1 + 1 = r := by omega
    refine ⟨L, hL, ?_, by rw [hsl, hr1], fun m hm => by rw [hsr m hm, hr1]⟩
    unfold roundMatchesCreated
    rw [hdbM, hfilter r h1 h2, hL]
    rfl
  have hd : ∀ m m', m ∈ db.matchRows → m' ∈ db.matchRows →
      m.feedsIntoMatchId = some m'.id → m'.roundNumber = m.roundNumber + 1 := by
    intro m m' hm hm' hfeed
    rw [hdbM] at hm hm'
    obtain ⟨j, L, hj, hmL, hjr, hjlt⟩ := hmem_round m hm
    by_cases hlast : j + 1 = R
    · have hgl : stF.rounds.get? (R - 1) = some L := by
        have hje : R - 1 = j := by omega
        rw [hje]
        exact hj
      have hnone := hinvF.lastNone L hgl m hmL
      rw [hnone] at hfeed
      simp at hfeed
    · have hj1lt : j + 1 < stF.rounds.length := by omega
      obtain ⟨L2, hL2⟩ : ∃ L2, stF.rounds.get? (j + 1) = some L2 :=
        ⟨_, List.get?_eq_get hj1lt⟩
      obtain ⟨i, hi⟩ := List.mem_iff_get?.mp hmL
      obtain ⟨t, ht, hfeeds⟩ := hinvF.chain j L L2 hj hL2 i m hi
      have htmem : t ∈ stF.rounds.flatten :=
        List.mem_flatten.mpr ⟨L2, List.get?_mem hL2, List.get?_mem ht⟩
      have hids : m'.id = t.id := by
        have hh := hfeed.symm.trans hfeeds
        simpa using hh
      have hmt : m' = t := List.inj_on_of_nodup_map hinvF.idNodup hm' htmem hids
      have htr := (hinvF.shape (j + 1) L2 hL2).2 t (List.get?_mem ht)
      rw [hmt, htr, hjr]
  refine ⟨?_, ?_, ?_, hd, ?_⟩
  · intro m hm
    rw [hdbM] at hm
    obtain ⟨j, L, hj, hmL, hmr, hjlt⟩ := hmem_round m hm
    omega
  · intro r h1 h2
    obtain ⟨L1, hL1, hRM1, hlen1, _⟩ := hroundList r h1 (by omega)
    obtain ⟨L2, hL2, hRM2, hlen2, _⟩ := hroundList (r + 1) (by omega) (by omega)
    refine ⟨by rw [hRM1, hlen1], by rw [hRM2, hlen2], ?_⟩
    intro i m him
    rw [hRM1] at him
    have hL2x : stF.rounds.get? ((r - 1) + 1) = some L2 := by
      have hre : (r - 1) + 1 = (r + 1) - 1 := by omega
      rw [hre]
      exact hL2
    obtain ⟨t, ht, hfeeds⟩ := hinvF.chain (r - 1) L1 L2 hL1 hL2x i m him
    refine ⟨t, ?_, hfeeds⟩
    rw [hRM2]
    exact ht
  · intro m hm hmr
    rw [hdbM] at hm
    obtain ⟨j, L, hj, hmL, hjr, hjlt⟩ := hmem_round m hm
    have hgl : stF.rounds.get? (R - 1) = some L := by
      have hje : R - 1 = j := by omega
      rw [hje]
      exact hj
    exact hinvF.lastNone L hgl m hmL
  · have hmono : ∀ x y, Relation.TransGen (feedsIntoRel db) x y →
        x.roundNumber < y.roundNumber := by
      intro x y h
      induction h with
      | single hxy =>
        obtain ⟨hx, hy, hid⟩ := hxy
        have hh := hd _ _ hx hy hid
        omega
      | tail hxz hstep ih =>
        obtain ⟨hx, hy, hid⟩ := hstep
        have hh := hd _ _ hx hy hid
        omega
    intro m hcontra
    have hh := hmono m m hcontra
    omega

/-- Witness for `generatePlayoffSchedule_forward_refs` on the concrete
two-round build: hypothesis discharged by evaluation, conclusions
instantiated at the built bracket. -/
theorem generatePlayoffSchedule_forward_refs_witness :
    (generatePlayoffSchedule playoffStage 2 [40, 30, 20, 10] [5] none none 0 =
      .ok builtBracketDB) ∧
    ((∀ m ∈ builtBracketDB.matchRows, 1 ≤ m.roundNumber ∧ m.roundNumber ≤ 2) ∧
    (∀ r, 1 ≤ r → r < 2 →
      (roundMatchesCreated builtBracketDB r).length = 2 ^ (2 - r) ∧
      (roundMatchesCreated builtBracketDB (r + 1)).length = 2 ^ (2 - (r + 1)) ∧
      ∀ i m, (roundMatchesCreated builtBracketDB r).get? i = some m →
        ∃ t, (roundMatchesCreated builtBracketDB (r + 1)).get? (i / 2) = some t ∧
          m.feedsIntoMatchId = some t.id) ∧
    (∀ m ∈ builtBracketDB.matchRows, m.roundNumber = 2 → m.feedsIntoMatchId = none) ∧
    (∀ m m', m ∈ builtBracketDB.matchRows → m' ∈ builtBracketDB.matchRows →
      m.feedsIntoMatchId = some m'.id → m'.roundNumber = m.roundNumber + 1) ∧
    (∀ m, ¬ Relation.TransGen (feedsIntoRel builtBracketDB) m m)) :=
  ⟨by decide,
   generatePlayoffSchedule_forward_refs playoffStage 2 [40, 30, 20, 10] [5]
     none none 0 builtBracketDB (by decide)⟩


/-! ### Claim C5: even-division match count and per-team appearances -/

/-- An `if` preserves any predicate that both branches satisfy. -/

theorem prop_ite {α : Type} (P : α → Prop) (c : Prop) [Decidable c] (a b : α)
    (ha : P a) (hb : P b) : P (if c then a else b) := by
  by_cases h : c
  · rwa [if_pos h]
  · rwa [if_neg h]

theorem sum_map_set {α : Type} [Inhabited α] (f : α → Nat) (l : List α) (j : Nat)
    (x : α) (hj : j < l.length) :
    ((l.set j x).map f).sum + f (l.getD j default) = (l.map f).sum + f x := by
  rw [List.set_eq_take_cons_drop x hj, List.getD_eq_getElem l default hj]
  conv_rhs => rw [← List.take_append_drop j l, List.drop_eq_getElem_cons hj]
  simp only [List.map_append, List.sum_append, List.map_cons, List.sum_cons]
  omega

theorem count_set_swap : ∀ (l : List Nat) (pos : Nat), pos < l.length → ∀ (v t : Nat),
    (l.set pos v).count t + (if l.getD pos 0 = t then 1 else 0) =
      l.count t + (if v = t then 1 else 0) := by
  intro l
  induction l with
  | nil => intro pos h; simp at h
  | cons a as ih =>
    intro pos hp v t
    match pos with
    | 0 =>
      simp only [List.set, List.getD, List.get?, List.count_cons, Option.getD_some,
        beq_iff_eq]
      split_ifs <;> omega
    | pos + 1 =>
      have hp' : pos < as.length := by simpa using hp
      have hih := ih pos hp' v t
      simp only [List.set, List.getD, List.get?, List.count_cons, beq_iff_eq] at hih ⊢
      split_ifs at hih ⊢ <;> omega

theorem countP_mod_shift (N r : Nat) (_hN : 0 < N) (s : Nat) :
    (List.range' s N).countP (fun j => j % N == r) =
      (List.range' (s + 1) N).countP (fun j => j % N == r) := by
  have h1 : List.range' s (N + 1) = s :: List.range' (s + 1) N := rfl
  have h2 : List.range' s (N + 1) = List.range' s N ++ [s + N] := by
    have hc := @List.range'_concat 1 s N
    simpa using hc
  have h3 := congrArg (List.countP (fun j => j % N == r)) (h1.symm.trans h2)
  rw [List.countP_cons, List.countP_append] at h3
  have hmod : ((s : Nat) % N == r) = ((s + N) % N == r) := by
    rw [Nat.add_mod_right]
  rw [hmod] at h3
  simp only [List.countP_cons, List.countP_nil] at h3
  split_ifs at h3 <;> omega

theorem countP_mod_window (N r : Nat) (hN : 0 < N) (hr : r < N) :
    ∀ s, (List.range' s N).countP (fun j => j % N == r) = 1 := by
  have hbase : (List.range' 0 N).countP (fun j => j % N == r) = 1 := by
    rw [← List.range_eq_range']
    have hcongr : (List.range N).countP (fun j => j % N == r) =
        (List.range N).countP (fun j => j == r) := by
      apply List.countP_congr
      intro j hj
      rw [Nat.mod_eq_of_lt (List.mem_range.mp hj)]
    rw [hcongr, ← List.count_eq_countP]
    exact List.count_eq_one_of_mem (List.nodup_range N) (List.mem_range.mpr hr)
  intro s
  induction s with
  | zero => exact hbase
  | succ s ih => rw [← countP_mod_shift N r hN s]; exact ih

theorem countP_mod_interval (N r : Nat) (hN : 0 < N) (hr : r < N) :
    ∀ (q s : Nat), (List.range' s (N * q)).countP (fun j => j % N == r) = q := by
  intro q
  induction q with
  | zero => intro s; simp
  | succ q ih =>
    intro s
    have hsplit : List.range' s (N * (q + 1)) = List.range' s N ++ List.range' (s + N) (N * q) := by
      have happ := List.range'_append s N (N * q) 1
      have harith : N * q + N = N * (q + 1) := by ring
      rw [← harith]
      have hs : s + 1 * N = s + N := by ring_nf
      rw [← hs]
      exact happ.symm
    rw [hsplit, List.countP_append, countP_mod_window N r hN hr s, ih (s + N)]
    omega

theorem countP_blocks (p : Nat → Bool) (T : Nat) : ∀ (M s : Nat),
    ((List.range M).map (fun j => (List.range' (s + j * T) T).countP p)).sum =
      (List.range' s (M * T)).countP p := by
  intro M
  induction M with
  | zero => intro s; simp
  | succ M ih =>
    intro s
    rw [List.range_succ_eq_map]
    have hmaps : (List.map Nat.succ (List.range M)).map
        (fun j => (List.range' (s + j * T) T).countP p) =
        (List.range M).map (fun j => (List.range' ((s + T) + j * T) T).countP p) := by
      rw [List.map_map]
      apply List.map_congr_left
      intro j hj
      have harith : s + Nat.succ j * T = s + T + j * T := by
        rw [Nat.succ_eq_add_one]
        ring
      simp only [Function.comp]
      rw [harith]
    rw [List.map_cons, List.sum_cons, hmaps, ih (s + T)]
    have hsplit : List.range' s ((M + 1) * T) = List.range' s T ++ List.range' (s + T) (M * T) := by
      have happ := List.range'_append s T (M * T) 1
      have harith : M * T + T = (M + 1) * T := by ring
      rw [← harith]
      have hs : s + 1 * T = s + T := by ring_nf
      rw [← hs]
      exact happ.symm
    rw [hsplit, List.countP_append]
    simp

theorem count_map_getD (teams : List Nat) (hnd : teams.Nodup) (l : List Nat) (i : Nat)
    (hi : i < teams.length)
    (hl : ∀ v ∈ l, 1 ≤ v ∧ v ≤ teams.length) :
    (l.map (fun t => teams.getD (t - 1) 0)).count (teams.get ⟨i, hi⟩) = l.count (i + 1) := by
  rw [List.count_eq_countP, List.count_eq_countP, List.countP_map]
  apply List.countP_congr
  intro t ht
  obtain ⟨h1, h2⟩ := hl t ht
  have hti : t - 1 < teams.length := by omega
  simp only [Function.comp, beq_iff_eq]
  rw [List.getD_eq_getElem teams 0 hti]
  constructor
  · intro he
    have hinj := List.nodup_iff_injective_get.mp hnd
    have hgg : teams.get ⟨t - 1, hti⟩ = teams.get ⟨i, hi⟩ := by
      simpa using he
    have := hinj hgg
    have hti2 : t - 1 = i := by
      have hfin := Fin.mk.injEq (t - 1) hti i hi ▸ congrArg Fin.val this
      simpa using congrArg Fin.val this
    omega
  · intro he
    have hti2 : t - 1 = i := by omega
    subst he
    simp [hti2]

theorem setSlot_lengths (r : Bool) (pos v : Nat) (m : FMatch) :
    (setSlot r pos v m).redAlliance.length = m.redAlliance.length ∧
    (setSlot r pos v m).blueAlliance.length = m.blueAlliance.length := by
  cases r <;> simp [setSlot]

theorem setSlot_mem_values (r : Bool) (pos v : Nat) (m : FMatch) (x : Nat)
    (hx : x ∈ (setSlot r pos v m).redAlliance ∨ x ∈ (setSlot r pos v m).blueAlliance) :
    (x ∈ m.redAlliance ∨ x ∈ m.blueAlliance) ∨ x = v := by
  cases r with
  | true =>
    rcases hx with h | h
    · have h2 : x ∈ m.redAlliance.set pos v := h
      rcases List.mem_or_eq_of_mem_set h2 with h' | h'
      · exact Or.inl (Or.inl h')
      · exact Or.inr h'
    · exact Or.inl (Or.inr h)
  | false =>
    rcases hx with h | h
    · exact Or.inl (Or.inl h)
    · have h2 : x ∈ m.blueAlliance.set pos v := h
      rcases List.mem_or_eq_of_mem_set h2 with h' | h'
      · exact Or.inl (Or.inr h')
      · exact Or.inr h'

theorem getSlot_mem (r : Bool) (pos : Nat) (m : FMatch)
    (hp : pos < (if r then m.redAlliance.length else m.blueAlliance.length)) :
    getSlot r pos m ∈ m.redAlliance ∨ getSlot r pos m ∈ m.blueAlliance := by
  cases r with
  | true =>
    have hp2 : pos < m.redAlliance.length := by simpa using hp
    left
    show m.redAlliance.getD pos 0 ∈ m.redAlliance
    rw [List.getD_eq_getElem m.redAlliance 0 hp2]
    exact List.getElem_mem hp2
  | false =>
    have hp2 : pos < m.blueAlliance.length := by simpa using hp
    right
    show m.blueAlliance.getD pos 0 ∈ m.blueAlliance
    rw [List.getD_eq_getElem m.blueAlliance 0 hp2]
    exact List.getElem_mem hp2

theorem occ_setSlot (r : Bool) (pos v t : Nat) (m : FMatch)
    (hp : pos < (if r then m.redAlliance.length else m.blueAlliance.length)) :
    ((setSlot r pos v m).redAlliance.count t + (setSlot r pos v m).blueAlliance.count t)
      + (if getSlot r pos m = t then 1 else 0) =
    (m.redAlliance.count t + m.blueAlliance.count t) + (if v = t then 1 else 0) := by
  cases r with
  | true =>
    have hp2 : pos < m.redAlliance.length := by simpa using hp
    have hcs := count_set_swap m.redAlliance pos hp2 v t
    show ((m.redAlliance.set pos v).count t + m.blueAlliance.count t)
      + (if m.redAlliance.getD pos 0 = t then 1 else 0) = _
    omega
  | false =>
    have hp2 : pos < m.blueAlliance.length := by simpa using hp
    have hcs := count_set_swap m.blueAlliance pos hp2 v t
    show (m.redAlliance.count t + (m.blueAlliance.set pos v).count t)
      + (if m.blueAlliance.getD pos 0 = t then 1 else 0) = _
    omega

theorem mem_double_set {α : Type} (l : List α) (i1 i2 : Nat) (x1 x2 : α) (m : α)
    (hm : m ∈ (l.set i1 x1).set i2 x2) : m ∈ l ∨ m = x1 ∨ m = x2 := by
  rcases List.mem_or_eq_of_mem_set hm with h | h
  · rcases List.mem_or_eq_of_mem_set h with h' | h'
    · exact Or.inl h'
    · exact Or.inr (Or.inl h')
  · exact Or.inr (Or.inr h)

theorem occ_set (ms : List FMatch) (j : Nat) (x : FMatch) (t : Nat)
    (hj : j < ms.length) :
    teamOccurrences (ms.set j x) t + ((ms.getD j default).redAlliance.count t +
      (ms.getD j default).blueAlliance.count t) =
    teamOccurrences ms t + (x.redAlliance.count t + x.blueAlliance.count t) := by
  have hs := sum_map_set (fun m => m.redAlliance.count t + m.blueAlliance.count t)
    ms j x hj
  simpa [teamOccurrences] using hs

theorem generateNeighborSchedule_eq (tpa : Nat) (c : NeighborChoice) (ms : List FMatch)
    (hlen : 2 ≤ ms.length) :
    generateNeighborSchedule tpa c ms =
      (ms.set (randBelow ms.length c.m1)
        (setSlot c.red1 (randBelow tpa c.p1)
          (getSlot c.red2 (randBelow tpa c.p2)
            (ms.getD (if randBelow ms.length c.m1 ≤ randBelow (ms.length - 1) c.m2 then
                randBelow (ms.length - 1) c.m2 + 1
              else randBelow (ms.length - 1) c.m2) default))
          (ms.getD (randBelow ms.length c.m1) default))).set
        (if randBelow ms.length c.m1 ≤ randBelow (ms.length - 1) c.m2 then
            randBelow (ms.length - 1) c.m2 + 1
          else randBelow (ms.length - 1) c.m2)
        (setSlot c.red2 (randBelow tpa c.p2)
          (getSlot c.red1 (randBelow tpa c.p1) (ms.getD (randBelow ms.length c.m1) default))
          ((ms.set (randBelow ms.length c.m1)
            (setSlot c.red1 (randBelow tpa c.p1)
              (getSlot c.red2 (randBelow tpa c.p2)
                (ms.getD (if randBelow ms.length c.m1 ≤ randBelow (ms.length - 1) c.m2 then
                    randBelow (ms.length - 1) c.m2 + 1
                  else randBelow (ms.length - 1) c.m2) default))
              (ms.getD (randBelow ms.length c.m1) default))).getD
            (if randBelow ms.length c.m1 ≤ randBelow (ms.length - 1) c.m2 then
                randBelow (ms.length - 1) c.m2 + 1
              else randBelow (ms.length - 1) c.m2) default)) := by
  unfold generateNeighborSchedule
  rw [if_pos hlen]

theorem neighbor_preserves (tpa N : Nat) (htpa : 0 < tpa) (c : NeighborChoice)
    (ms : List FMatch)
    (hall : ∀ m ∈ ms, m.redAlliance.length = tpa ∧ m.blueAlliance.length = tpa ∧
      (∀ v, v ∈ m.redAlliance ∨ v ∈ m.blueAlliance → 1 ≤ v ∧ v ≤ N)) :
    (generateNeighborSchedule tpa c ms).length = ms.length ∧
    (∀ m ∈ generateNeighborSchedule tpa c ms,
      m.redAlliance.length = tpa ∧ m.blueAlliance.length = tpa ∧
      (∀ v, v ∈ m.redAlliance ∨ v ∈ m.blueAlliance → 1 ≤ v ∧ v ≤ N)) ∧
    (∀ t, teamOccurrences (generateNeighborSchedule tpa c ms) t = teamOccurrences ms t) := by
  by_cases hlen : 2 ≤ ms.length
  · rw [generateNeighborSchedule_eq tpa c ms hlen]
    set i1 := randBelow ms.length c.m1 with hi1def
    set k2 := randBelow (ms.length - 1) c.m2 with hk2def
    set i2 := (if i1 ≤ k2 then k2 + 1 else k2) with hi2def
    set p1 := randBelow tpa c.p1 with hp1def
    set p2 := randBelow tpa c.p2 with hp2def
    have hms0 : ms.length ≠ 0 := by omega
    have hi1 : i1 < ms.length := by
      rw [hi1def]
      unfold randBelow
      rw [if_neg hms0]
      exact Nat.mod_lt _ (by omega)
    have hk : k2 < ms.length - 1 := by
      rw [hk2def]
      unfold randBelow
      rw [if_neg (by omega)]
      exact Nat.mod_lt _ (by omega)
    have hi2 : i2 < ms.length := by
      rw [hi2def]
      split <;> omega
    have hne : i1 ≠ i2 := by
      rw [hi2def]
      split <;> omega
    have hpb1 : p1 < tpa := by
      rw [hp1def]
      unfold randBelow
      rw [if_neg (by omega)]
      exact Nat.mod_lt _ htpa
    have hpb2 : p2 < tpa := by
      rw [hp2def]
      unfold randBelow
      rw [if_neg (by omega)]
      exact Nat.mod_lt _ htpa
    have hm1mem : ms.getD i1 default ∈ ms := by
      rw [List.getD_eq_getElem ms default hi1]
      exact List.getElem_mem hi1
    have hm2mem : ms.getD i2 default ∈ ms := by
      rw [List.getD_eq_getElem ms default hi2]
      exact List.getElem_mem hi2
    obtain ⟨hm1r, hm1b, hm1v⟩ := hall _ hm1mem
    obtain ⟨hm2r, hm2b, hm2v⟩ := hall _ hm2mem
    have hp1 : p1 < (if c.red1 then (ms.getD i1 default).redAlliance.length
        else (ms.getD i1 default).blueAlliance.length) := by
      cases c.red1
      · rw [if_neg (by simp), hm1b]
        exact hpb1
      · rw [if_pos rfl, hm1r]
        exact hpb1
    have hp2 : p2 < (if c.red2 then (ms.getD i2 default).redAlliance.length
        else (ms.getD i2 default).blueAlliance.length) := by
      cases c.red2
      · rw [if_neg (by simp), hm2b]
        exact hpb2
      · rw [if_pos rfl, hm2r]
        exact hpb2
    have hread : (ms.set i1 (setSlot c.red1 p1 (getSlot c.red2 p2 (ms.getD i2 default))
        (ms.getD i1 default))).getD i2 default = ms.getD i2 default := by
      rw [List.getD_eq_getElem?_getD, List.getD_eq_getElem?_getD,
        List.getElem?_set_ne hne]
    rw [hread]
    refine ⟨by simp, ?_, ?_⟩
    · intro m hm
      rcases mem_double_set _ _ _ _ _ _ hm with h | h | h
      · exact hall m h
      · subst h
        obtain ⟨hsr, hsb⟩ := setSlot_lengths c.red1 p1
          (getSlot c.red2 p2 (ms.getD i2 default)) (ms.getD i1 default)
        refine ⟨by rw [hsr, hm1r], by rw [hsb, hm1b], ?_⟩
        intro v hv
        rcases setSlot_mem_values _ _ _ _ _ hv with h' | h'
        · exact hm1v v h'
        · subst h'
          exact hm2v _ (getSlot_mem c.red2 p2 _ hp2)
      · subst h
        obtain ⟨hsr, hsb⟩ := setSlot_lengths c.red2 p2
          (getSlot c.red1 p1 (ms.getD i1 default)) (ms.getD i2 default)
        refine ⟨by rw [hsr, hm2r], by rw [hsb, hm2b], ?_⟩
        intro v hv
        rcases setSlot_mem_values _ _ _ _ _ hv with h' | h'
        · exact hm2v v h'
        · subst h'
          exact hm1v _ (getSlot_mem c.red1 p1 _ hp1)
    · intro t
      have hS1 := occ_set ms i1
        (setSlot c.red1 p1 (getSlot c.red2 p2 (ms.getD i2 default)) (ms.getD i1 default))
        t hi1
      have hS2 := occ_set
        (ms.set i1 (setSlot c.red1 p1 (getSlot c.red2 p2 (ms.getD i2 default))
          (ms.getD i1 default))) i2
        (setSlot c.red2 p2 (getSlot c.red1 p1 (ms.getD i1 default)) (ms.getD i2 default))
        t (by rw [List.length_set]; exact hi2)
      rw [hread] at hS2
      have hE1 := occ_setSlot c.red1 p1 (getSlot c.red2 p2 (ms.getD i2 default)) t
        (ms.getD i1 default) hp1
      have hE2 := occ_setSlot c.red2 p2 (getSlot c.red1 p1 (ms.getD i1 default)) t
        (ms.getD i2 default) hp2
      omega
  · unfold generateNeighborSchedule
    rw [if_neg hlen]
    exact ⟨rfl, hall, fun t => rfl⟩

theorem optimizeLoop_preserves (cfg : FrcSchedulerConfig) (minSep numTeams : Nat)
    (ω : FrcOracle) (P : List FMatch → Prop)
    (hP : ∀ c ms, P ms → P (generateNeighborSchedule cfg.teamsPerAlliance c ms)) :
    ∀ (fuel iteration : Nat) (temperature : Q) (sched : List FMatch) (schedScore : Q)
      (best : List FMatch) (bestScore : Q),
    P sched → P best →
    P (optimizeLoop cfg minSep numTeams ω fuel iteration temperature sched schedScore
        best bestScore).1 := by
  intro fuel
  induction fuel with
  | zero =>
    intro it T sched ss best bs hs hb
    exact hb
  | succ fuel ih =>
    intro it T sched ss best bs hs hb
    simp only [optimizeLoop]
    split
    · apply ih
      · exact prop_ite P _ _ _ (hP _ _ hs) hs
      · exact prop_ite P _ _ _ (hP _ _ hs) hb
    · exact hb

theorem generateInitialSchedule_even (cfg : FrcSchedulerConfig) (numTeams rounds : Nat)
    (hdiv : numTeams % (cfg.teamsPerAlliance * cfg.alliancesPerMatch) = 0) :
    generateInitialSchedule cfg numTeams rounds =
      (List.range (if cfg.teamsPerAlliance * cfg.alliancesPerMatch = 0 then 0
        else (numTeams * rounds + cfg.teamsPerAlliance * cfg.alliancesPerMatch - 1) /
          (cfg.teamsPerAlliance * cfg.alliancesPerMatch))).map
        (fun j => mkEvenMatch cfg.teamsPerAlliance
          (cfg.teamsPerAlliance * cfg.alliancesPerMatch) numTeams (j + 1)) := by
  simp only [generateInitialSchedule]
  rw [if_pos hdiv]

theorem mkEvenMatch_lengths (tpa T N k : Nat) :
    (mkEvenMatch tpa T N k).redAlliance.length = tpa ∧
    (mkEvenMatch tpa T N k).blueAlliance.length = tpa := by
  simp [mkEvenMatch]

theorem mkEvenMatch_values (tpa T N k : Nat) (hN : 0 < N) (v : Nat)
    (hv : v ∈ (mkEvenMatch tpa T N k).redAlliance ∨
      v ∈ (mkEvenMatch tpa T N k).blueAlliance) :
    1 ≤ v ∧ v ≤ N := by
  rcases hv with h | h
  · simp only [mkEvenMatch, List.mem_map, List.mem_range] at h
    obtain ⟨i, hi, rfl⟩ := h
    have hm := Nat.mod_lt (k * T + i) hN
    omega
  · simp only [mkEvenMatch, List.mem_map, List.mem_range] at h
    obtain ⟨i, hi, rfl⟩ := h
    have hm := Nat.mod_lt (k * T + i + tpa) hN
    omega

theorem mkEvenMatch_count (tpa N k t : Nat) (hN : 0 < N) (ht1 : 1 ≤ t) :
    (mkEvenMatch tpa (tpa * 2) N k).redAlliance.count t +
      (mkEvenMatch tpa (tpa * 2) N k).blueAlliance.count t =
    (List.range' (k * (tpa * 2)) (tpa * 2)).countP (fun j => j % N == t - 1) := by
  have hred : (mkEvenMatch tpa (tpa * 2) N k).redAlliance.count t =
      (List.range' (k * (tpa * 2)) tpa).countP (fun j => j % N == t - 1) := by
    simp only [mkEvenMatch]
    rw [List.count_eq_countP, List.countP_map, List.range'_eq_map_range, List.countP_map]
    apply List.countP_congr
    intro i hi
    simp only [Function.comp, beq_iff_eq]
    have hm := Nat.mod_lt (k * (tpa * 2) + i) hN
    omega
  have hblue : (mkEvenMatch tpa (tpa * 2) N k).blueAlliance.count t =
      (List.range' (k * (tpa * 2) + tpa) tpa).countP (fun j => j % N == t - 1) := by
    simp only [mkEvenMatch]
    rw [List.count_eq_countP, List.countP_map, List.range'_eq_map_range, List.countP_map]
    apply List.countP_congr
    intro i hi
    simp only [Function.comp, beq_iff_eq]
    have hm := Nat.mod_lt (k * (tpa * 2) + i + tpa) hN
    constructor
    · intro he
      have harith : k * (tpa * 2) + tpa + i = k * (tpa * 2) + i + tpa := by ring
      rw [harith]
      omega
    · intro he
      have harith : k * (tpa * 2) + tpa + i = k * (tpa * 2) + i + tpa := by ring
      rw [harith] at he
      omega
  rw [hred, hblue]
  have happ := List.range'_append (k * (tpa * 2)) tpa tpa 1
  have hs1 : k * (tpa * 2) + 1 * tpa = k * (tpa * 2) + tpa := by ring
  have hs2 : tpa + tpa = tpa * 2 := by ring
  rw [hs1, hs2] at happ
  rw [← happ, List.countP_append]

theorem evenSchedule_occ (tpa N M R t : Nat) (hN : 0 < N) (ht1 : 1 ≤ t) (htN : t ≤ N)
    (hMT : M * (tpa * 2) = N * R) :
    teamOccurrences ((List.range M).map
      (fun j => mkEvenMatch tpa (tpa * 2) N (j + 1))) t = R := by
  simp only [teamOccurrences, List.map_map]
  have hcongr : (List.range M).map ((fun m => m.redAlliance.count t + m.blueAlliance.count t) ∘
      (fun j => mkEvenMatch tpa (tpa * 2) N (j + 1))) =
    (List.range M).map (fun j => (List.range' ((tpa * 2) + j * (tpa * 2)) (tpa * 2)).countP
      (fun x => x % N == t - 1)) := by
    apply List.map_congr_left
    intro j hj
    simp only [Function.comp]
    rw [mkEvenMatch_count tpa N (j + 1) t hN ht1]
    have harith : (j + 1) * (tpa * 2) = (tpa * 2) + j * (tpa * 2) := by ring
    rw [harith]
  rw [hcongr, countP_blocks, hMT]
  exact countP_mod_interval N (t - 1) hN (by omega) R (tpa * 2)

theorem foldl_append_shape {γ : Type} (F : Nat → γ → FMatch → FrcOutMatch)
    (G : Nat → γ → FMatch → γ) (x : Nat) (w : FMatch → Nat) :
    ∀ (l : List FMatch),
      (∀ (n : Nat) (u : γ), ∀ m ∈ l,
        ((F n u m).red.map Prod.fst).count x +
          ((F n u m).blue.map Prod.fst).count x = w m) →
      ∀ (acc : List FrcOutMatch × γ),
      (List.foldl (fun acc m =>
          (acc.1 ++ [F acc.1.length acc.2 m], G acc.1.length acc.2 m)) acc l).1.length =
        acc.1.length + l.length ∧
      outTeamOccurrences (List.foldl (fun acc m =>
          (acc.1 ++ [F acc.1.length acc.2 m], G acc.1.length acc.2 m)) acc l).1 x =
        outTeamOccurrences acc.1 x + (l.map w).sum := by
  intro l
  induction l with
  | nil => intro hw acc; simp
  | cons a rest ih =>
    intro hw acc
    rw [List.foldl_cons]
    obtain ⟨h1, h2⟩ := ih (fun n u m hm => hw n u m (List.mem_cons_of_mem _ hm))
      (acc.1 ++ [F acc.1.length acc.2 a], G acc.1.length acc.2 a)
    have hfst : ((acc.1 ++ [F acc.1.length acc.2 a], G acc.1.length acc.2 a)).1 =
        acc.1 ++ [F acc.1.length acc.2 a] := rfl
    rw [hfst] at h1 h2
    constructor
    · rw [h1]
      simp only [List.length_append, List.length_cons, List.length_singleton, List.length_nil]
      omega
    · rw [h2]
      have hocc : outTeamOccurrences (acc.1 ++ [F acc.1.length acc.2 a]) x =
          outTeamOccurrences acc.1 x + w a := by
        unfold outTeamOccurrences
        rw [List.map_append, List.sum_append]
        simp only [List.map_cons, List.map_nil, List.sum_cons, List.sum_nil]
        rw [hw acc.1.length acc.2 a (List.mem_cons_self _ _)]
        omega
      rw [hocc, List.map_cons, List.sum_cons]
      omega

theorem frc_even_core (cfg : FrcSchedulerConfig) (teams shuffledFields : List Nat)
    (ω : FrcOracle) (now : Nat) (iters : Nat)
    (h2 : cfg.alliancesPerMatch = 2) (htpa : 0 < cfg.teamsPerAlliance)
    (hnd : teams.Nodup)
    (hdiv : teams.length % (cfg.teamsPerAlliance * cfg.alliancesPerMatch) = 0)
    (hTN : cfg.teamsPerAlliance * cfg.alliancesPerMatch ≤ teams.length) :
    (List.foldl (fun acc m =>
    (acc.1 ++
        [({ matchNumber := acc.1.length + 1,
            red := List.map (fun t => (teams.getD (t - 1) 0,
              (m.surrogates.getD []).contains t)) m.redAlliance,
            blue := List.map (fun t => (teams.getD (t - 1) 0,
              (m.surrogates.getD []).contains t)) m.blueAlliance,
            fieldId := (assignLeastUsedField shuffledFields acc.2
              (ω.fieldPick acc.1.length)).1,
            scheduledTime := now + (acc.1.length + 1 - 1) * 10 * 60 * 1000 +
              ((if (assignLeastUsedField shuffledFields acc.2
                    (ω.fieldPick acc.1.length)).1 = 0 then 1
                else (assignLeastUsedField shuffledFields acc.2
                  (ω.fieldPick acc.1.length)).1) - 1) * 5 * 60 * 1000 } : FrcOutMatch)],
      (assignLeastUsedField shuffledFields acc.2 (ω.fieldPick acc.1.length)).2))
        ([], List.replicate shuffledFields.length 0) (optimizeSchedule cfg cfg.constraints.minMatchSeparation teams.length iters ω
      (generateInitialSchedule cfg teams.length cfg.roundsCount)).1).1.length =
      (teams.length * cfg.roundsCount + cfg.teamsPerAlliance * cfg.alliancesPerMatch - 1) /
        (cfg.teamsPerAlliance * cfg.alliancesPerMatch) ∧
    ∀ i (hi : i < teams.length),
      cfg.roundsCount ≤ outTeamOccurrences
        (List.foldl (fun acc m =>
    (acc.1 ++
        [({ matchNumber := acc.1.length + 1,
            red := List.map (fun t => (teams.getD (t - 1) 0,
              (m.surrogates.getD []).contains t)) m.redAlliance,
            blue := List.map (fun t => (teams.getD (t - 1) 0,
              (m.surrogates.getD []).contains t)) m.blueAlliance,
            fieldId := (assignLeastUsedField shuffledFields acc.2
              (ω.fieldPick acc.1.length)).1,
            scheduledTime := now + (acc.1.length + 1 - 1) * 10 * 60 * 1000 +
              ((if (assignLeastUsedField shuffledFields acc.2
                    (ω.fieldPick acc.1.length)).1 = 0 then 1
                else (assignLeastUsedField shuffledFields acc.2
                  (ω.fieldPick acc.1.length)).1) - 1) * 5 * 60 * 1000 } : FrcOutMatch)],
      (assignLeastUsedField shuffledFields acc.2 (ω.fieldPick acc.1.length)).2))
          ([], List.replicate shuffledFields.length 0) (optimizeSchedule cfg cfg.constraints.minMatchSeparation teams.length iters ω
      (generateInitialSchedule cfg teams.length cfg.roundsCount)).1).1
        (teams.get ⟨i, hi⟩) := by
  have hT0 : 0 < cfg.teamsPerAlliance * cfg.alliancesPerMatch := by rw [h2]; omega
  have hN0 : 0 < teams.length := by omega
  obtain ⟨q, hq⟩ : (cfg.teamsPerAlliance * cfg.alliancesPerMatch) ∣
      teams.length * cfg.roundsCount :=
    Dvd.dvd.mul_right (Nat.dvd_of_mod_eq_zero hdiv) _
  have hM : (teams.length * cfg.roundsCount +
      cfg.teamsPerAlliance * cfg.alliancesPerMatch - 1) /
      (cfg.teamsPerAlliance * cfg.alliancesPerMatch) = q := by
    rw [hq]
    have he : cfg.teamsPerAlliance * cfg.alliancesPerMatch * q +
        cfg.teamsPerAlliance * cfg.alliancesPerMatch - 1 =
        cfg.teamsPerAlliance * cfg.alliancesPerMatch * q +
        (cfg.teamsPerAlliance * cfg.alliancesPerMatch - 1) := by omega
    rw [he, Nat.mul_add_div hT0, Nat.div_eq_of_lt (by omega)]
    omega
  have hMT : q * (cfg.teamsPerAlliance * 2) = teams.length * cfg.roundsCount := by
    have hTT : cfg.teamsPerAlliance * 2 = cfg.teamsPerAlliance * cfg.alliancesPerMatch := by
      rw [h2]
    rw [hTT, Nat.mul_comm]
    exact hq.symm
  have hinit_eq : generateInitialSchedule cfg teams.length cfg.roundsCount =
      (List.range q).map (fun j => mkEvenMatch cfg.teamsPerAlliance
        (cfg.teamsPerAlliance * cfg.alliancesPerMatch) teams.length (j + 1)) := by
    rw [generateInitialSchedule_even cfg teams.length cfg.roundsCount hdiv,
      if_neg (by omega), hM]
  have hinitP : (generateInitialSchedule cfg teams.length cfg.roundsCount).length = q ∧
      (∀ m ∈ generateInitialSchedule cfg teams.length cfg.roundsCount,
        m.redAlliance.length = cfg.teamsPerAlliance ∧
        m.blueAlliance.length = cfg.teamsPerAlliance ∧
        (∀ v, v ∈ m.redAlliance ∨ v ∈ m.blueAlliance → 1 ≤ v ∧ v ≤ teams.length)) ∧
      (∀ t, 1 ≤ t → t ≤ teams.length →
        teamOccurrences (generateInitialSchedule cfg teams.length cfg.roundsCount) t =
          cfg.roundsCount) := by
    refine ⟨by rw [hinit_eq]; simp, ?_, ?_⟩
    · intro m hm
      rw [hinit_eq] at hm
      simp only [List.mem_map, List.mem_range] at hm
      obtain ⟨j, hj, rfl⟩ := hm
      obtain ⟨hr, hb⟩ := mkEvenMatch_lengths cfg.teamsPerAlliance
        (cfg.teamsPerAlliance * cfg.alliancesPerMatch) teams.length (j + 1)
      exact ⟨hr, hb, fun v hv => mkEvenMatch_values cfg.teamsPerAlliance
        (cfg.teamsPerAlliance * cfg.alliancesPerMatch) teams.length (j + 1) hN0 v hv⟩
    · intro t ht1 ht2
      rw [hinit_eq]
      have hTT : cfg.teamsPerAlliance * cfg.alliancesPerMatch =
          cfg.teamsPerAlliance * 2 := by rw [h2]
      rw [hTT]
      exact evenSchedule_occ cfg.teamsPerAlliance teams.length q cfg.roundsCount t
        hN0 ht1 ht2 hMT
  have hPstep : ∀ (c : NeighborChoice) (ms : List FMatch),
      (ms.length = q ∧
        (∀ m ∈ ms, m.redAlliance.length = cfg.teamsPerAlliance ∧
          m.blueAlliance.length = cfg.teamsPerAlliance ∧
          (∀ v, v ∈ m.redAlliance ∨ v ∈ m.blueAlliance → 1 ≤ v ∧ v ≤ teams.length)) ∧
        (∀ t, 1 ≤ t → t ≤ teams.length → teamOccurrences ms t = cfg.roundsCount)) →
      ((generateNeighborSchedule cfg.teamsPerAlliance c ms).length = q ∧
        (∀ m ∈ generateNeighborSchedule cfg.teamsPerAlliance c ms,
          m.redAlliance.length = cfg.teamsPerAlliance ∧
          m.blueAlliance.length = cfg.teamsPerAlliance ∧
          (∀ v, v ∈ m.redAlliance ∨ v ∈ m.blueAlliance → 1 ≤ v ∧ v ≤ teams.length)) ∧
        (∀ t, 1 ≤ t → t ≤ teams.length →
          teamOccurrences (generateNeighborSchedule cfg.teamsPerAlliance c ms) t =
            cfg.roundsCount)) := by
    intro c ms hm
    obtain ⟨hl, hv, ho⟩ := hm
    obtain ⟨hnl, hnv, hno⟩ := neighbor_preserves cfg.teamsPerAlliance teams.length
      htpa c ms hv
    exact ⟨by rw [hnl]; exact hl, hnv,
      fun t ht1 ht2 => by rw [hno t]; exact ho t ht1 ht2⟩
  have hPbest := optimizeLoop_preserves cfg cfg.constraints.minMatchSeparation
    teams.length ω
    (fun ms => ms.length = q ∧
      (∀ m ∈ ms, m.redAlliance.length = cfg.teamsPerAlliance ∧
        m.blueAlliance.length = cfg.teamsPerAlliance ∧
        (∀ v, v ∈ m.redAlliance ∨ v ∈ m.blueAlliance → 1 ≤ v ∧ v ≤ teams.length)) ∧
      (∀ t, 1 ≤ t → t ≤ teams.length → teamOccurrences ms t = cfg.roundsCount))
    hPstep iters 0 cfg.simulatedAnnealing.initialTemperature
    (generateInitialSchedule cfg teams.length cfg.roundsCount)
    (calculateScheduleScore cfg cfg.constraints.minMatchSeparation teams.length
      (generateInitialSchedule cfg teams.length cfg.roundsCount))
    (generateInitialSchedule cfg teams.length cfg.roundsCount)
    (calculateScheduleScore cfg cfg.constraints.minMatchSeparation teams.length
      (generateInitialSchedule cfg teams.length cfg.roundsCount))
    hinitP hinitP
  obtain ⟨hBlen, hBvals, hBocc⟩ := hPbest
  have hBlen2 : ((optimizeSchedule cfg cfg.constraints.minMatchSeparation teams.length iters ω
      (generateInitialSchedule cfg teams.length cfg.roundsCount)).1).length = q := hBlen
  have hBvals2 : ∀ m ∈ (optimizeSchedule cfg cfg.constraints.minMatchSeparation teams.length iters ω
      (generateInitialSchedule cfg teams.length cfg.roundsCount)).1,
      m.redAlliance.length = cfg.teamsPerAlliance ∧
      m.blueAlliance.length = cfg.teamsPerAlliance ∧
      (∀ v, v ∈ m.redAlliance ∨ v ∈ m.blueAlliance → 1 ≤ v ∧ v ≤ teams.length) := hBvals
  have hBocc2 : ∀ t, 1 ≤ t → t ≤ teams.length →
      teamOccurrences ((optimizeSchedule cfg cfg.constraints.minMatchSeparation teams.length iters ω
      (generateInitialSchedule cfg teams.length cfg.roundsCount)).1) t = cfg.roundsCount := hBocc
  have hconv : List.foldl (fun acc m =>
    (acc.1 ++
        [({ matchNumber := acc.1.length + 1,
            red := List.map (fun t => (teams.getD (t - 1) 0,
              (m.surrogates.getD []).contains t)) m.redAlliance,
            blue := List.map (fun t => (teams.getD (t - 1) 0,
              (m.surrogates.getD []).contains t)) m.blueAlliance,
            fieldId := (assignLeastUsedField shuffledFields acc.2
              (ω.fieldPick acc.1.length)).1,
            scheduledTime := now + (acc.1.length + 1 - 1) * 10 * 60 * 1000 +
              ((if (assignLeastUsedField shuffledFields acc.2
                    (ω.fieldPick acc.1.length)).1 = 0 then 1
                else (assignLeastUsedField shuffledFields acc.2
                  (ω.fieldPick acc.1.length)).1) - 1) * 5 * 60 * 1000 } : FrcOutMatch)],
      (assignLeastUsedField shuffledFields acc.2 (ω.fieldPick acc.1.length)).2))
      ([], List.replicate shuffledFields.length 0) (optimizeSchedule cfg cfg.constraints.minMatchSeparation teams.length iters ω
      (generateInitialSchedule cfg teams.length cfg.roundsCount)).1 =
    List.foldl (fun acc m => (acc.1 ++ [(fun n u m =>
      ({ matchNumber := n + 1,
         red := List.map (fun t => (teams.getD (t - 1) 0,
           (m.surrogates.getD []).contains t)) m.redAlliance,
         blue := List.map (fun t => (teams.getD (t - 1) 0,
           (m.surrogates.getD []).contains t)) m.blueAlliance,
         fieldId := (assignLeastUsedField shuffledFields u (ω.fieldPick n)).1,
         scheduledTime := now + (n + 1 - 1) * 10 * 60 * 1000 +
           ((if (assignLeastUsedField shuffledFields u (ω.fieldPick n)).1 = 0 then 1
             else (assignLeastUsedField shuffledFields u (ω.fieldPick n)).1) - 1)
             * 5 * 60 * 1000 } : FrcOutMatch)) acc.1.length acc.2 m], (fun n u m => (assignLeastUsedField shuffledFields u (ω.fieldPick n)).2) acc.1.length acc.2 m))
      ([], List.replicate shuffledFields.length 0) (optimizeSchedule cfg cfg.constraints.minMatchSeparation teams.length iters ω
      (generateInitialSchedule cfg teams.length cfg.roundsCount)).1 := rfl
  rw [hconv]
  constructor
  · obtain ⟨hL, _⟩ := foldl_append_shape (fun n u m =>
      ({ matchNumber := n + 1,
         red := List.map (fun t => (teams.getD (t - 1) 0,
           (m.surrogates.getD []).contains t)) m.redAlliance,
         blue := List.map (fun t => (teams.getD (t - 1) 0,
           (m.surrogates.getD []).contains t)) m.blueAlliance,
         fieldId := (assignLeastUsedField shuffledFields u (ω.fieldPick n)).1,
         scheduledTime := now + (n + 1 - 1) * 10 * 60 * 1000 +
           ((if (assignLeastUsedField shuffledFields u (ω.fieldPick n)).1 = 0 then 1
             else (assignLeastUsedField shuffledFields u (ω.fieldPick n)).1) - 1)
             * 5 * 60 * 1000 } : FrcOutMatch))
      (fun n u m => (assignLeastUsedField shuffledFields u (ω.fieldPick n)).2) 0 (fun m =>
      ((m.redAlliance.map (fun t => (teams.getD (t - 1) 0,
        (m.surrogates.getD []).contains t))).map Prod.fst).count 0 +
      ((m.blueAlliance.map (fun t => (teams.getD (t - 1) 0,
        (m.surrogates.getD []).contains t))).map Prod.fst).count 0)
      (optimizeSchedule cfg cfg.constraints.minMatchSeparation teams.length iters ω
      (generateInitialSchedule cfg teams.length cfg.roundsCount)).1
      (fun n u m hm => rfl)
      ([], List.replicate shuffledFields.length 0)
    rw [hL, hBlen2, hM]
    simp
  · intro i hi
    obtain ⟨_, hO⟩ := foldl_append_shape (fun n u m =>
      ({ matchNumber := n + 1,
         red := List.map (fun t => (teams.getD (t - 1) 0,
           (m.surrogates.getD []).contains t)) m.redAlliance,
         blue := List.map (fun t => (teams.getD (t - 1) 0,
           (m.surrogates.getD []).contains t)) m.blueAlliance,
         fieldId := (assignLeastUsedField shuffledFields u (ω.fieldPick n)).1,
         scheduledTime := now + (n + 1 - 1) * 10 * 60 * 1000 +
           ((if (assignLeastUsedField shuffledFields u (ω.fieldPick n)).1 = 0 then 1
             else (assignLeastUsedField shuffledFields u (ω.fieldPick n)).1) - 1)
             * 5 * 60 * 1000 } : FrcOutMatch))
      (fun n u m => (assignLeastUsedField shuffledFields u (ω.fieldPick n)).2) (teams.get ⟨i, hi⟩) (fun m =>
      ((m.redAlliance.map (fun t => (teams.getD (t - 1) 0,
        (m.surrogates.getD []).contains t))).map Prod.fst).count (teams.get ⟨i, hi⟩) +
      ((m.blueAlliance.map (fun t => (teams.getD (t - 1) 0,
        (m.surrogates.getD []).contains t))).map Prod.fst).count (teams.get ⟨i, hi⟩))
      (optimizeSchedule cfg cfg.constraints.minMatchSeparation teams.length iters ω
      (generateInitialSchedule cfg teams.length cfg.roundsCount)).1
      (fun n u m hm => rfl)
      ([], List.replicate shuffledFields.length 0)
    rw [hO]
    have hsum : (List.map (fun m =>
      ((m.redAlliance.map (fun t => (teams.getD (t - 1) 0,
        (m.surrogates.getD []).contains t))).map Prod.fst).count (teams.get ⟨i, hi⟩) +
      ((m.blueAlliance.map (fun t => (teams.getD (t - 1) 0,
        (m.surrogates.getD []).contains t))).map Prod.fst).count (teams.get ⟨i, hi⟩)) (optimizeSchedule cfg cfg.constraints.minMatchSeparation teams.length iters ω
      (generateInitialSchedule cfg teams.length cfg.roundsCount)).1).sum = teamOccurrences (optimizeSchedule cfg cfg.constraints.minMatchSeparation teams.length iters ω
      (generateInitialSchedule cfg teams.length cfg.roundsCount)).1 (i + 1) := by
      have hcg : List.map (fun m =>
      ((m.redAlliance.map (fun t => (teams.getD (t - 1) 0,
        (m.surrogates.getD []).contains t))).map Prod.fst).count (teams.get ⟨i, hi⟩) +
      ((m.blueAlliance.map (fun t => (teams.getD (t - 1) 0,
        (m.surrogates.getD []).contains t))).map Prod.fst).count (teams.get ⟨i, hi⟩)) (optimizeSchedule cfg cfg.constraints.minMatchSeparation teams.length iters ω
      (generateInitialSchedule cfg teams.length cfg.roundsCount)).1 =
          List.map (fun m => m.redAlliance.count (i + 1) + m.blueAlliance.count (i + 1))
            (optimizeSchedule cfg cfg.constraints.minMatchSeparation teams.length iters ω
      (generateInitialSchedule cfg teams.length cfg.roundsCount)).1 := by
        apply List.map_congr_left
        intro m hm
        obtain ⟨_, _, hv⟩ := hBvals2 m hm
        have hr1 : (m.redAlliance.map (fun t => (teams.getD (t - 1) 0,
            (m.surrogates.getD []).contains t))).map Prod.fst =
            m.redAlliance.map (fun t => teams.getD (t - 1) 0) := by
          rw [List.map_map]
          exact List.map_congr_left (fun a ha => rfl)
        have hb1 : (m.blueAlliance.map (fun t => (teams.getD (t - 1) 0,
            (m.surrogates.getD []).contains t))).map Prod.fst =
            m.blueAlliance.map (fun t => teams.getD (t - 1) 0) := by
          rw [List.map_map]
          exact List.map_congr_left (fun a ha => rfl)
        rw [hr1, hb1,
          count_map_getD teams hnd m.redAlliance i hi (fun v hv2 => hv v (Or.inl hv2)),
          count_map_getD teams hnd m.blueAlliance i hi (fun v hv2 => hv v (Or.inr hv2))]
      rw [hcg]
      rfl
    rw [hsum, hBocc2 (i + 1) (by omega) (by omega)]
    simp [outTeamOccurrences]

/-- C5: for a valid even-division input — two alliances per match, a positive
alliance size, a duplicate-free team list, and a team count divisible by the
match size — every successful `generateFrcSchedule` run returns exactly
`ceil(teamCount * roundsCount / matchSize)` match records, and every team of
the input list appears in at least `roundsCount` station slots of the
persisted output, for every iteration budget and every sequence of random
draws. -/
theorem generateFrcSchedule_even_division
    (cfg : FrcSchedulerConfig) (teams shuffledFields : List Nat)
    (maxIterations : Option Nat) (ω : FrcOracle) (now : Nat) (out : List FrcOutMatch)
    (h2 : cfg.alliancesPerMatch = 2) (htpa : 0 < cfg.teamsPerAlliance)
    (hnd : teams.Nodup)
    (hdiv : teams.length % (cfg.teamsPerAlliance * cfg.alliancesPerMatch) = 0)
    (hok : generateFrcSchedule cfg teams shuffledFields maxIterations ω now =
      Except.ok out) :
    out.length = (teams.length * cfg.roundsCount +
        cfg.teamsPerAlliance * cfg.alliancesPerMatch - 1) /
      (cfg.teamsPerAlliance * cfg.alliancesPerMatch) ∧
    ∀ i (hi : i < teams.length),
      cfg.roundsCount ≤ outTeamOccurrences out (teams.get ⟨i, hi⟩) := by
  simp only [generateFrcSchedule] at hok
  by_cases hsf : shuffledFields.length = 0
  · rw [if_pos hsf] at hok
    simp [Bind.bind, Except.bind, throw, throwThe, MonadExceptOf.throw] at hok
  · rw [if_neg hsf] at hok
    by_cases hnt : teams.length < cfg.teamsPerAlliance * cfg.alliancesPerMatch
    · rw [if_pos hnt] at hok
      simp [Bind.bind, Except.bind, throw, throwThe, MonadExceptOf.throw,
        pure, Except.pure] at hok
    · rw [if_neg hnt] at hok
      simp only [pure, Except.pure, Bind.bind, Except.bind] at hok
      have hx := Except.ok.inj hok
      subst hx
      exact frc_even_core cfg teams shuffledFields ω now _ h2 htpa hnd hdiv
        (by omega)

/-- C5, witness: the concrete 4-team, 1v1, two-round run with one annealing
iteration returns `ceil(4 * 2 / 2) = 4` matches and every team appears at
least twice. -/
theorem generateFrcSchedule_even_division_witness :
    frcEvenWitnessOut.length = 4 ∧
    2 ≤ outTeamOccurrences frcEvenWitnessOut 101 ∧
    2 ≤ outTeamOccurrences frcEvenWitnessOut 102 ∧
    2 ≤ outTeamOccurrences frcEvenWitnessOut 103 ∧
    2 ≤ outTeamOccurrences frcEvenWitnessOut 104 := by
  have h := generateFrcSchedule_even_division cfgOneVsOne [101, 102, 103, 104] [1]
    (some 1) oracleDup 0 frcEvenWitnessOut (by decide) (by decide) (by decide)
    (by decide) (by decide)
  exact ⟨by rw [h.1]; decide, h.2 0 (by decide), h.2 1 (by decide), h.2 2 (by decide),
    h.2 3 (by decide)⟩

end RMS
